import Mathlib

/-!
# distortos: low-level UART driver for USARTv1 in STM32

A shallow embedding of `source/chip/STM32/peripherals/USARTv1/STM32-USARTv1-ChipUartLowLevel.cpp`.

* Machine integers are `Nat`; where the 32-bit width matters (the rounding addition of `start`,
  the `size_t` cursors of the interrupt handler) the wrap is written out with `% 2 ^ 32`.
* The driver object, the registers of its peripheral, the byte memory holding the transfer buffers
  and the observable history (values written to the data register, events recorded by the
  recording callback sink) form one explicit state, `ChipUartLowLevel`.
* The callback sink is a parameter of every function that may invoke it.
* The `while` loop of the interrupt handler takes a fuel argument.
-/

namespace distortos

namespace chip

/-! ## Constants of headers that are not part of the translated file -/

/-- Value of `EBADF` in newlib's `<cerrno>`. -/
def EBADF : Int := 9

/-- Value of `EBUSY` in newlib's `<cerrno>`. -/
def EBUSY : Int := 16

/-- Value of `EINVAL` in newlib's `<cerrno>`. -/
def EINVAL : Int := 22

/-- Modelled from the spec: mask of the parity error flag of `USART_SR`; the device header that
defines it is absent, the value is the one of the STM32 reference manual (bit 0). -/
def USART_SR_PE : Nat := 0x1

/-- Modelled from the spec: mask of the framing error flag of `USART_SR` (absent device header,
bit 1). -/
def USART_SR_FE : Nat := 0x2

/-- Modelled from the spec: mask of the noise error flag of `USART_SR` (absent device header,
bit 2). -/
def USART_SR_NE : Nat := 0x4

/-- Modelled from the spec: mask of the overrun error flag of `USART_SR` (absent device header,
bit 3). -/
def USART_SR_ORE : Nat := 0x8

/-- Modelled from the spec: mask of the receive-data-available flag of `USART_SR` (absent device
header, bit 5). -/
def USART_SR_RXNE : Nat := 0x20

/-- Modelled from the spec: mask of the transmit-complete flag of `USART_SR` (absent device
header, bit 6). -/
def USART_SR_TC : Nat := 0x40

/-- Modelled from the spec: mask of the transmit-data-empty flag of `USART_SR` (absent device
header, bit 7). -/
def USART_SR_TXE : Nat := 0x80

/-- Modelled from the spec: mask of the receiver enable bit of `USART_CR1` (absent device header,
bit 2). -/
def USART_CR1_RE : Nat := 0x4

/-- Modelled from the spec: mask of the transmitter enable bit of `USART_CR1` (absent device
header, bit 3). -/
def USART_CR1_TE : Nat := 0x8

/-- Modelled from the spec: position of the receive-data-available interrupt enable bit of
`USART_CR1` (absent `STM32-USARTv1-bits.h`); it is the position of `USART_SR_RXNE`. -/
def USART_CR1_RXNEIE_bit : Nat := 5

/-- Modelled from the spec: position of the transmit-complete interrupt enable bit of `USART_CR1`
(absent `STM32-USARTv1-bits.h`); it is the position of `USART_SR_TC`. -/
def USART_CR1_TCIE_bit : Nat := 6

/-- Modelled from the spec: position of the transmit-data-empty interrupt enable bit of
`USART_CR1` (absent `STM32-USARTv1-bits.h`); it is the position of `USART_SR_TXE`. -/
def USART_CR1_TXEIE_bit : Nat := 7

/-- Modelled from the spec: position of the parity selection bit of `USART_CR1` (absent
`STM32-USARTv1-bits.h`). -/
def USART_CR1_PS_bit : Nat := 9

/-- Modelled from the spec: position of the parity control enable bit of `USART_CR1` (absent
`STM32-USARTv1-bits.h`). -/
def USART_CR1_PCE_bit : Nat := 10

/-- Modelled from the spec: mask of the parity control enable bit of `USART_CR1` (absent device
header). -/
def USART_CR1_PCE : Nat := 0x400

/-- Modelled from the spec: position of the word length bit of `USART_CR1` (absent
`STM32-USARTv1-bits.h`). -/
def USART_CR1_M_bit : Nat := 12

/-- Modelled from the spec: mask of the word length bit of `USART_CR1` (absent device header). -/
def USART_CR1_M : Nat := 0x1000

/-- Modelled from the spec: mask of the peripheral enable bit of `USART_CR1` (absent device
header, bit 13). -/
def USART_CR1_UE : Nat := 0x2000

/-- Modelled from the spec: position of the oversampling mode bit of `USART_CR1` (absent
`STM32-USARTv1-bits.h`). -/
def USART_CR1_OVER8_bit : Nat := 15

/-- Modelled from the spec: position of the upper stop bit of `USART_CR2` (absent
`STM32-USARTv1-bits.h`). -/
def USART_CR2_STOP_1_bit : Nat := 13

/-- Modelled from the spec: mask of the mantissa field of `USART_BRR` (absent device header,
bits 4 to 15). -/
def USART_BRR_DIV_Mantissa : Nat := 0xFFF0

/-- Modelled from the spec: position of the mantissa field of `USART_BRR` (absent
`STM32-USARTv1-bits.h`). -/
def USART_BRR_DIV_Mantissa_bit : Nat := 4

/-- Modelled from the spec: position of the fraction field of `USART_BRR` (absent
`STM32-USARTv1-bits.h`). -/
def USART_BRR_DIV_Fraction_bit : Nat := 0

/-- Number of values of `uint32_t` and of `size_t` on the 32-bit target. -/
def UINT32_RANGE : Nat := 2 ^ 32

/-- Conversion of `bool` to an unsigned integer, as in `flag << bit`. -/
def boolToNat (b : Bool) : Nat := if b then 1 else 0

/-! ## Types -/

namespace devices

/-- The enumeration `devices::UartParity`. -/
inductive UartParity where
  | none
  | even
  | odd
  deriving DecidableEq, Repr

/-- The bitset `devices::UartBase::ErrorSet`, one flag per enumerator. -/
structure ErrorSet where
  framingError : Bool
  noiseError : Bool
  overrunError : Bool
  parityError : Bool
  deriving DecidableEq, Repr

/-- The five notifications of `devices::UartBase`, with their arguments. -/
inductive Event where
  | receiveErrorEvent (errorSet : ErrorSet)
  | readCompleteEvent (bytesRead : Nat)
  | writeCompleteEvent (bytesWritten : Nat)
  | transmitStartEvent
  | transmitCompleteEvent
  deriving DecidableEq, Repr

end devices

open devices

/-- The facts fixed at construction of `ChipUartLowLevel::Parameters` and at configuration time
which the translated functions read: the peripheral clock frequency, whether
`CONFIG_CHIP_STM32_USARTV1_HAS_CR1_OVER8_BIT` is defined, and the two character length limits
declared in the absent `ChipUartLowLevel.hpp`. -/
structure Parameters where
  peripheralFrequency_ : Nat
  hasCr1Over8Bit : Bool
  minUartCharacterLength : Nat
  maxUartCharacterLength : Nat

/-- The driver object together with its surroundings.

* `uartBase_` to `writePosition_` are the members of `ChipUartLowLevel`; pointers are addresses
  and `0` is `nullptr`; `uartBase_` is `none` for `nullptr`.
* `SR`, `CR1`, `CR2`, `BRR` are the registers of the peripheral, `DR` is the receive side of
  its data register.
* `clockEnabled` is the clock enable bit in RCC, `interruptEnabled` and `priorityConfigured`
  are the state of the interrupt line in NVIC.
* `memory` is the byte memory the buffers live in.
* `transmitted` lists the values written to the data register, oldest first.
* `events` lists what the recording callback sink has been notified of, oldest first, each
  entry with the sink the call was made on. -/
structure ChipUartLowLevel where
  uartBase_ : Option Nat
  readBuffer_ : Nat
  readSize_ : Nat
  readPosition_ : Nat
  writeBuffer_ : Nat
  writeSize_ : Nat
  writePosition_ : Nat
  SR : Nat
  CR1 : Nat
  CR2 : Nat
  BRR : Nat
  DR : Nat
  clockEnabled : Bool
  interruptEnabled : Bool
  priorityConfigured : Bool
  memory : Nat → Nat
  transmitted : List Nat
  events : List (Option Nat × Event)

/-- What a call `uartBase_->event(...)` does: given the sink the call is made on and the event,
a transformation of the state. -/
abbrev Callback := Option Nat → Event → ChipUartLowLevel → ChipUartLowLevel

/-- The callback sink that records the notification and does nothing else (it does not call
back into the driver). -/
def recordingCallback : Callback :=
  fun sink event s => { s with events := s.events ++ [(sink, event)] }

/-- A call `uartBase_->event(...)`. -/
def notify (cb : Callback) (event : Event) (s : ChipUartLowLevel) : ChipUartLowLevel :=
  cb s.uartBase_ event s

/-! ## Hardware -/

/-- Write of `enable` to the bit-band alias of bit `bit` of a 32-bit register holding `reg`. -/
def bitbandWrite (reg bit : Nat) (enable : Bool) : Nat :=
  if enable then reg ||| (1 <<< bit) else reg &&& (0xFFFFFFFF ^^^ (1 <<< bit))

/-- Read of the data register: the received character is returned and the hardware clears the
receive-data-available flag. -/
def readDR (s : ChipUartLowLevel) : Nat × ChipUartLowLevel :=
  (s.DR, { s with SR := s.SR &&& (0xFFFFFFFF ^^^ USART_SR_RXNE) })

/-- Write of the data register: the value goes out and the hardware clears the
transmit-data-empty flag. -/
def writeDR (value : Nat) (s : ChipUartLowLevel) : ChipUartLowLevel :=
  { s with transmitted := s.transmitted ++ [value],
           SR := s.SR &&& (0xFFFFFFFF ^^^ USART_SR_TXE) }

/-- Load of a `uint8_t` from memory. -/
def loadByte (s : ChipUartLowLevel) (address : Nat) : Nat :=
  s.memory address % 256

/-- Store of a value converted to `uint8_t` to memory. -/
def storeByte (address value : Nat) (s : ChipUartLowLevel) : ChipUartLowLevel :=
  { s with memory := Function.update s.memory address (value % 256) }

/-! ## `ChipUartLowLevel::Parameters` -/

/-- `Parameters::configureInterruptPriority`. -/
def configureInterruptPriority (s : ChipUartLowLevel) : ChipUartLowLevel :=
  { s with priorityConfigured := true }

/-- `Parameters::enableInterrupt`. -/
def enableInterrupt (enable : Bool) (s : ChipUartLowLevel) : ChipUartLowLevel :=
  { s with interruptEnabled := enable }

/-- `Parameters::enablePeripheralClock`. -/
def enablePeripheralClock (enable : Bool) (s : ChipUartLowLevel) : ChipUartLowLevel :=
  { s with clockEnabled := enable }

/-- `Parameters::enableRxneInterrupt`. -/
def enableRxneInterrupt (enable : Bool) (s : ChipUartLowLevel) : ChipUartLowLevel :=
  { s with CR1 := bitbandWrite s.CR1 USART_CR1_RXNEIE_bit enable }

/-- `Parameters::enableTcInterrupt`. -/
def enableTcInterrupt (enable : Bool) (s : ChipUartLowLevel) : ChipUartLowLevel :=
  { s with CR1 := bitbandWrite s.CR1 USART_CR1_TCIE_bit enable }

/-- `Parameters::enableTxeInterrupt`. -/
def enableTxeInterrupt (enable : Bool) (s : ChipUartLowLevel) : ChipUartLowLevel :=
  { s with CR1 := bitbandWrite s.CR1 USART_CR1_TXEIE_bit enable }

/-- `Parameters::is9BitFormatEnabled`. -/
def is9BitFormatEnabled (s : ChipUartLowLevel) : Bool :=
  (s.CR1 &&& (USART_CR1_M ||| USART_CR1_PCE)) == USART_CR1_M

/-- `Parameters::resetPeripheral`: the reset bit in RCC is set and cleared; with the peripheral
clock running this puts the registers of the peripheral at their reset values (`SR` reads
`0xC0`, the others `0`). -/
def resetPeripheral (s : ChipUartLowLevel) : ChipUartLowLevel :=
  if s.clockEnabled then { s with SR := 0xC0, CR1 := 0, CR2 := 0, BRR := 0, DR := 0 } else s

/-! ## `ChipUartLowLevel` -/

/-- Modelled from the spec: `ChipUartLowLevel::isStarted` of the absent `ChipUartLowLevel.hpp`;
the driver is started exactly while the callback sink is present. -/
def isStarted (s : ChipUartLowLevel) : Bool :=
  s.uartBase_.isSome

/-- Modelled from the spec: `ChipUartLowLevel::isReadInProgress` of the absent
`ChipUartLowLevel.hpp`; a read is in progress exactly while the read buffer is not null. -/
def isReadInProgress (s : ChipUartLowLevel) : Bool :=
  s.readBuffer_ != 0

/-- Modelled from the spec: `ChipUartLowLevel::isWriteInProgress` of the absent
`ChipUartLowLevel.hpp`; a write is in progress exactly while the write buffer is not null. -/
def isWriteInProgress (s : ChipUartLowLevel) : Bool :=
  s.writeBuffer_ != 0

/-- The divider `(peripheralFrequency + baudRate / 2) / baudRate` of `start`, in `uint32_t`
arithmetic: the sum wraps at `2 ^ 32`. For a baud rate of 0 the source divides by zero; the
quotient is 0 here. -/
def startDivider (peripheralFrequency baudRate : Nat) : Nat :=
  ((peripheralFrequency + baudRate / 2) % UINT32_RANGE) / baudRate

/-- The local `over8` of `start`. -/
def startOver8 (p : Parameters) (divider : Nat) : Bool :=
  if p.hasCr1Over8Bit then decide (divider < 16) else false

/-- The local `mantissa` of `start`. -/
def startMantissa (over8 : Bool) (divider : Nat) : Nat :=
  divider / (if over8 == false then 16 else 8)

/-- The local `fraction` of `start`. -/
def startFraction (over8 : Bool) (divider : Nat) : Nat :=
  divider % (if over8 == false then 16 else 8)

/-- The local `realCharacterLength` of `start`. -/
def startRealCharacterLength (characterLength : Nat) (parity : UartParity) : Nat :=
  characterLength + boolToNat (parity != UartParity.none)

/-- `ChipUartLowLevel::start`: the returned pair and the state after the call. -/
def start (p : Parameters) (uartBase baudRate characterLength : Nat) (parity : UartParity)
    (_2StopBits : Bool) (s : ChipUartLowLevel) : (Int × Nat) × ChipUartLowLevel :=
  if isStarted s == true then
    ((EBADF, 0), s)
  else
    let peripheralFrequency := p.peripheralFrequency_
    let divider := startDivider peripheralFrequency baudRate
    let over8 := startOver8 p divider
    let mantissa := startMantissa over8 divider
    let fraction := startFraction over8 divider
    if mantissa == 0 || mantissa > (USART_BRR_DIV_Mantissa >>> USART_BRR_DIV_Mantissa_bit) then
      ((EINVAL, 0), s)
    else
      let realCharacterLength := startRealCharacterLength characterLength parity
      if realCharacterLength < p.minUartCharacterLength + 1
          || realCharacterLength > p.maxUartCharacterLength then
        ((EINVAL, 0), s)
      else
        let s := enablePeripheralClock true s
        let s := resetPeripheral s
        let s := configureInterruptPriority s
        let s := { s with uartBase_ := some uartBase }
        let s := { s with BRR := (mantissa <<< USART_BRR_DIV_Mantissa_bit)
                                  ||| (fraction <<< USART_BRR_DIV_Fraction_bit) }
        let s := { s with CR2 := boolToNat _2StopBits <<< USART_CR2_STOP_1_bit }
        let s := { s with CR1 := USART_CR1_RE ||| USART_CR1_TE ||| USART_CR1_UE
                                  ||| (boolToNat over8 <<< USART_CR1_OVER8_bit)
                                  ||| (boolToNat (realCharacterLength == p.maxUartCharacterLength)
                                        <<< USART_CR1_M_bit)
                                  ||| (boolToNat (parity != UartParity.none) <<< USART_CR1_PCE_bit)
                                  ||| (boolToNat (parity == UartParity.odd) <<< USART_CR1_PS_bit) }
        let s := enableInterrupt true s
        ((0, peripheralFrequency / divider), s)

/-- `ChipUartLowLevel::startRead`: the returned code and the state after the call. -/
def startRead (buffer size : Nat) (s : ChipUartLowLevel) : Int × ChipUartLowLevel :=
  if buffer == 0 || size == 0 then
    (EINVAL, s)
  else if isStarted s == false then
    (EBADF, s)
  else if isReadInProgress s == true then
    (EBUSY, s)
  else if is9BitFormatEnabled s == true && size % 2 != 0 then
    (EINVAL, s)
  else
    let s := { s with readBuffer_ := buffer }
    let s := { s with readSize_ := size }
    let s := { s with readPosition_ := 0 }
    let s := enableRxneInterrupt true s
    (0, s)

/-- `ChipUartLowLevel::startWrite`: the returned code and the state after the call. -/
def startWrite (cb : Callback) (buffer size : Nat) (s : ChipUartLowLevel) :
    Int × ChipUartLowLevel :=
  if buffer == 0 || size == 0 then
    (EINVAL, s)
  else if isStarted s == false then
    (EBADF, s)
  else if isWriteInProgress s == true then
    (EBUSY, s)
  else if is9BitFormatEnabled s == true && size % 2 != 0 then
    (EINVAL, s)
  else
    let s := { s with writeBuffer_ := buffer }
    let s := { s with writeSize_ := size }
    let s := { s with writePosition_ := 0 }
    let s := enableTcInterrupt false s
    let s := if (s.SR &&& USART_SR_TC) != 0 then notify cb Event.transmitStartEvent s else s
    let s := enableTxeInterrupt true s
    (0, s)

/-- `ChipUartLowLevel::stop`: the returned code and the state after the call. -/
def stop (s : ChipUartLowLevel) : Int × ChipUartLowLevel :=
  if isStarted s == false then
    (EBADF, s)
  else if isReadInProgress s == true || isWriteInProgress s == true then
    (EBUSY, s)
  else
    let s := enableInterrupt false s
    let s := resetPeripheral s
    let s := enablePeripheralClock false s
    let s := { s with uartBase_ := none }
    (0, s)

/-- `ChipUartLowLevel::stopRead`: the returned byte count and the state after the call. -/
def stopRead (s : ChipUartLowLevel) : Nat × ChipUartLowLevel :=
  if isReadInProgress s == false then
    (0, s)
  else
    let s := enableRxneInterrupt false s
    let bytesRead := s.readPosition_
    let s := { s with readPosition_ := 0 }
    let s := { s with readSize_ := 0 }
    let s := { s with readBuffer_ := 0 }
    (bytesRead, s)

/-- `ChipUartLowLevel::stopWrite`: the returned byte count and the state after the call. -/
def stopWrite (s : ChipUartLowLevel) : Nat × ChipUartLowLevel :=
  if isWriteInProgress s == false then
    (0, s)
  else
    let s := enableTxeInterrupt false s
    let s := enableTcInterrupt true s
    let bytesWritten := s.writePosition_
    let s := { s with writePosition_ := 0 }
    let s := { s with writeSize_ := 0 }
    let s := { s with writeBuffer_ := 0 }
    (bytesWritten, s)

/-- The local function `decodeErrors`. -/
def decodeErrors (sr : Nat) : ErrorSet :=
  { framingError := (sr &&& USART_SR_FE) != 0,
    noiseError := (sr &&& USART_SR_NE) != 0,
    overrunError := (sr &&& USART_SR_ORE) != 0,
    parityError := (sr &&& USART_SR_PE) != 0 }

/-- The branch "read & receive errors" of the loop of `ChipUartLowLevel::interruptHandler`;
`sr` is the value of `USART_SR` read by the loop condition. -/
def interruptHandlerRead (cb : Callback) (_9BitFormat : Bool) (sr : Nat)
    (s : ChipUartLowLevel) : ChipUartLowLevel :=
  let character := (readDR s).1 % 2 ^ 16
  let s := (readDR s).2
  let readBuffer := s.readBuffer_
  let readPosition := s.readPosition_
  let s := storeByte (readBuffer + readPosition) character s
  let readPosition := (readPosition + 1) % UINT32_RANGE
  let s := if _9BitFormat == true then storeByte (readBuffer + readPosition) (character >>> 8) s
    else s
  let readPosition := if _9BitFormat == true then (readPosition + 1) % UINT32_RANGE
    else readPosition
  let s := { s with readPosition_ := readPosition }
  let s := if (sr &&& (USART_SR_FE ||| USART_SR_NE ||| USART_SR_ORE ||| USART_SR_PE)) != 0 then
      notify cb (Event.receiveErrorEvent (decodeErrors sr)) s
    else s
  if readPosition == s.readSize_ then
    notify cb (Event.readCompleteEvent (stopRead s).1) (stopRead s).2
  else s

/-- The branch "write" of the loop of `ChipUartLowLevel::interruptHandler`. -/
def interruptHandlerWrite (cb : Callback) (_9BitFormat : Bool)
    (s : ChipUartLowLevel) : ChipUartLowLevel :=
  let writeBuffer := s.writeBuffer_
  let writePosition := s.writePosition_
  let characterLow := loadByte s (writeBuffer + writePosition)
  let writePosition := (writePosition + 1) % UINT32_RANGE
  let characterHigh := if _9BitFormat == true then loadByte s (writeBuffer + writePosition) else 0
  let writePosition := if _9BitFormat == true then (writePosition + 1) % UINT32_RANGE
    else writePosition
  let s := { s with writePosition_ := writePosition }
  let s := writeDR (characterLow ||| (characterHigh <<< 8)) s
  if writePosition == s.writeSize_ then
    notify cb (Event.writeCompleteEvent (stopWrite s).1) (stopWrite s).2
  else s

/-- The branch "transmit complete" of the loop of `ChipUartLowLevel::interruptHandler`. -/
def interruptHandlerTransmitComplete (cb : Callback) (s : ChipUartLowLevel) : ChipUartLowLevel :=
  let s := enableTcInterrupt false s
  notify cb Event.transmitCompleteEvent s

/-- The `while` loop of `ChipUartLowLevel::interruptHandler`, run for at most `fuel` evaluations
of its condition; `none` when the fuel does not suffice. -/
def interruptHandlerLoop (cb : Callback) (_9BitFormat : Bool) :
    Nat → ChipUartLowLevel → Option ChipUartLowLevel
  | 0, _ => none
  | fuel + 1, s =>
    let sr := s.SR
    let maskedSr := sr &&& s.CR1 &&& (USART_SR_RXNE ||| USART_SR_TXE ||| USART_SR_TC)
    if maskedSr != 0 then
      if (maskedSr &&& USART_SR_RXNE) != 0 then
        interruptHandlerLoop cb _9BitFormat fuel (interruptHandlerRead cb _9BitFormat sr s)
      else if (maskedSr &&& USART_SR_TXE) != 0 then
        interruptHandlerLoop cb _9BitFormat fuel (interruptHandlerWrite cb _9BitFormat s)
      else if (maskedSr &&& USART_SR_TC) != 0 then
        interruptHandlerLoop cb _9BitFormat fuel (interruptHandlerTransmitComplete cb s)
      else
        interruptHandlerLoop cb _9BitFormat fuel s
    else
      some s

/-- `ChipUartLowLevel::interruptHandler`. -/
def interruptHandler (cb : Callback) (fuel : Nat) (s : ChipUartLowLevel) :
    Option ChipUartLowLevel :=
  interruptHandlerLoop cb (is9BitFormatEnabled s) fuel s

/-! ## Interrupt sources -/

/-- The hardware receives a character: it is placed in the data register and the
receive-data-available flag is set. -/
def receiveCharacter (character : Nat) (s : ChipUartLowLevel) : ChipUartLowLevel :=
  { s with SR := s.SR ||| USART_SR_RXNE, DR := character }

/-- One receive interrupt per character of the list: the character arrives and the interrupt
handler runs. -/
def receiveInterrupts (cb : Callback) (fuel : Nat) :
    List Nat → ChipUartLowLevel → Option ChipUartLowLevel
  | [], s => some s
  | character :: rest, s =>
    match interruptHandler cb fuel (receiveCharacter character s) with
    | some s => receiveInterrupts cb fuel rest s
    | none => none

/-- The transmit data register becomes empty: the hardware sets the transmit-data-empty flag. -/
def transmitDataEmpty (s : ChipUartLowLevel) : ChipUartLowLevel :=
  { s with SR := s.SR ||| USART_SR_TXE }

/-- A number of transmit-data-empty interrupts: each time the flag is set and the interrupt
handler runs. -/
def transmitInterrupts (cb : Callback) (fuel : Nat) :
    Nat → ChipUartLowLevel → Option ChipUartLowLevel
  | 0, s => some s
  | count + 1, s =>
    match interruptHandler cb fuel (transmitDataEmpty s) with
    | some s => transmitInterrupts cb fuel count s
    | none => none

/-! ## Reference values and example states used by the statements below -/

/-- A driver object right after construction, over a memory that holds at each address the low
byte of the address, and a peripheral held at its reset values with its clock off. -/
def constructed : ChipUartLowLevel :=
  { uartBase_ := none, readBuffer_ := 0, readSize_ := 0, readPosition_ := 0,
    writeBuffer_ := 0, writeSize_ := 0, writePosition_ := 0,
    SR := 0xC0, CR1 := 0, CR2 := 0, BRR := 0, DR := 0,
    clockEnabled := false, interruptEnabled := false, priorityConfigured := false,
    memory := fun address => address % 256, transmitted := [], events := [] }

/-- An example of parameters: a peripheral clocked at 16 MHz, with the `OVER8` bit, and
character lengths of 8 or 9 bits. -/
def exampleParameters : Parameters :=
  { peripheralFrequency_ := 16000000, hasCr1Over8Bit := true,
    minUartCharacterLength := 7, maxUartCharacterLength := 9 }

/-- The example driver after `start` at 115200 baud with 8 data bits and no parity. -/
def started8 : ChipUartLowLevel :=
  (start exampleParameters 1 115200 8 UartParity.none false constructed).2

/-- The example driver after `start` at 115200 baud with 9 data bits and no parity. -/
def started9 : ChipUartLowLevel :=
  (start exampleParameters 1 115200 9 UartParity.none false constructed).2

/-- The example driver started with 8 data bits, after `startWrite` of the 3 bytes at
`0x20000100`. -/
def writing8 : ChipUartLowLevel :=
  (startWrite recordingCallback 0x20000100 3 started8).2

/-- Whether the receive condition is pending: the receive-data-available flag is set and its
interrupt is enabled (bit 5 of `SR` and of `CR1`). -/
def rxPending (s : ChipUartLowLevel) : Bool :=
  s.SR.testBit 5 && s.CR1.testBit 5

/-- Whether the transmit condition is pending: the transmit-data-empty flag is set and its
interrupt is enabled (bit 7 of `SR` and of `CR1`). -/
def txPending (s : ChipUartLowLevel) : Bool :=
  s.SR.testBit 7 && s.CR1.testBit 7

/-- Whether the transmit-complete condition is pending: the transmit-complete flag is set and
its interrupt is enabled (bit 6 of `SR` and of `CR1`). -/
def tcPending (s : ChipUartLowLevel) : Bool :=
  s.SR.testBit 6 && s.CR1.testBit 6

/-- The receive branch of the interrupt handler if the receive condition is pending. -/
def serveRead (cb : Callback) (_9BitFormat : Bool) (s : ChipUartLowLevel) : ChipUartLowLevel :=
  if rxPending s then interruptHandlerRead cb _9BitFormat s.SR s else s

/-- The transmit branch of the interrupt handler if the transmit condition is pending. -/
def serveWrite (cb : Callback) (_9BitFormat : Bool) (s : ChipUartLowLevel) : ChipUartLowLevel :=
  if txPending s then interruptHandlerWrite cb _9BitFormat s else s

/-- The transmit-complete branch of the interrupt handler if that condition is pending. -/
def serveTransmitComplete (cb : Callback) (s : ChipUartLowLevel) : ChipUartLowLevel :=
  if tcPending s then interruptHandlerTransmitComplete cb s else s

/-- Whether an event is a `readCompleteEvent`. -/
def isReadCompleteEvent : Event → Bool
  | Event.readCompleteEvent _ => true
  | _ => false

/-- Whether an event is a `writeCompleteEvent`. -/
def isWriteCompleteEvent : Event → Bool
  | Event.writeCompleteEvent _ => true
  | _ => false

/-- The number of characters that fill a buffer of `size` bytes: each character takes two bytes
in the 9-bit format and one otherwise. -/
def charactersFor (_9BitFormat : Bool) (size : Nat) : Nat :=
  if _9BitFormat then size / 2 else size

/-- The number of bytes a character takes in a buffer: two in the 9-bit format, one otherwise. -/
def bytesPerCharacter (_9BitFormat : Bool) : Nat :=
  if _9BitFormat then 2 else 1

/-- The memory after the bytes of a received character are stored at `address`: the low byte
and, in the 9-bit format, the character shifted right by 8 after it. -/
def storeCharacter (_9BitFormat : Bool) (address character : Nat) (memory : Nat → Nat) :
    Nat → Nat :=
  if _9BitFormat then
    Function.update (Function.update memory address (character % 256)) (address + 1)
      ((character >>> 8) % 256)
  else Function.update memory address (character % 256)

/-- The `receiveErrorEvent` recorded for a status value, if any of its four error flags is
set. -/
def receiveErrorEvents (sink : Option Nat) (sr : Nat) : List (Option Nat × Event) :=
  if (sr &&& (USART_SR_FE ||| USART_SR_NE ||| USART_SR_ORE ||| USART_SR_PE)) != 0 then
    [(sink, Event.receiveErrorEvent (decodeErrors sr))]
  else []

/-- The value written to the data register for the character at `address`: the byte there and,
in the 9-bit format, the next byte shifted left by 8. -/
def loadCharacter (_9BitFormat : Bool) (s : ChipUartLowLevel) (address : Nat) : Nat :=
  loadByte s address ||| ((if _9BitFormat then loadByte s (address + 1) else 0) <<< 8)

/-- What the transmit and transmit-complete branches of the interrupt handler leave alone: the
callback sink, the members of the read, the memory, the receive interrupt enable bit, the
character format, and the record of read completions. -/
def ReadFrame (s t : ChipUartLowLevel) : Prop :=
  t.uartBase_ = s.uartBase_ ∧ t.readBuffer_ = s.readBuffer_ ∧ t.readSize_ = s.readSize_
    ∧ t.readPosition_ = s.readPosition_ ∧ t.memory = s.memory
    ∧ t.CR1.testBit 5 = s.CR1.testBit 5
    ∧ is9BitFormatEnabled t = is9BitFormatEnabled s
    ∧ ∃ new, t.events = s.events ++ new
        ∧ new.filter (fun e => isReadCompleteEvent e.2) = []

/-- What the transmit-complete branch of the interrupt handler leaves alone: the callback sink,
the members of the write, the memory, the values sent, the receive condition, the transmit
interrupt enable bit, the character format, and the record of write completions. -/
def WriteFrame (s t : ChipUartLowLevel) : Prop :=
  t.uartBase_ = s.uartBase_ ∧ t.writeBuffer_ = s.writeBuffer_ ∧ t.writeSize_ = s.writeSize_
    ∧ t.writePosition_ = s.writePosition_ ∧ t.memory = s.memory
    ∧ t.transmitted = s.transmitted
    ∧ rxPending t = rxPending s
    ∧ t.CR1.testBit 7 = s.CR1.testBit 7
    ∧ is9BitFormatEnabled t = is9BitFormatEnabled s
    ∧ ∃ new, t.events = s.events ++ new
        ∧ new.filter (fun e => isWriteCompleteEvent e.2) = []

/-- The bytes of a received character are in memory at `address`: its low byte and, in the
9-bit format, the character shifted right by 8 after it. -/
def holdsCharacter (_9BitFormat : Bool) (memory : Nat → Nat) (address character : Nat) : Prop :=
  memory address = character % 256
    ∧ (_9BitFormat = true → memory (address + 1) = (character >>> 8) % 256)

/-- The local `maskedSr` of the loop of `ChipUartLowLevel::interruptHandler`: the status flags
that are set, enabled in `CR1` and among the three the handler serves. -/
def interruptHandlerMaskedSr (s : ChipUartLowLevel) : Nat :=
  s.SR &&& s.CR1 &&& (USART_SR_RXNE ||| USART_SR_TXE ||| USART_SR_TC)

/-- The example driver started with 8 data bits, after `startRead` of 2 bytes to
`0x20000000`. -/
def reading8 : ChipUartLowLevel :=
  (startRead 0x20000000 2 started8).2

/-- A callback sink that records the notification and, when notified of `readCompleteEvent`,
calls `startRead(buffer, size)` from inside the callback. -/
def restartReadCallback (buffer size : Nat) : Callback :=
  fun sink event s =>
    match event with
    | Event.readCompleteEvent _ => (startRead buffer size (recordingCallback sink event s)).2
    | _ => recordingCallback sink event s

/-- A callback sink that records the notification and, when notified of `writeCompleteEvent`,
calls `startWrite(buffer, size)` from inside the callback. -/
def restartWriteCallback (buffer size : Nat) : Callback :=
  fun sink event s =>
    match event with
    | Event.writeCompleteEvent _ =>
      (startWrite recordingCallback buffer size (recordingCallback sink event s)).2
    | _ => recordingCallback sink event s

/-- The example read of 2 bytes when its first byte is stored and the character 0x42 has
arrived. -/
def reading8Last : ChipUartLowLevel :=
  { reading8 with SR := 0xE0, DR := 0x42, readPosition_ := 1 }

/-- The example read at the completion check of the receive branch: the character 0x42 is
stored and the cursor is 2. -/
def reading8Check : ChipUartLowLevel :=
  { reading8Last with
    SR := reading8Last.SR &&& (0xFFFFFFFF ^^^ USART_SR_RXNE),
    memory := storeCharacter false (reading8Last.readBuffer_ + reading8Last.readPosition_)
      (reading8Last.DR % 2 ^ 16) reading8Last.memory,
    readPosition_ := reading8Last.readPosition_ + bytesPerCharacter false }

/-- The example write of 3 bytes when two of them are sent and the transmit data register is
empty. -/
def writing8Last : ChipUartLowLevel :=
  { writing8 with SR := 0xC0, writePosition_ := 2 }

/-- The example write at the completion check of the transmit branch: the last byte is written
to the data register and the cursor is 3. -/
def writing8Check : ChipUartLowLevel :=
  writeDR (loadCharacter false writing8Last (writing8Last.writeBuffer_ + writing8Last.writePosition_))
    { writing8Last with
      writePosition_ := writing8Last.writePosition_ + bytesPerCharacter false }

/-- The hardware changes the status register and the receive side of the data register, as it
may between two runs of the interrupt handler. -/
def hardwareStatus (sr dr : Nat) (s : ChipUartLowLevel) : ChipUartLowLevel :=
  { s with SR := sr, DR := dr }

/-- Runs of the interrupt handler, one per element of the list, each after the hardware has
put the given values in the status register and in the data register. -/
def handlerRuns (cb : Callback) (fuel : Nat) :
    List (Nat × Nat) → ChipUartLowLevel → Option ChipUartLowLevel
  | [], s => some s
  | (sr, dr) :: rest, s =>
    match interruptHandler cb fuel (hardwareStatus sr dr s) with
    | some s => handlerRuns cb fuel rest s
    | none => none

/-- Whether an event is a `transmitCompleteEvent`. -/
def isTransmitCompleteEvent : Event → Bool
  | Event.transmitCompleteEvent => true
  | _ => false

/-- What the receive branch of the interrupt handler leaves alone of the transmit side: the
callback sink, the transmit-data-empty and transmit-complete flags and interrupt enable bits,
and the record of transmit-complete notifications. -/
def TransmitFrame (s t : ChipUartLowLevel) : Prop :=
  t.uartBase_ = s.uartBase_ ∧ t.SR.testBit 6 = s.SR.testBit 6 ∧ t.SR.testBit 7 = s.SR.testBit 7
    ∧ t.CR1.testBit 6 = s.CR1.testBit 6 ∧ t.CR1.testBit 7 = s.CR1.testBit 7
    ∧ ∃ new, t.events = s.events ++ new
        ∧ new.filter (fun e => isTransmitCompleteEvent e.2) = []

/-- A callback sink that does not touch the peripheral: its notifications leave the status
register and the first control register as they are. A sink that does not call back into the
driver is of this kind. -/
def LeavesPeripheralAlone (cb : Callback) : Prop :=
  ∀ (sink : Option Nat) (event : Event) (s : ChipUartLowLevel),
    (cb sink event s).SR = s.SR ∧ (cb sink event s).CR1 = s.CR1

/-- The example driver started with 9 data bits, with a read of 4 bytes to `0x20000000` and a
write of the 4 bytes at `0x20000100` in progress, when the hardware has received the character
`0x141` and the transmit data register is empty. -/
def transferring9 : ChipUartLowLevel :=
  hardwareStatus 0xE0 0x141
    (startWrite recordingCallback 0x20000100 4 (startRead 0x20000000 4 started9).2).2

/-- A callback sink that does not call back into the driver: its notification is recorded and
may change the memory, and everything else, the members of the driver and the registers of the
peripheral among it, stays as it is. -/
def DoesNotCallBack (cb : Callback) : Prop :=
  ∀ (sink : Option Nat) (event : Event) (s : ChipUartLowLevel),
    cb sink event s
      = { s with memory := (cb sink event s).memory, events := s.events ++ [(sink, event)] }

/-- The end of the receive branch of the interrupt handler, from the state in which the
character is stored and the cursor is advanced to `readPosition`: the notification of the
receive errors and the completion check. -/
def interruptHandlerReadCheck (cb : Callback) (sr readPosition : Nat) (s : ChipUartLowLevel) :
    ChipUartLowLevel :=
  let s := if (sr &&& (USART_SR_FE ||| USART_SR_NE ||| USART_SR_ORE ||| USART_SR_PE)) != 0 then
      notify cb (Event.receiveErrorEvent (decodeErrors sr)) s
    else s
  if readPosition == s.readSize_ then
    notify cb (Event.readCompleteEvent (stopRead s).1) (stopRead s).2
  else s

/-- The end of the transmit branch of the interrupt handler, from the state in which the
character is written to the data register and the cursor is advanced to `writePosition`: the
completion check. -/
def interruptHandlerWriteCheck (cb : Callback) (writePosition : Nat) (s : ChipUartLowLevel) :
    ChipUartLowLevel :=
  if writePosition == s.writeSize_ then
    notify cb (Event.writeCompleteEvent (stopWrite s).1) (stopWrite s).2
  else s

theorem mantissa_field_width :
    USART_BRR_DIV_Mantissa >>> USART_BRR_DIV_Mantissa_bit = 0xFFF := by
  decide

theorem EINVAL_ne_zero : EINVAL ≠ 0 := by decide

theorem EBADF_ne_zero : EBADF ≠ 0 := by decide

theorem EBUSY_ne_zero : EBUSY ≠ 0 := by decide

/-- The pair returned by `start` on a driver that is not started, by cases on its two checks. -/
theorem start_result_of_not_started (p : Parameters) (uartBase baudRate characterLength : Nat)
    (parity : UartParity) (_2StopBits : Bool) (s : ChipUartLowLevel) (hs : isStarted s = false) :
    (start p uartBase baudRate characterLength parity _2StopBits s).1 =
      if startMantissa (startOver8 p (startDivider p.peripheralFrequency_ baudRate))
            (startDivider p.peripheralFrequency_ baudRate) = 0
          ∨ 0xFFF < startMantissa (startOver8 p (startDivider p.peripheralFrequency_ baudRate))
            (startDivider p.peripheralFrequency_ baudRate) then (EINVAL, 0)
      else if startRealCharacterLength characterLength parity < p.minUartCharacterLength + 1
          ∨ p.maxUartCharacterLength < startRealCharacterLength characterLength parity then
        (EINVAL, 0)
      else (0, p.peripheralFrequency_ / startDivider p.peripheralFrequency_ baudRate) := by
  simp only [start, hs, mantissa_field_width]
  split_ifs <;> simp_all

theorem startMantissa_eq (over8 : Bool) (d : Nat) :
    startMantissa over8 d = if over8 then d / 8 else d / 16 := by
  unfold startMantissa
  cases over8 <;> simp

theorem startFraction_eq (over8 : Bool) (d : Nat) :
    startFraction over8 d = if over8 then d % 8 else d % 16 := by
  unfold startFraction
  cases over8 <;> simp

/-- C1: on a driver that is not started and for a positive baud rate, `start` fails with `EINVAL`
on account of the baud rate, that is whatever character format is requested, if and only if the
mantissa (divider / 8 when 8x oversampling is selected, divider / 16 otherwise) is 0 or exceeds
0xFFF; the divider is `(frequency + baudRate / 2) / baudRate` as `start` computes it. The format
check returns the same code, so for a single call the equivalence is that of calls whose format
is valid: it is the second part. -/
theorem start_baud_rate_infeasible_iff (p : Parameters)
    (hp : p.minUartCharacterLength + 1 ≤ p.maxUartCharacterLength)
    (hmax : p.maxUartCharacterLength < 256)
    (s : ChipUartLowLevel) (hs : isStarted s = false) (baudRate : Nat) (_hb : 0 < baudRate) :
    ((∀ uartBase characterLength parity _2StopBits, characterLength < 256 →
        (start p uartBase baudRate characterLength parity _2StopBits s).1 = (EINVAL, 0)) ↔
      ((if startOver8 p (startDivider p.peripheralFrequency_ baudRate)
          then startDivider p.peripheralFrequency_ baudRate / 8
          else startDivider p.peripheralFrequency_ baudRate / 16) = 0
        ∨ 0xFFF < (if startOver8 p (startDivider p.peripheralFrequency_ baudRate)
          then startDivider p.peripheralFrequency_ baudRate / 8
          else startDivider p.peripheralFrequency_ baudRate / 16)))
    ∧ (∀ uartBase characterLength parity _2StopBits,
        p.minUartCharacterLength + 1 ≤ startRealCharacterLength characterLength parity →
        startRealCharacterLength characterLength parity ≤ p.maxUartCharacterLength →
        ((start p uartBase baudRate characterLength parity _2StopBits s).1 = (EINVAL, 0) ↔
          ((if startOver8 p (startDivider p.peripheralFrequency_ baudRate)
              then startDivider p.peripheralFrequency_ baudRate / 8
              else startDivider p.peripheralFrequency_ baudRate / 16) = 0
            ∨ 0xFFF < (if startOver8 p (startDivider p.peripheralFrequency_ baudRate)
              then startDivider p.peripheralFrequency_ baudRate / 8
              else startDivider p.peripheralFrequency_ baudRate / 16)))) := by
  rw [← startMantissa_eq]
  have hvalid : ∀ uartBase characterLength parity _2StopBits,
      p.minUartCharacterLength + 1 ≤ startRealCharacterLength characterLength parity →
      startRealCharacterLength characterLength parity ≤ p.maxUartCharacterLength →
      ((start p uartBase baudRate characterLength parity _2StopBits s).1 = (EINVAL, 0) ↔
        (startMantissa (startOver8 p (startDivider p.peripheralFrequency_ baudRate))
            (startDivider p.peripheralFrequency_ baudRate) = 0
          ∨ 0xFFF < startMantissa (startOver8 p (startDivider p.peripheralFrequency_ baudRate))
            (startDivider p.peripheralFrequency_ baudRate))) := by
    intro uartBase characterLength parity _2StopBits hlow hhigh
    rw [start_result_of_not_started p _ _ _ _ _ s hs]
    constructor
    · intro h1
      by_contra hm
      rw [if_neg hm, if_neg (by omega)] at h1
      exact EINVAL_ne_zero (congrArg Prod.fst h1).symm
    · intro hm
      rw [if_pos hm]
  refine ⟨⟨?_, ?_⟩, hvalid⟩
  · intro h
    have hr : startRealCharacterLength p.maxUartCharacterLength UartParity.none
        = p.maxUartCharacterLength := by
      simp [startRealCharacterLength, boolToNat]
    exact (hvalid 0 p.maxUartCharacterLength UartParity.none false (by rw [hr]; exact hp)
      (by rw [hr])).mp (h 0 p.maxUartCharacterLength UartParity.none false hmax)
  · intro hm uartBase characterLength parity _2StopBits _
    rw [start_result_of_not_started p _ _ _ _ _ s hs, if_pos hm]

/-- Witness of C1: the example driver, not started, at 115200 baud, where the mantissa is 8 and
`start` with 8 data bits and no parity succeeds; at 4000000 baud the mantissa is 0 and `start`
returns `EINVAL`. -/
theorem start_baud_rate_infeasible_iff_witness :
    (exampleParameters.minUartCharacterLength + 1 ≤ exampleParameters.maxUartCharacterLength
      ∧ exampleParameters.maxUartCharacterLength < 256
      ∧ isStarted constructed = false ∧ 0 < 115200)
    ∧ (start exampleParameters 1 115200 8 UartParity.none false constructed).1 = (0, 115107)
    ∧ (start exampleParameters 1 4000000 8 UartParity.none false constructed).1 = (EINVAL, 0)
    ∧ (((∀ uartBase characterLength parity _2StopBits, characterLength < 256 →
        (start exampleParameters uartBase 115200 characterLength parity _2StopBits
          constructed).1 = (EINVAL, 0)) ↔
      ((if startOver8 exampleParameters
            (startDivider exampleParameters.peripheralFrequency_ 115200)
          then startDivider exampleParameters.peripheralFrequency_ 115200 / 8
          else startDivider exampleParameters.peripheralFrequency_ 115200 / 16) = 0
        ∨ 0xFFF < (if startOver8 exampleParameters
            (startDivider exampleParameters.peripheralFrequency_ 115200)
          then startDivider exampleParameters.peripheralFrequency_ 115200 / 8
          else startDivider exampleParameters.peripheralFrequency_ 115200 / 16)))
    ∧ (∀ uartBase characterLength parity _2StopBits,
        exampleParameters.minUartCharacterLength + 1
          ≤ startRealCharacterLength characterLength parity →
        startRealCharacterLength characterLength parity
          ≤ exampleParameters.maxUartCharacterLength →
        ((start exampleParameters uartBase 115200 characterLength parity _2StopBits
            constructed).1 = (EINVAL, 0) ↔
          ((if startOver8 exampleParameters
                (startDivider exampleParameters.peripheralFrequency_ 115200)
              then startDivider exampleParameters.peripheralFrequency_ 115200 / 8
              else startDivider exampleParameters.peripheralFrequency_ 115200 / 16) = 0
            ∨ 0xFFF < (if startOver8 exampleParameters
                (startDivider exampleParameters.peripheralFrequency_ 115200)
              then startDivider exampleParameters.peripheralFrequency_ 115200 / 8
              else startDivider exampleParameters.peripheralFrequency_ 115200 / 16))))) :=
  ⟨⟨by decide, by decide, rfl, by decide⟩, by decide, by decide,
    start_baud_rate_infeasible_iff exampleParameters (by decide) (by decide) constructed rfl
      115200 (by decide)⟩

/-- The state after a successful `start` holds the mantissa and the fraction in `BRR`. -/
theorem start_BRR_of_success (p : Parameters) (uartBase baudRate characterLength : Nat)
    (parity : UartParity) (_2StopBits : Bool) (s : ChipUartLowLevel)
    (hok : (start p uartBase baudRate characterLength parity _2StopBits s).1.1 = 0) :
    (start p uartBase baudRate characterLength parity _2StopBits s).2.BRR =
      (startMantissa (startOver8 p (startDivider p.peripheralFrequency_ baudRate))
          (startDivider p.peripheralFrequency_ baudRate) <<< 4)
        ||| startFraction (startOver8 p (startDivider p.peripheralFrequency_ baudRate))
          (startDivider p.peripheralFrequency_ baudRate) := by
  revert hok
  simp only [start]
  split_ifs
  · intro h; exact absurd h EBADF_ne_zero
  · intro h; exact absurd h EINVAL_ne_zero
  · intro h; exact absurd h EINVAL_ne_zero
  · intro _
    simp [enableInterrupt, USART_BRR_DIV_Mantissa_bit, USART_BRR_DIV_Fraction_bit]

/-- A successful `start` was called on a driver that was not started. -/
theorem not_started_of_start_success (p : Parameters) (uartBase baudRate characterLength : Nat)
    (parity : UartParity) (_2StopBits : Bool) (s : ChipUartLowLevel)
    (hok : (start p uartBase baudRate characterLength parity _2StopBits s).1.1 = 0) :
    isStarted s = false := by
  cases hs : isStarted s
  · rfl
  · simp [start, hs, EBADF] at hok

/-- C2: for every successful `start` with a positive baud rate, the second component of the
result is `peripheralFrequency / divider`, where the divider is not zero and is the one
programmed into the baud rate register: `mantissa * base + fraction = divider` with
`fraction < base` (base 8 with 8x oversampling, 16 otherwise) and
`BRR = (mantissa << 4) | fraction`. -/
theorem start_achieved_baud_rate (p : Parameters) (uartBase baudRate characterLength : Nat)
    (parity : UartParity) (_2StopBits : Bool) (s : ChipUartLowLevel) (_hb : 0 < baudRate)
    (hok : (start p uartBase baudRate characterLength parity _2StopBits s).1.1 = 0) :
    (start p uartBase baudRate characterLength parity _2StopBits s).1.2
        = p.peripheralFrequency_ / startDivider p.peripheralFrequency_ baudRate
      ∧ startDivider p.peripheralFrequency_ baudRate ≠ 0
      ∧ ∃ base mantissa fraction,
          base = (if startOver8 p (startDivider p.peripheralFrequency_ baudRate) then 8 else 16)
          ∧ mantissa = startDivider p.peripheralFrequency_ baudRate / base
          ∧ fraction = startDivider p.peripheralFrequency_ baudRate % base
          ∧ mantissa * base + fraction = startDivider p.peripheralFrequency_ baudRate
          ∧ fraction < base
          ∧ (start p uartBase baudRate characterLength parity _2StopBits s).2.BRR
              = (mantissa <<< 4) ||| fraction := by
  have hs := not_started_of_start_success p uartBase baudRate characterLength parity _2StopBits
    s hok
  have hbrr := start_BRR_of_success p uartBase baudRate characterLength parity _2StopBits s hok
  have hres := start_result_of_not_started p uartBase baudRate characterLength parity
    _2StopBits s hs
  generalize startDivider p.peripheralFrequency_ baudRate = d at *
  generalize startOver8 p d = over8 at *
  by_cases h1 : startMantissa over8 d = 0 ∨ 0xFFF < startMantissa over8 d
  · rw [if_pos h1] at hres
    rw [hres] at hok; exact absurd hok EINVAL_ne_zero
  · rw [if_neg h1] at hres
    by_cases h2 : startRealCharacterLength characterLength parity < p.minUartCharacterLength + 1
        ∨ p.maxUartCharacterLength < startRealCharacterLength characterLength parity
    · rw [if_pos h2] at hres
      rw [hres] at hok; exact absurd hok EINVAL_ne_zero
    · rw [if_neg h2] at hres
      rw [startMantissa_eq, startFraction_eq] at hbrr
      refine ⟨by rw [hres], ?_, ?_⟩
      · rintro rfl
        apply h1
        left
        rw [startMantissa_eq]
        cases over8 <;> simp
      · refine ⟨if over8 then 8 else 16, d / (if over8 then 8 else 16),
          d % (if over8 then 8 else 16), rfl, rfl, rfl, ?_, ?_, ?_⟩
        · rw [Nat.mul_comm]; exact Nat.div_add_mod d _
        · apply Nat.mod_lt; cases over8 <;> simp
        · rw [hbrr]; cases over8 <;> simp

/-- Witness of C2: at 16 MHz and 115200 baud the divider is 139, the mantissa 8, the fraction
11, the register holds `(8 << 4) | 11` and the achieved rate is `16000000 / 139`. -/
theorem start_achieved_baud_rate_witness :
    (0 < 115200 ∧ (start exampleParameters 1 115200 8 UartParity.none false constructed).1.1 = 0)
    ∧ startDivider 16000000 115200 = 139
    ∧ startOver8 exampleParameters 139 = false
    ∧ 139 / 16 = 8 ∧ 139 % 16 = 11
    ∧ (start exampleParameters 1 115200 8 UartParity.none false constructed).1.2
        = 16000000 / 139
    ∧ (start exampleParameters 1 115200 8 UartParity.none false constructed).2.BRR
        = (8 <<< 4) ||| 11
    ∧ ((start exampleParameters 1 115200 8 UartParity.none false constructed).1.2
        = exampleParameters.peripheralFrequency_
            / startDivider exampleParameters.peripheralFrequency_ 115200
      ∧ startDivider exampleParameters.peripheralFrequency_ 115200 ≠ 0
      ∧ ∃ base mantissa fraction,
          base = (if startOver8 exampleParameters
              (startDivider exampleParameters.peripheralFrequency_ 115200) then 8 else 16)
          ∧ mantissa = startDivider exampleParameters.peripheralFrequency_ 115200 / base
          ∧ fraction = startDivider exampleParameters.peripheralFrequency_ 115200 % base
          ∧ mantissa * base + fraction
              = startDivider exampleParameters.peripheralFrequency_ 115200
          ∧ fraction < base
          ∧ (start exampleParameters 1 115200 8 UartParity.none false constructed).2.BRR
              = (mantissa <<< 4) ||| fraction) :=
  ⟨⟨by decide, by decide⟩, by decide, by decide, by decide, by decide, by decide, by decide,
    start_achieved_baud_rate exampleParameters 1 115200 8 UartParity.none false constructed
      (by decide) (by decide)⟩

/-- C3: for a positive baud rate and `frequency + baudRate / 2` below `2 ^ 32`, the divider of
`start` is `frequency / baudRate` rounded to the nearest integer:
`2 * |frequency - divider * baudRate| ≤ baudRate`. -/
theorem startDivider_rounds_to_nearest (frequency baudRate : Nat) (hb : 0 < baudRate)
    (hno : frequency + baudRate / 2 < 2 ^ 32) :
    2 * |(frequency : Int) - (startDivider frequency baudRate : Int) * (baudRate : Int)|
      ≤ (baudRate : Int) := by
  unfold startDivider UINT32_RANGE
  rw [Nat.mod_eq_of_lt hno]
  have h1 := Nat.div_add_mod (frequency + baudRate / 2) baudRate
  have h2 := Nat.mod_lt (frequency + baudRate / 2) hb
  generalize (frequency + baudRate / 2) / baudRate = d at *
  generalize (frequency + baudRate / 2) % baudRate = r at *
  have h5 := Nat.div_add_mod baudRate 2
  have h6 := Nat.mod_lt baudRate (show 0 < 2 by decide)
  generalize baudRate / 2 = half at *
  have h3 : (d : Int) * (baudRate : Int) = ((baudRate * d : Nat) : Int) := by push_cast; ring
  rw [h3]
  generalize baudRate * d = e at *
  rcases abs_cases ((frequency : Int) - (e : Int)) with ⟨h, _⟩ | ⟨h, _⟩ <;> rw [h] <;> omega

/-- Witness of C3: 16 MHz and 115200 baud. -/
theorem startDivider_rounds_to_nearest_witness :
    (0 < 115200 ∧ 16000000 + 115200 / 2 < 2 ^ 32)
    ∧ 2 * |((16000000 : Nat) : Int) - (startDivider 16000000 115200 : Int) * ((115200 : Nat) : Int)|
      ≤ ((115200 : Nat) : Int) :=
  ⟨⟨by decide, by decide⟩,
    startDivider_rounds_to_nearest 16000000 115200 (by decide) (by decide)⟩

/-- Counterexample to C4: a peripheral frequency of 16 MHz and a baud rate of 32000001 are both
at least 1 and fit 32 bits, and the divider computed by `start` is 0. -/
theorem startDivider_not_always_positive :
    1 ≤ 16000000 ∧ 1 ≤ 32000001 ∧ 16000000 < 2 ^ 32 ∧ 32000001 < 2 ^ 32
      ∧ ¬ (1 ≤ startDivider 16000000 32000001) := by
  decide

/-- C4, amended: for a baud rate of at least 1 and `frequency + baudRate / 2` below `2 ^ 32`, the
divider computed by `start` is at least 1 if and only if the baud rate is at most twice the
peripheral frequency. -/
theorem startDivider_pos_iff (frequency baudRate : Nat) (hb : 1 ≤ baudRate)
    (hno : frequency + baudRate / 2 < 2 ^ 32) :
    1 ≤ startDivider frequency baudRate ↔ baudRate ≤ 2 * frequency := by
  unfold startDivider UINT32_RANGE
  rw [Nat.mod_eq_of_lt hno, Nat.le_div_iff_mul_le hb]
  omega

/-- Witness of C4, amended: 16 MHz and 115200 baud. -/
theorem startDivider_pos_iff_witness :
    (1 ≤ 115200 ∧ 16000000 + 115200 / 2 < 2 ^ 32)
    ∧ (1 ≤ startDivider 16000000 115200 ↔ 115200 ≤ 2 * 16000000) :=
  ⟨⟨by decide, by decide⟩, startDivider_pos_iff 16000000 115200 (by decide) (by decide)⟩

/-- C5: on a driver that is not started and for a feasible positive baud rate (the mantissa is
neither 0 nor above 0xFFF), `start` fails with `EINVAL` if and only if the real character
length, `characterLength` plus 1 when parity is even or odd, is below
`minUartCharacterLength + 1` or above `maxUartCharacterLength`. -/
theorem start_invalid_format_iff (p : Parameters) (uartBase baudRate characterLength : Nat)
    (parity : UartParity) (_2StopBits : Bool) (s : ChipUartLowLevel) (hs : isStarted s = false)
    (_hb : 0 < baudRate)
    (hfeasible : ¬ (startMantissa (startOver8 p (startDivider p.peripheralFrequency_ baudRate))
          (startDivider p.peripheralFrequency_ baudRate) = 0
        ∨ 0xFFF < startMantissa (startOver8 p (startDivider p.peripheralFrequency_ baudRate))
          (startDivider p.peripheralFrequency_ baudRate))) :
    (start p uartBase baudRate characterLength parity _2StopBits s).1 = (EINVAL, 0) ↔
      (characterLength + (if parity = UartParity.even ∨ parity = UartParity.odd then 1 else 0)
          < p.minUartCharacterLength + 1
        ∨ p.maxUartCharacterLength
          < characterLength
            + (if parity = UartParity.even ∨ parity = UartParity.odd then 1 else 0)) := by
  have hr : startRealCharacterLength characterLength parity
      = characterLength
        + (if parity = UartParity.even ∨ parity = UartParity.odd then 1 else 0) := by
    cases parity <;> simp [startRealCharacterLength, boolToNat]
  rw [start_result_of_not_started p _ _ _ _ _ s hs, if_neg hfeasible, hr]
  constructor
  · intro h
    by_contra hc
    rw [if_neg hc] at h
    exact EINVAL_ne_zero (congrArg Prod.fst h).symm
  · intro h
    rw [if_pos h]

/-- Witness of C5: 7 data bits without parity are rejected by the example driver. -/
theorem start_invalid_format_iff_witness :
    (isStarted constructed = false ∧ 0 < 115200)
    ∧ (start exampleParameters 1 115200 7 UartParity.none false constructed).1 = (EINVAL, 0)
    ∧ ((start exampleParameters 1 115200 7 UartParity.none false constructed).1 = (EINVAL, 0) ↔
      (7 + (if UartParity.none = UartParity.even ∨ UartParity.none = UartParity.odd then 1 else 0)
          < exampleParameters.minUartCharacterLength + 1
        ∨ exampleParameters.maxUartCharacterLength
          < 7 + (if UartParity.none = UartParity.even ∨ UartParity.none = UartParity.odd
              then 1 else 0))) :=
  ⟨⟨rfl, by decide⟩, by decide,
    start_invalid_format_iff exampleParameters 1 115200 7 UartParity.none false constructed rfl
      (by decide) (by decide)⟩

/-- The started check is the first statement of `start`. -/
theorem start_of_started (p : Parameters) (uartBase baudRate characterLength : Nat)
    (parity : UartParity) (_2StopBits : Bool) (s : ChipUartLowLevel) (hs : isStarted s = true) :
    start p uartBase baudRate characterLength parity _2StopBits s = ((EBADF, 0), s) := by
  simp [start, hs]

/-- C6: `start` on a driver that is already started returns `EBADF` for every baud rate,
character length, parity and stop bit argument (a baud rate of 0 and an invalid format
included: the check comes first), and changes nothing. -/
theorem start_already_started (p : Parameters) (uartBase baudRate characterLength : Nat)
    (parity : UartParity) (_2StopBits : Bool) (s : ChipUartLowLevel) (hs : isStarted s = true) :
    start p uartBase baudRate characterLength parity _2StopBits s = ((EBADF, 0), s) :=
  start_of_started p uartBase baudRate characterLength parity _2StopBits s hs

/-- Witness of C6: the started example driver, asked to start with a baud rate of 0 and a
character length of 0. -/
theorem start_already_started_witness :
    isStarted started8 = true
    ∧ start exampleParameters 2 0 0 UartParity.odd true started8 = ((EBADF, 0), started8) :=
  ⟨by decide, start_already_started exampleParameters 2 0 0 UartParity.odd true started8
    (by decide)⟩

/-! ## Bits -/

theorem and_two_pow_bne_zero (w k : Nat) : ((w &&& 2 ^ k) != 0) = w.testBit k := by
  cases h : w.testBit k
  · have : w &&& 2 ^ k = 0 := by
      apply Nat.eq_of_testBit_eq
      intro i
      simp only [Nat.testBit_and, Nat.testBit_two_pow, Nat.zero_testBit]
      by_cases hk : k = i
      · subst hk; simp [h]
      · simp [hk]
    simp [this]
  · have : (w &&& 2 ^ k).testBit k = true := by
      simp [Nat.testBit_and, Nat.testBit_two_pow, h]
    have hne : w &&& 2 ^ k ≠ 0 := by
      intro h0; rw [h0] at this; simp at this
    simp [hne]

theorem or_bne_zero (a b : Nat) : ((a ||| b) != 0) = ((a != 0) || (b != 0)) := by
  by_cases ha : a = 0
  · subst ha; simp
  · have : a ||| b ≠ 0 := by
      intro h
      apply ha
      apply Nat.eq_of_testBit_eq
      intro i
      have := congrArg (fun z => Nat.testBit z i) h
      simp only [Nat.testBit_or, Nat.zero_testBit, Bool.or_eq_false_iff] at this
      rw [this.1, Nat.zero_testBit]
    have h1 : (a ||| b != 0) = true := bne_iff_ne.mpr this
    have h2 : (a != 0) = true := bne_iff_ne.mpr ha
    rw [h1, h2, Bool.true_or]

theorem and_and_two_pow (w a k : Nat) (h : a.testBit k = true) :
    (w &&& a) &&& 2 ^ k = w &&& 2 ^ k := by
  apply Nat.eq_of_testBit_eq
  intro i
  simp only [Nat.testBit_and, Nat.testBit_two_pow]
  by_cases hk : k = i
  · subst hk; simp [h]
  · simp [hk]

theorem interruptMask_eq :
    USART_SR_RXNE ||| USART_SR_TXE ||| USART_SR_TC = 2 ^ 5 ||| 2 ^ 7 ||| 2 ^ 6 := by decide

/-- The loop condition of the interrupt handler in terms of single bits. -/
theorem maskedSr_bne_zero (sr cr1 : Nat) :
    ((sr &&& cr1 &&& (USART_SR_RXNE ||| USART_SR_TXE ||| USART_SR_TC)) != 0)
      = ((sr.testBit 5 && cr1.testBit 5) || (sr.testBit 7 && cr1.testBit 7)
          || (sr.testBit 6 && cr1.testBit 6)) := by
  rw [interruptMask_eq, Nat.and_or_distrib_left, Nat.and_or_distrib_left, or_bne_zero, or_bne_zero,
    and_two_pow_bne_zero, and_two_pow_bne_zero, and_two_pow_bne_zero]
  simp only [Nat.testBit_and]

theorem maskedSr_RXNE (sr cr1 : Nat) :
    (((sr &&& cr1 &&& (USART_SR_RXNE ||| USART_SR_TXE ||| USART_SR_TC)) &&& USART_SR_RXNE) != 0)
      = (sr.testBit 5 && cr1.testBit 5) := by
  have h : USART_SR_RXNE = 2 ^ 5 := by decide
  rw [h, and_and_two_pow _ _ _ (by decide), and_two_pow_bne_zero, Nat.testBit_and]

theorem maskedSr_TXE (sr cr1 : Nat) :
    (((sr &&& cr1 &&& (USART_SR_RXNE ||| USART_SR_TXE ||| USART_SR_TC)) &&& USART_SR_TXE) != 0)
      = (sr.testBit 7 && cr1.testBit 7) := by
  have h : USART_SR_TXE = 2 ^ 7 := by decide
  rw [h, and_and_two_pow _ _ _ (by decide), and_two_pow_bne_zero, Nat.testBit_and]

theorem maskedSr_TC (sr cr1 : Nat) :
    (((sr &&& cr1 &&& (USART_SR_RXNE ||| USART_SR_TXE ||| USART_SR_TC)) &&& USART_SR_TC) != 0)
      = (sr.testBit 6 && cr1.testBit 6) := by
  have h : USART_SR_TC = 2 ^ 6 := by decide
  rw [h, and_and_two_pow _ _ _ (by decide), and_two_pow_bne_zero, Nat.testBit_and]

theorem testBit_or_two_pow (reg k i : Nat) :
    (reg ||| 2 ^ k).testBit i = (reg.testBit i || decide (k = i)) := by
  rw [Nat.testBit_or, Nat.testBit_two_pow]

theorem testBit_and_not_two_pow (reg k i : Nat) (hi : i < 32) :
    (reg &&& (0xFFFFFFFF ^^^ 2 ^ k)).testBit i = (reg.testBit i && !decide (k = i)) := by
  have h : (0xFFFFFFFF : Nat) = 2 ^ 32 - 1 := by norm_num
  rw [h, Nat.testBit_and, Nat.testBit_xor, Nat.testBit_two_pow, Nat.testBit_two_pow_sub_one]
  simp [hi]

theorem testBit_bitbandWrite (reg bit : Nat) (enable : Bool) (i : Nat) (hi : i < 32) :
    (bitbandWrite reg bit enable).testBit i
      = if bit = i then enable else reg.testBit i := by
  unfold bitbandWrite
  rw [Nat.one_shiftLeft]
  cases enable
  · simp only [Bool.false_eq_true, if_false]
    rw [testBit_and_not_two_pow _ _ _ hi]
    by_cases h : bit = i <;> simp [h]
  · simp only [if_true]
    rw [testBit_or_two_pow]
    by_cases h : bit = i <;> simp [h]

/-- `is9BitFormatEnabled` in terms of single bits: `M` is set and `PCE` is clear. -/
theorem is9BitFormatEnabled_eq (s : ChipUartLowLevel) :
    is9BitFormatEnabled s = (s.CR1.testBit 12 && !s.CR1.testBit 10) := by
  unfold is9BitFormatEnabled
  have h : USART_CR1_M ||| USART_CR1_PCE = 2 ^ 12 ||| 2 ^ 10 := by decide
  have hM : USART_CR1_M = 2 ^ 12 := by decide
  rw [h, hM]
  cases h12 : s.CR1.testBit 12 <;> cases h10 : s.CR1.testBit 10
  all_goals
    simp only [Bool.and_true, Bool.and_false, Bool.false_and, Bool.true_and, Bool.not_true,
      Bool.not_false, beq_eq_false_iff_ne, beq_iff_eq, ne_eq]
  · intro h
    have := congrArg (fun z => Nat.testBit z 12) h
    simp only [Nat.testBit_and, h12, Bool.false_and, Nat.testBit_two_pow] at this
    exact absurd this (by decide)
  · intro h
    have := congrArg (fun z => Nat.testBit z 12) h
    simp only [Nat.testBit_and, h12, Bool.false_and, Nat.testBit_two_pow] at this
    exact absurd this (by decide)
  · apply Nat.eq_of_testBit_eq
    intro i
    simp only [Nat.testBit_and, Nat.testBit_or, Nat.testBit_two_pow]
    by_cases hi : 12 = i
    · subst hi; simp [h12]
    · by_cases hj : 10 = i
      · subst hj; simp [h10]
      · simp [hi, hj]
  · intro h
    have := congrArg (fun z => Nat.testBit z 10) h
    simp only [Nat.testBit_and, Nat.testBit_or, h10, Bool.true_and, Nat.testBit_two_pow] at this
    exact absurd this (by decide)

/-! ## `startRead`, `startWrite`, `stop`: validation -/

/-- C7: for every state, buffer and size, `startRead` returns the first applicable of: `EINVAL`
if the buffer is null or the size is 0; `EBADF` if the driver is not started; `EBUSY` if a read
is in progress; `EINVAL` if the 9-bit format is enabled and the size is odd; otherwise 0.
`startWrite` returns the same with "write in progress" for "read in progress". In particular
`startRead(buf, 5)` on a started driver with no read in progress and the 9-bit format enabled
returns `EINVAL`. -/
theorem startRead_startWrite_result (cb : Callback) (buffer size : Nat) (s : ChipUartLowLevel) :
    (startRead buffer size s).1 =
        (if buffer = 0 ∨ size = 0 then EINVAL
         else if isStarted s = false then EBADF
         else if isReadInProgress s = true then EBUSY
         else if is9BitFormatEnabled s = true ∧ size % 2 = 1 then EINVAL
         else 0)
    ∧ (startWrite cb buffer size s).1 =
        (if buffer = 0 ∨ size = 0 then EINVAL
         else if isStarted s = false then EBADF
         else if isWriteInProgress s = true then EBUSY
         else if is9BitFormatEnabled s = true ∧ size % 2 = 1 then EINVAL
         else 0)
    ∧ (buffer ≠ 0 → isStarted s = true → isReadInProgress s = false →
        is9BitFormatEnabled s = true → (startRead buffer 5 s).1 = EINVAL) := by
  refine ⟨?_, ?_, ?_⟩
  · unfold startRead
    split_ifs <;> simp_all
  · unfold startWrite
    split_ifs <;> simp_all
  · intro hb hs hr h9
    simp [startRead, hb, hs, hr, h9]

/-- Witness of C7: `startRead(buf, 5)` on the example driver started with 9 data bits. -/
theorem startRead_startWrite_result_witness :
    ((0x20000000 : Nat) ≠ 0 ∧ isStarted started9 = true ∧ isReadInProgress started9 = false
      ∧ is9BitFormatEnabled started9 = true)
    ∧ (startRead 0x20000000 5 started9).1 = EINVAL :=
  ⟨⟨by decide, by decide, by decide, by decide⟩,
    (startRead_startWrite_result recordingCallback 0x20000000 5 started9).2.2
      (by decide) (by decide) (by decide) (by decide)⟩

/-- C8: whenever `start`, `startRead`, `startWrite` or `stop` returns a non-zero code, the whole
state (members of the driver, registers, interrupt line, memory, values sent and recorded
events) is the one before the call, whatever the callback sink does when called, so that no
event is emitted. In particular `startWrite` with valid arguments on a started driver with a
write in progress returns `EBUSY` and leaves buffer, size and cursor of the write untouched, and
a `start` that fails on a driver that is not started, as every `start` that returns `EINVAL`
does, leaves it not started. -/
theorem failure_leaves_state_unchanged (p : Parameters) (cb : Callback)
    (uartBase baudRate characterLength : Nat) (parity : UartParity) (_2StopBits : Bool)
    (buffer size : Nat) (s : ChipUartLowLevel) :
    ((start p uartBase baudRate characterLength parity _2StopBits s).1.1 ≠ 0 →
        (start p uartBase baudRate characterLength parity _2StopBits s).2 = s)
    ∧ ((startRead buffer size s).1 ≠ 0 → (startRead buffer size s).2 = s)
    ∧ ((startWrite cb buffer size s).1 ≠ 0 → (startWrite cb buffer size s).2 = s)
    ∧ ((stop s).1 ≠ 0 → (stop s).2 = s)
    ∧ (buffer ≠ 0 → size ≠ 0 → isStarted s = true → isWriteInProgress s = true →
        (startWrite cb buffer size s).1 = EBUSY
        ∧ (startWrite cb buffer size s).2.writeBuffer_ = s.writeBuffer_
        ∧ (startWrite cb buffer size s).2.writeSize_ = s.writeSize_
        ∧ (startWrite cb buffer size s).2.writePosition_ = s.writePosition_)
    ∧ ((start p uartBase baudRate characterLength parity _2StopBits s).1.1 ≠ 0 →
        isStarted s = false →
        isStarted (start p uartBase baudRate characterLength parity _2StopBits s).2 = false)
    ∧ ((start p uartBase baudRate characterLength parity _2StopBits s).1.1 = EINVAL →
        isStarted (start p uartBase baudRate characterLength parity _2StopBits s).2 = false) := by
  have hstart : (start p uartBase baudRate characterLength parity _2StopBits s).1.1 ≠ 0 →
      (start p uartBase baudRate characterLength parity _2StopBits s).2 = s := by
    simp only [start]
    split_ifs <;> simp
  refine ⟨hstart, ?_, ?_, ?_, ?_, ?_, ?_⟩
  · unfold startRead
    split_ifs <;> simp
  · unfold startWrite
    split_ifs <;> simp
  · unfold stop
    split_ifs <;> simp
  · intro hb hsz hs hw
    simp [startWrite, hb, hsz, hs, hw]
  · intro hne hs
    rw [hstart hne, hs]
  · intro he
    have hne : (start p uartBase baudRate characterLength parity _2StopBits s).1.1 ≠ 0 := by
      rw [he]; exact EINVAL_ne_zero
    rw [hstart hne]
    cases hs : isStarted s
    · rfl
    · rw [start_of_started p _ _ _ _ _ s hs] at he
      exact absurd he (show ¬ (EBADF = EINVAL) by decide)

/-- Witness of C8: a `start` with 7 data bits on the constructed example driver fails and leaves
it as it was, not started; `startRead` and `stop` fail on it likewise; `startWrite` during the
write of the example fails with `EBUSY` and leaves the write as it was. -/
theorem failure_leaves_state_unchanged_witness :
    ((start exampleParameters 1 115200 7 UartParity.none false constructed).1.1 ≠ 0
      ∧ (start exampleParameters 1 115200 7 UartParity.none false constructed).2 = constructed
      ∧ isStarted (start exampleParameters 1 115200 7 UartParity.none false constructed).2
          = false)
    ∧ ((startRead 0x20000000 4 constructed).1 ≠ 0
      ∧ (startRead 0x20000000 4 constructed).2 = constructed)
    ∧ ((stop constructed).1 ≠ 0 ∧ (stop constructed).2 = constructed)
    ∧ ((startWrite recordingCallback 0x20000200 4 writing8).1 ≠ 0
      ∧ (startWrite recordingCallback 0x20000200 4 writing8).2 = writing8)
    ∧ (((0x20000200 : Nat) ≠ 0 ∧ (4 : Nat) ≠ 0 ∧ isStarted writing8 = true
        ∧ isWriteInProgress writing8 = true)
      ∧ (startWrite recordingCallback 0x20000200 4 writing8).1 = EBUSY
      ∧ (startWrite recordingCallback 0x20000200 4 writing8).2.writeBuffer_ = 0x20000100
      ∧ (startWrite recordingCallback 0x20000200 4 writing8).2.writeSize_ = 3
      ∧ (startWrite recordingCallback 0x20000200 4 writing8).2.writePosition_ = 0) :=
  ⟨⟨by decide,
      (failure_leaves_state_unchanged exampleParameters recordingCallback 1 115200 7
        UartParity.none false 0x20000000 4 constructed).1 (by decide),
      (failure_leaves_state_unchanged exampleParameters recordingCallback 1 115200 7
        UartParity.none false 0x20000000 4 constructed).2.2.2.2.2.1 (by decide) rfl⟩,
    ⟨by decide,
      (failure_leaves_state_unchanged exampleParameters recordingCallback 1 115200 7
        UartParity.none false 0x20000000 4 constructed).2.1 (by decide)⟩,
    ⟨by decide,
      (failure_leaves_state_unchanged exampleParameters recordingCallback 1 115200 7
        UartParity.none false 0x20000000 4 constructed).2.2.2.1 (by decide)⟩,
    ⟨by decide,
      (failure_leaves_state_unchanged exampleParameters recordingCallback 1 115200 7
        UartParity.none false 0x20000200 4 writing8).2.2.1 (by decide)⟩,
    ⟨by decide, by decide, by decide, by decide⟩,
    (failure_leaves_state_unchanged exampleParameters recordingCallback 1 115200 7
        UartParity.none false 0x20000200 4 writing8).2.2.2.2.1
      (by decide) (by decide) (by decide) (by decide)⟩

/-! ## The interrupt handler with the recording callback sink -/

theorem interruptHandlerLoop_succ (cb : Callback) (b : Bool) (fuel : Nat) (s : ChipUartLowLevel) :
    interruptHandlerLoop cb b (fuel + 1) s =
      if rxPending s then interruptHandlerLoop cb b fuel (interruptHandlerRead cb b s.SR s)
      else if txPending s then interruptHandlerLoop cb b fuel (interruptHandlerWrite cb b s)
      else if tcPending s then
        interruptHandlerLoop cb b fuel (interruptHandlerTransmitComplete cb s)
      else some s := by
  rw [interruptHandlerLoop]
  simp only [maskedSr_bne_zero, maskedSr_RXNE, maskedSr_TXE, maskedSr_TC]
  unfold rxPending txPending tcPending
  cases h5 : (s.SR.testBit 5 && s.CR1.testBit 5) <;>
  cases h7 : (s.SR.testBit 7 && s.CR1.testBit 7) <;>
  cases h6 : (s.SR.testBit 6 && s.CR1.testBit 6) <;> simp

theorem SR_interruptHandlerRead (b : Bool) (sr : Nat) (s : ChipUartLowLevel) :
    (interruptHandlerRead recordingCallback b sr s).SR = s.SR &&& (0xFFFFFFFF ^^^ 2 ^ 5) := by
  simp only [interruptHandlerRead, readDR, storeByte, notify, recordingCallback, stopRead,
    enableRxneInterrupt]
  split_ifs <;> rfl

theorem SR_interruptHandlerWrite (b : Bool) (s : ChipUartLowLevel) :
    (interruptHandlerWrite recordingCallback b s).SR = s.SR &&& (0xFFFFFFFF ^^^ 2 ^ 7) := by
  simp only [interruptHandlerWrite, writeDR, notify, recordingCallback, stopWrite,
    enableTxeInterrupt, enableTcInterrupt]
  split_ifs <;> rfl

theorem CR1_interruptHandlerWrite (b : Bool) (s : ChipUartLowLevel) :
    (interruptHandlerWrite recordingCallback b s).CR1 = s.CR1
    ∨ (interruptHandlerWrite recordingCallback b s).CR1
        = bitbandWrite (bitbandWrite s.CR1 7 false) 6 true := by
  simp only [interruptHandlerWrite, writeDR, notify, recordingCallback, stopWrite,
    enableTxeInterrupt, enableTcInterrupt]
  split_ifs <;> first | (left; rfl) | (right; rfl)

theorem rxPending_interruptHandlerRead (b : Bool) (sr : Nat) (s : ChipUartLowLevel) :
    rxPending (interruptHandlerRead recordingCallback b sr s) = false := by
  unfold rxPending
  rw [SR_interruptHandlerRead, testBit_and_not_two_pow _ _ _ (by decide)]
  simp

theorem txPending_interruptHandlerWrite (b : Bool) (s : ChipUartLowLevel) :
    txPending (interruptHandlerWrite recordingCallback b s) = false := by
  unfold txPending
  rw [SR_interruptHandlerWrite, testBit_and_not_two_pow _ _ _ (by decide)]
  simp

theorem rxPending_interruptHandlerWrite (b : Bool) (s : ChipUartLowLevel) :
    rxPending (interruptHandlerWrite recordingCallback b s) = rxPending s := by
  unfold rxPending
  rw [SR_interruptHandlerWrite, testBit_and_not_two_pow _ _ _ (by decide)]
  rcases CR1_interruptHandlerWrite b s with h | h <;> rw [h]
  · simp
  · rw [testBit_bitbandWrite _ _ _ _ (by decide), testBit_bitbandWrite _ _ _ _ (by decide)]
    simp

theorem rxPending_interruptHandlerTransmitComplete (s : ChipUartLowLevel) :
    rxPending (interruptHandlerTransmitComplete recordingCallback s) = rxPending s := by
  simp only [rxPending, interruptHandlerTransmitComplete, notify, recordingCallback,
    enableTcInterrupt, USART_CR1_TCIE_bit]
  rw [testBit_bitbandWrite _ _ _ _ (by decide)]
  simp

theorem txPending_interruptHandlerTransmitComplete (s : ChipUartLowLevel) :
    txPending (interruptHandlerTransmitComplete recordingCallback s) = txPending s := by
  simp only [txPending, interruptHandlerTransmitComplete, notify, recordingCallback,
    enableTcInterrupt, USART_CR1_TCIE_bit]
  rw [testBit_bitbandWrite _ _ _ _ (by decide)]
  simp

theorem tcPending_interruptHandlerTransmitComplete (s : ChipUartLowLevel) :
    tcPending (interruptHandlerTransmitComplete recordingCallback s) = false := by
  simp only [tcPending, interruptHandlerTransmitComplete, notify, recordingCallback,
    enableTcInterrupt, USART_CR1_TCIE_bit]
  rw [testBit_bitbandWrite _ _ _ _ (by decide)]
  simp

/-- With nothing pending the loop of the interrupt handler ends at its first test. -/
theorem interruptHandlerLoop_idle (cb : Callback) (b : Bool) (fuel : Nat) (s : ChipUartLowLevel)
    (hrx : rxPending s = false) (htx : txPending s = false) (htc : tcPending s = false) :
    interruptHandlerLoop cb b (fuel + 1) s = some s := by
  rw [interruptHandlerLoop_succ, hrx, htx, htc]
  simp

/-- With the recording callback sink the loop of the interrupt handler runs each branch at most
once, in the order receive, transmit, transmit complete, and four evaluations of its condition
are enough. -/
theorem interruptHandlerLoop_recordingCallback (b : Bool) (fuel : Nat) (s : ChipUartLowLevel)
    (hfuel : 4 ≤ fuel) :
    interruptHandlerLoop recordingCallback b fuel s
      = some (serveTransmitComplete recordingCallback
          (serveWrite recordingCallback b (serveRead recordingCallback b s))) := by
  obtain ⟨f, rfl⟩ : ∃ f, fuel = f + 4 := ⟨fuel - 4, by omega⟩
  -- the loop from a state without receive and transmit condition
  have step3 : ∀ (g : Nat) (t : ChipUartLowLevel), rxPending t = false → txPending t = false →
      interruptHandlerLoop recordingCallback b (g + 2) t
        = some (serveTransmitComplete recordingCallback t) := by
    intro g t hrx htx
    rw [interruptHandlerLoop_succ, hrx, htx]
    unfold serveTransmitComplete
    cases htc : tcPending t
    · simp
    · simp only [Bool.false_eq_true, if_false, if_true]
      rw [interruptHandlerLoop_idle _ _ _ _
        (by rw [rxPending_interruptHandlerTransmitComplete, hrx])
        (by rw [txPending_interruptHandlerTransmitComplete, htx])
        (tcPending_interruptHandlerTransmitComplete t)]
  -- the loop from a state without receive condition
  have step2 : ∀ (g : Nat) (t : ChipUartLowLevel), rxPending t = false →
      interruptHandlerLoop recordingCallback b (g + 3) t
        = some (serveTransmitComplete recordingCallback (serveWrite recordingCallback b t)) := by
    intro g t hrx
    unfold serveWrite
    cases htx : txPending t
    · simp only [Bool.false_eq_true, if_false]
      exact step3 (g + 1) t hrx htx
    · simp only [if_true]
      rw [interruptHandlerLoop_succ, hrx, htx]
      simp only [Bool.false_eq_true, if_false, if_true]
      exact step3 g _ (by rw [rxPending_interruptHandlerWrite, hrx])
        (txPending_interruptHandlerWrite b t)
  unfold serveRead
  cases hrx : rxPending s
  · simp only [Bool.false_eq_true, if_false]
    exact step2 (f + 1) s hrx
  · simp only [if_true]
    rw [interruptHandlerLoop_succ, hrx]
    simp only [if_true]
    exact step2 f _ (rxPending_interruptHandlerRead b s.SR s)

/-! ## The branches of the interrupt handler during a transfer -/

/-- The receive branch while a read is in progress and the character does not fill the
buffer. -/
theorem interruptHandlerRead_of_more (b : Bool) (sr : Nat) (s : ChipUartLowLevel)
    (hn : s.readSize_ < 2 ^ 32)
    (hpos : s.readPosition_ + bytesPerCharacter b < s.readSize_) :
    interruptHandlerRead recordingCallback b sr s =
      { s with
        SR := s.SR &&& (0xFFFFFFFF ^^^ USART_SR_RXNE),
        memory := storeCharacter b (s.readBuffer_ + s.readPosition_) (s.DR % 2 ^ 16) s.memory,
        readPosition_ := s.readPosition_ + bytesPerCharacter b,
        events := s.events ++ receiveErrorEvents s.uartBase_ sr } := by
  cases b
  · simp only [bytesPerCharacter, Bool.false_eq_true, if_false] at hpos
    have h1 : (s.readPosition_ + 1) % UINT32_RANGE = s.readPosition_ + 1 :=
      Nat.mod_eq_of_lt (by unfold UINT32_RANGE; omega)
    simp only [interruptHandlerRead, readDR, storeByte, notify, recordingCallback,
      bytesPerCharacter, storeCharacter, receiveErrorEvents, h1]
    split_ifs <;> simp_all
  · simp only [bytesPerCharacter, if_true] at hpos
    have h1 : (s.readPosition_ + 1) % UINT32_RANGE = s.readPosition_ + 1 :=
      Nat.mod_eq_of_lt (by unfold UINT32_RANGE; omega)
    have h1' : (s.readPosition_ + 1 + 1) % UINT32_RANGE = s.readPosition_ + 2 :=
      Nat.mod_eq_of_lt (by unfold UINT32_RANGE; omega)
    simp only [interruptHandlerRead, readDR, storeByte, notify, recordingCallback,
      bytesPerCharacter, storeCharacter, receiveErrorEvents, h1, h1']
    split_ifs <;> simp_all [Nat.add_assoc]

/-- The receive branch while a read is in progress and the character fills the buffer. -/
theorem interruptHandlerRead_of_last (b : Bool) (sr : Nat) (s : ChipUartLowLevel)
    (hbuf : s.readBuffer_ ≠ 0) (hn : s.readSize_ < 2 ^ 32)
    (hpos : s.readPosition_ + bytesPerCharacter b = s.readSize_) :
    interruptHandlerRead recordingCallback b sr s =
      { s with
        SR := s.SR &&& (0xFFFFFFFF ^^^ USART_SR_RXNE),
        memory := storeCharacter b (s.readBuffer_ + s.readPosition_) (s.DR % 2 ^ 16) s.memory,
        readPosition_ := 0,
        readSize_ := 0,
        readBuffer_ := 0,
        CR1 := bitbandWrite s.CR1 USART_CR1_RXNEIE_bit false,
        events := s.events ++ receiveErrorEvents s.uartBase_ sr
          ++ [(s.uartBase_, Event.readCompleteEvent s.readSize_)] } := by
  cases b
  · simp only [bytesPerCharacter, Bool.false_eq_true, if_false] at hpos
    have h1 : (s.readPosition_ + 1) % UINT32_RANGE = s.readPosition_ + 1 :=
      Nat.mod_eq_of_lt (by unfold UINT32_RANGE; omega)
    simp only [interruptHandlerRead, readDR, storeByte, notify, recordingCallback,
      bytesPerCharacter, storeCharacter, receiveErrorEvents, h1, stopRead, isReadInProgress,
      enableRxneInterrupt]
    split_ifs <;> simp_all
  · simp only [bytesPerCharacter, if_true] at hpos
    have h1 : (s.readPosition_ + 1) % UINT32_RANGE = s.readPosition_ + 1 :=
      Nat.mod_eq_of_lt (by unfold UINT32_RANGE; omega)
    have h1' : (s.readPosition_ + 1 + 1) % UINT32_RANGE = s.readPosition_ + 2 :=
      Nat.mod_eq_of_lt (by unfold UINT32_RANGE; omega)
    simp only [interruptHandlerRead, readDR, storeByte, notify, recordingCallback,
      bytesPerCharacter, storeCharacter, receiveErrorEvents, h1, h1', stopRead, isReadInProgress,
      enableRxneInterrupt]
    split_ifs <;> simp_all [Nat.add_assoc]

/-- The transmit branch while a write is in progress and the character is not the last of the
buffer. -/
theorem interruptHandlerWrite_of_more (b : Bool) (s : ChipUartLowLevel)
    (hn : s.writeSize_ < 2 ^ 32)
    (hpos : s.writePosition_ + bytesPerCharacter b < s.writeSize_) :
    interruptHandlerWrite recordingCallback b s =
      { s with
        SR := s.SR &&& (0xFFFFFFFF ^^^ USART_SR_TXE),
        transmitted := s.transmitted ++ [loadCharacter b s (s.writeBuffer_ + s.writePosition_)],
        writePosition_ := s.writePosition_ + bytesPerCharacter b } := by
  cases b
  · simp only [bytesPerCharacter, Bool.false_eq_true, if_false] at hpos
    have h1 : (s.writePosition_ + 1) % UINT32_RANGE = s.writePosition_ + 1 :=
      Nat.mod_eq_of_lt (by unfold UINT32_RANGE; omega)
    simp only [interruptHandlerWrite, writeDR, notify, recordingCallback,
      bytesPerCharacter, loadCharacter, h1]
    split_ifs <;> simp_all
  · simp only [bytesPerCharacter, if_true] at hpos
    have h1 : (s.writePosition_ + 1) % UINT32_RANGE = s.writePosition_ + 1 :=
      Nat.mod_eq_of_lt (by unfold UINT32_RANGE; omega)
    have h1' : (s.writePosition_ + 1 + 1) % UINT32_RANGE = s.writePosition_ + 2 :=
      Nat.mod_eq_of_lt (by unfold UINT32_RANGE; omega)
    simp only [interruptHandlerWrite, writeDR, notify, recordingCallback,
      bytesPerCharacter, loadCharacter, h1, h1']
    split_ifs <;> simp_all [Nat.add_assoc]

/-- The transmit branch while a write is in progress and the character is the last of the
buffer. -/
theorem interruptHandlerWrite_of_last (b : Bool) (s : ChipUartLowLevel)
    (hbuf : s.writeBuffer_ ≠ 0) (hn : s.writeSize_ < 2 ^ 32)
    (hpos : s.writePosition_ + bytesPerCharacter b = s.writeSize_) :
    interruptHandlerWrite recordingCallback b s =
      { s with
        SR := s.SR &&& (0xFFFFFFFF ^^^ USART_SR_TXE),
        transmitted := s.transmitted ++ [loadCharacter b s (s.writeBuffer_ + s.writePosition_)],
        writePosition_ := 0,
        writeSize_ := 0,
        writeBuffer_ := 0,
        CR1 := bitbandWrite (bitbandWrite s.CR1 USART_CR1_TXEIE_bit false)
          USART_CR1_TCIE_bit true,
        events := s.events ++ [(s.uartBase_, Event.writeCompleteEvent s.writeSize_)] } := by
  cases b
  · simp only [bytesPerCharacter, Bool.false_eq_true, if_false] at hpos
    have h1 : (s.writePosition_ + 1) % UINT32_RANGE = s.writePosition_ + 1 :=
      Nat.mod_eq_of_lt (by unfold UINT32_RANGE; omega)
    simp only [interruptHandlerWrite, writeDR, notify, recordingCallback,
      bytesPerCharacter, loadCharacter, h1, stopWrite, isWriteInProgress, enableTxeInterrupt,
      enableTcInterrupt]
    split_ifs <;> simp_all
  · simp only [bytesPerCharacter, if_true] at hpos
    have h1 : (s.writePosition_ + 1) % UINT32_RANGE = s.writePosition_ + 1 :=
      Nat.mod_eq_of_lt (by unfold UINT32_RANGE; omega)
    have h1' : (s.writePosition_ + 1 + 1) % UINT32_RANGE = s.writePosition_ + 2 :=
      Nat.mod_eq_of_lt (by unfold UINT32_RANGE; omega)
    simp only [interruptHandlerWrite, writeDR, notify, recordingCallback,
      bytesPerCharacter, loadCharacter, h1, h1', stopWrite, isWriteInProgress,
      enableTxeInterrupt, enableTcInterrupt]
    split_ifs <;> simp_all [Nat.add_assoc]

/-! ## Frames -/

theorem is9BitFormatEnabled_congr (s t : ChipUartLowLevel)
    (h12 : t.CR1.testBit 12 = s.CR1.testBit 12) (h10 : t.CR1.testBit 10 = s.CR1.testBit 10) :
    is9BitFormatEnabled t = is9BitFormatEnabled s := by
  rw [is9BitFormatEnabled_eq, is9BitFormatEnabled_eq, h12, h10]

theorem ReadFrame.reflRead (s : ChipUartLowLevel) : ReadFrame s s :=
  ⟨rfl, rfl, rfl, rfl, rfl, rfl, rfl, [], by simp, rfl⟩

theorem ReadFrame.transRead {s t u : ChipUartLowLevel} (h1 : ReadFrame s t) (h2 : ReadFrame t u) :
    ReadFrame s u := by
  obtain ⟨a1, a2, a3, a4, a5, a6, a7, new1, a8, a9⟩ := h1
  obtain ⟨b1, b2, b3, b4, b5, b6, b7, new2, b8, b9⟩ := h2
  refine ⟨b1.trans a1, b2.trans a2, b3.trans a3, b4.trans a4, b5.trans a5, b6.trans a6,
    b7.trans a7, new1 ++ new2, ?_, ?_⟩
  · rw [b8, a8, List.append_assoc]
  · rw [List.filter_append, a9, b9]; rfl

theorem readFrame_receiveCharacter (c : Nat) (s : ChipUartLowLevel) :
    ReadFrame s (receiveCharacter c s) :=
  ⟨rfl, rfl, rfl, rfl, rfl, rfl, rfl, [], by simp [receiveCharacter], rfl⟩

theorem readFrame_interruptHandlerWrite (b : Bool) (s : ChipUartLowLevel) :
    ReadFrame s (interruptHandlerWrite recordingCallback b s) := by
  have hcr := CR1_interruptHandlerWrite b s
  have hbit : ∀ i, i < 32 → i ≠ 7 → i ≠ 6 →
      (interruptHandlerWrite recordingCallback b s).CR1.testBit i = s.CR1.testBit i := by
    intro i hi h7 h6
    rcases hcr with h | h <;> rw [h]
    rw [testBit_bitbandWrite _ _ _ _ hi, testBit_bitbandWrite _ _ _ _ hi,
      if_neg (Ne.symm h6), if_neg (Ne.symm h7)]
  refine ⟨?_, ?_, ?_, ?_, ?_, hbit 5 (by decide) (by decide) (by decide),
    is9BitFormatEnabled_congr _ _ (hbit 12 (by decide) (by decide) (by decide))
      (hbit 10 (by decide) (by decide) (by decide)), ?_⟩
  all_goals
    simp only [interruptHandlerWrite, writeDR, notify, recordingCallback, stopWrite,
      enableTxeInterrupt, enableTcInterrupt]
    split_ifs <;> simp [isReadCompleteEvent]

theorem readFrame_serveWrite (b : Bool) (s : ChipUartLowLevel) :
    ReadFrame s (serveWrite recordingCallback b s) := by
  unfold serveWrite
  split_ifs
  · exact readFrame_interruptHandlerWrite b s
  · exact ReadFrame.reflRead s

theorem readFrame_serveTransmitComplete (s : ChipUartLowLevel) :
    ReadFrame s (serveTransmitComplete recordingCallback s) := by
  unfold serveTransmitComplete
  split_ifs
  · have hbit : ∀ i, i < 32 → i ≠ 6 →
        (interruptHandlerTransmitComplete recordingCallback s).CR1.testBit i
          = s.CR1.testBit i := by
      intro i hi h6
      simp only [interruptHandlerTransmitComplete, notify, recordingCallback, enableTcInterrupt,
        USART_CR1_TCIE_bit]
      rw [testBit_bitbandWrite _ _ _ _ hi, if_neg (Ne.symm h6)]
    exact ⟨rfl, rfl, rfl, rfl, rfl, hbit 5 (by decide) (by decide),
      is9BitFormatEnabled_congr _ _ (hbit 12 (by decide) (by decide))
        (hbit 10 (by decide) (by decide)),
      [(s.uartBase_, Event.transmitCompleteEvent)], rfl, rfl⟩
  · exact ReadFrame.reflRead s

/-! ## Reads -/

theorem interruptHandler_recordingCallback (fuel : Nat) (s : ChipUartLowLevel)
    (hfuel : 4 ≤ fuel) :
    interruptHandler recordingCallback fuel s
      = some (serveTransmitComplete recordingCallback
          (serveWrite recordingCallback (is9BitFormatEnabled s)
            (serveRead recordingCallback (is9BitFormatEnabled s) s))) :=
  interruptHandlerLoop_recordingCallback _ fuel s hfuel

/-- Receive interrupts while the receive interrupt is disabled leave the read side alone. -/
theorem receiveInterrupts_of_disabled (fuel : Nat) (hfuel : 4 ≤ fuel) (chars : List Nat) :
    ∀ s : ChipUartLowLevel, s.CR1.testBit 5 = false →
      ∃ t, receiveInterrupts recordingCallback fuel chars s = some t ∧ ReadFrame s t := by
  induction chars with
  | nil => intro s _; exact ⟨s, rfl, ReadFrame.reflRead s⟩
  | cons c rest ih =>
    intro s h5
    have hrx : rxPending (receiveCharacter c s) = false := by
      simp [rxPending, receiveCharacter, h5]
    have hserve : serveRead recordingCallback (is9BitFormatEnabled (receiveCharacter c s))
        (receiveCharacter c s) = receiveCharacter c s := by
      simp [serveRead, hrx]
    have hframe : ReadFrame s (serveTransmitComplete recordingCallback
        (serveWrite recordingCallback (is9BitFormatEnabled (receiveCharacter c s))
          (receiveCharacter c s))) :=
      (readFrame_receiveCharacter c s).transRead
        ((readFrame_serveWrite _ _).transRead (readFrame_serveTransmitComplete _))
    obtain ⟨t, ht, hft⟩ := ih _ (by rw [hframe.2.2.2.2.2.1]; exact h5)
    refine ⟨t, ?_, hframe.transRead hft⟩
    rw [receiveInterrupts, interruptHandler_recordingCallback _ _ hfuel, hserve]
    exact ht

/-- One receive interrupt while a read is in progress with room for the character. -/
theorem interruptHandler_receiveCharacter (fuel : Nat) (hfuel : 4 ≤ fuel) (c : Nat)
    (s : ChipUartLowLevel) (hbuf : s.readBuffer_ ≠ 0) (hn : s.readSize_ < 2 ^ 32)
    (h5 : s.CR1.testBit 5 = true)
    (hpos : s.readPosition_ + bytesPerCharacter (is9BitFormatEnabled s) ≤ s.readSize_) :
    ∃ t, interruptHandler recordingCallback fuel (receiveCharacter c s) = some t
      ∧ t.uartBase_ = s.uartBase_
      ∧ t.memory = storeCharacter (is9BitFormatEnabled s) (s.readBuffer_ + s.readPosition_)
          (c % 2 ^ 16) s.memory
      ∧ is9BitFormatEnabled t = is9BitFormatEnabled s
      ∧ (s.readPosition_ + bytesPerCharacter (is9BitFormatEnabled s) < s.readSize_ →
          t.readBuffer_ = s.readBuffer_ ∧ t.readSize_ = s.readSize_
          ∧ t.readPosition_ = s.readPosition_ + bytesPerCharacter (is9BitFormatEnabled s)
          ∧ t.CR1.testBit 5 = true
          ∧ ∃ new, t.events = s.events ++ new
              ∧ new.filter (fun e => isReadCompleteEvent e.2) = [])
      ∧ (s.readPosition_ + bytesPerCharacter (is9BitFormatEnabled s) = s.readSize_ →
          t.readBuffer_ = 0 ∧ t.CR1.testBit 5 = false
          ∧ ∃ new, t.events = s.events ++ new
              ∧ new.filter (fun e => isReadCompleteEvent e.2)
                  = [(s.uartBase_, Event.readCompleteEvent s.readSize_)]) := by
  have h9 : is9BitFormatEnabled (receiveCharacter c s) = is9BitFormatEnabled s := rfl
  have hrx : rxPending (receiveCharacter c s) = true := by
    have : USART_SR_RXNE = 2 ^ 5 := by decide
    simp only [rxPending, receiveCharacter, this, testBit_or_two_pow, h5]
    simp
  rw [interruptHandler_recordingCallback _ _ hfuel, h9]
  refine ⟨_, rfl, ?_⟩
  generalize hb : is9BitFormatEnabled s = b at *
  have hserve : serveRead recordingCallback b (receiveCharacter c s)
      = interruptHandlerRead recordingCallback b (receiveCharacter c s).SR
          (receiveCharacter c s) := by
    simp [serveRead, hrx]
  rw [hserve]
  have hframe := (readFrame_serveWrite b (interruptHandlerRead recordingCallback b
      (receiveCharacter c s).SR (receiveCharacter c s))).transRead
    (readFrame_serveTransmitComplete _)
  generalize serveTransmitComplete recordingCallback (serveWrite recordingCallback b
      (interruptHandlerRead recordingCallback b (receiveCharacter c s).SR
        (receiveCharacter c s))) = t at *
  obtain ⟨f1, f2, f3, f4, f5, f6, f7, new, f8, f9⟩ := hframe
  rcases Nat.lt_or_eq_of_le hpos with hlt | heq
  · rw [interruptHandlerRead_of_more b _ (receiveCharacter c s) hn hlt] at f1 f2 f3 f4 f5 f6 f7 f8
    refine ⟨f1, f5, ?_, ?_, ?_⟩
    · rw [f7]; exact is9BitFormatEnabled_congr _ _ rfl rfl |>.trans hb
    · intro _
      refine ⟨f2, f3, f4, f6.trans h5,
        receiveErrorEvents s.uartBase_ (receiveCharacter c s).SR ++ new, ?_, ?_⟩
      · rw [f8]; simp [receiveCharacter, List.append_assoc]
      · rw [List.filter_append, f9]
        simp only [receiveErrorEvents]
        split_ifs <;> simp [isReadCompleteEvent]
    · intro h; omega
  · rw [interruptHandlerRead_of_last b _ (receiveCharacter c s) hbuf hn heq]
      at f1 f2 f3 f4 f5 f6 f7 f8
    refine ⟨f1, f5, ?_, ?_, ?_⟩
    · rw [f7, is9BitFormatEnabled_eq, ← hb, is9BitFormatEnabled_eq]
      simp only [USART_CR1_RXNEIE_bit, receiveCharacter]
      rw [testBit_bitbandWrite _ _ _ _ (by decide), testBit_bitbandWrite _ _ _ _ (by decide)]
      simp
    · intro h; omega
    · intro _
      refine ⟨f2, ?_, receiveErrorEvents s.uartBase_ (receiveCharacter c s).SR
        ++ [(s.uartBase_, Event.readCompleteEvent s.readSize_)] ++ new, ?_, ?_⟩
      · rw [f6]
        simp only [USART_CR1_RXNEIE_bit, receiveCharacter]
        rw [testBit_bitbandWrite _ _ _ _ (by decide)]
        simp
      · rw [f8]; simp [receiveCharacter, List.append_assoc]
      · rw [List.filter_append, f9, List.filter_append]
        simp only [receiveErrorEvents]
        split_ifs <;> simp [isReadCompleteEvent]

theorem holdsCharacter_storeCharacter (b : Bool) (memory : Nat → Nat) (address character : Nat) :
    holdsCharacter b (storeCharacter b address character memory) address character := by
  cases b
  · simp [holdsCharacter, storeCharacter]
  · simp [holdsCharacter, storeCharacter]

theorem storeCharacter_of_lt (b : Bool) (memory : Nat → Nat) (address character a : Nat)
    (h : a < address) : storeCharacter b address character memory a = memory a := by
  cases b
  · simp only [storeCharacter, Bool.false_eq_true, if_false]
    rw [Function.update_noteq (by omega)]
  · simp only [storeCharacter, if_true]
    rw [Function.update_noteq (by omega), Function.update_noteq (by omega)]

theorem holdsCharacter_congr (b : Bool) (memory memory' : Nat → Nat) (address character : Nat)
    (h : ∀ a, a < address + bytesPerCharacter b → memory' a = memory a)
    (hc : holdsCharacter b memory address character) :
    holdsCharacter b memory' address character := by
  cases b
  · simp only [bytesPerCharacter, Bool.false_eq_true, if_false] at h
    simp only [holdsCharacter, Bool.false_eq_true, false_implies, and_true] at hc ⊢
    rw [h _ (by omega), hc]
  · simp only [bytesPerCharacter, if_true] at h
    simp only [holdsCharacter, true_implies] at hc ⊢
    rw [h _ (by omega), h _ (by omega)]
    exact hc

theorem bytesPerCharacter_pos (b : Bool) : 1 ≤ bytesPerCharacter b := by
  cases b <;> decide

/-- Receive interrupts while a read is in progress with room for `m` more characters. -/
theorem receiveInterrupts_of_reading (fuel : Nat) (hfuel : 4 ≤ fuel) (b : Bool) (buf n : Nat)
    (hbuf : buf ≠ 0) (hn : n < 2 ^ 32) (chars : List Nat) :
    ∀ (s : ChipUartLowLevel) (m : Nat), is9BitFormatEnabled s = b → s.readBuffer_ = buf →
      s.readSize_ = n → s.CR1.testBit 5 = true → 1 ≤ m →
      s.readPosition_ + bytesPerCharacter b * m = n →
      ∃ t, receiveInterrupts recordingCallback fuel chars s = some t
        ∧ t.uartBase_ = s.uartBase_
        ∧ (∀ a, a < buf + s.readPosition_ → t.memory a = s.memory a)
        ∧ (∀ j, j < m → j < chars.length →
            holdsCharacter b t.memory (buf + s.readPosition_ + bytesPerCharacter b * j)
              (chars.getD j 0 % 2 ^ 16))
        ∧ (chars.length < m →
            t.readBuffer_ = buf ∧ t.readSize_ = n
            ∧ t.readPosition_ = s.readPosition_ + bytesPerCharacter b * chars.length
            ∧ ∃ new, t.events = s.events ++ new
                ∧ new.filter (fun e => isReadCompleteEvent e.2) = [])
        ∧ (m ≤ chars.length →
            t.readBuffer_ = 0
            ∧ ∃ new, t.events = s.events ++ new
                ∧ new.filter (fun e => isReadCompleteEvent e.2)
                    = [(s.uartBase_, Event.readCompleteEvent n)]) := by
  have hk := bytesPerCharacter_pos b
  induction chars with
  | nil =>
    intro s m _ h1 h2 _ hm _
    refine ⟨s, rfl, rfl, fun _ _ => rfl, ?_, ?_, ?_⟩
    · intro j _ hj; simp at hj
    · intro _; exact ⟨h1, h2, by simp, [], by simp, rfl⟩
    · intro h; simp at h; omega
  | cons c rest ih =>
    intro s m hb h1 h2 h5 hm hpos
    obtain ⟨m', rfl⟩ : ∃ m', m = m' + 1 := ⟨m - 1, by omega⟩
    rw [Nat.mul_succ] at hpos
    obtain ⟨t1, ht1, hsink, hmem, h9, hmore, hlast⟩ :=
      interruptHandler_receiveCharacter fuel hfuel c s (by rw [h1]; exact hbuf)
        (by rw [h2]; exact hn) h5
        (by rw [hb, h2]; generalize bytesPerCharacter b = k at hpos ⊢; omega)
    rw [hb] at hmem h9 hmore hlast
    rw [h1] at hmem hmore
    rw [h2] at hmore hlast
    have hrun : receiveInterrupts recordingCallback fuel (c :: rest) s
        = receiveInterrupts recordingCallback fuel rest t1 := by
      rw [receiveInterrupts, ht1]
    have hstored : holdsCharacter b t1.memory (buf + s.readPosition_) (c % 2 ^ 16) := by
      rw [hmem]; exact holdsCharacter_storeCharacter _ _ _ _
    have hbelow : ∀ a, a < buf + s.readPosition_ → t1.memory a = s.memory a := by
      intro a ha; rw [hmem]; exact storeCharacter_of_lt _ _ _ _ _ ha
    rcases Nat.eq_zero_or_pos m' with hm0 | hmpos
    · -- the character fills the buffer
      subst hm0
      obtain ⟨hb0, h50, new1, he1, hf1⟩ := hlast (by simpa using hpos)
      obtain ⟨t, ht, f1, f2, f3, f4, f5, f6, f7, new2, f8, f9⟩ :=
        receiveInterrupts_of_disabled fuel hfuel rest t1 h50
      refine ⟨t, hrun.trans ht, f1.trans hsink, ?_, ?_, ?_, ?_⟩
      · intro a ha; rw [f5]; exact hbelow a ha
      · intro j hj _
        obtain rfl : j = 0 := by omega
        rw [f5]
        simpa using hstored
      · intro h; simp at h
      · intro _
        refine ⟨f2.trans hb0, new1 ++ new2, ?_, ?_⟩
        · rw [f8, he1, List.append_assoc]
        · rw [List.filter_append, hf1, f9]; rfl
    · -- the read goes on
      have hgoal : s.readPosition_ + bytesPerCharacter b < n := by
        generalize bytesPerCharacter b = k at hpos hk ⊢
        have := Nat.mul_le_mul_left k hmpos
        omega
      obtain ⟨g1, g2, g3, g5, new1, he1, hf1⟩ := hmore hgoal
      obtain ⟨t, ht, i1, i2, i3, i4, i5⟩ :=
        ih t1 m' h9 g1 g2 g5 hmpos
          (by rw [g3]; generalize bytesPerCharacter b = k at hpos ⊢; omega)
      rw [g3] at i2 i3 i4
      refine ⟨t, hrun.trans ht, i1.trans hsink, ?_, ?_, ?_, ?_⟩
      · intro a ha
        rw [i2 a (Nat.lt_of_lt_of_le ha (by simp [Nat.add_assoc]))]
        exact hbelow a ha
      · intro j hj hjl
        rcases Nat.eq_zero_or_pos j with hj0 | hjpos
        · subst hj0
          apply holdsCharacter_congr b t1.memory t.memory _ _ _ (by simpa using hstored)
          intro a ha
          exact i2 a (by simpa [Nat.add_assoc] using ha)
        · obtain ⟨j', rfl⟩ : ∃ j', j = j' + 1 := ⟨j - 1, by omega⟩
          have := i3 j' (by omega) (by simpa using hjl)
          rw [Nat.mul_succ]
          have haddr : buf + s.readPosition_ + (bytesPerCharacter b * j' + bytesPerCharacter b)
              = buf + (s.readPosition_ + bytesPerCharacter b) + bytesPerCharacter b * j' := by
            generalize bytesPerCharacter b * j' = x
            generalize bytesPerCharacter b = k
            omega
          rw [haddr]
          simpa using this
      · intro hl
        obtain ⟨j1, j2, j3, new2, j4, j5⟩ := i4 (by simpa using hl)
        refine ⟨j1, j2, ?_, new1 ++ new2, ?_, ?_⟩
        · rw [j3, List.length_cons, Nat.mul_succ]
          generalize bytesPerCharacter b * rest.length = x
          generalize bytesPerCharacter b = k
          omega
        · rw [j4, he1, List.append_assoc]
        · rw [List.filter_append, hf1, j5]; rfl
      · intro hl
        obtain ⟨j1, new2, j4, j5⟩ := i5 (by simpa using hl)
        refine ⟨j1, new1 ++ new2, ?_, ?_⟩
        · rw [j4, he1, List.append_assoc]
        · rw [List.filter_append, hf1, j5, hsink]; rfl

/-- `startRead` with valid arguments on a started driver with no read in progress. -/
theorem startRead_of_valid (s : ChipUartLowLevel) (buf n : Nat) (hs : isStarted s = true)
    (hr : isReadInProgress s = false) (hbuf : buf ≠ 0) (hn1 : 1 ≤ n)
    (h9 : is9BitFormatEnabled s = true → n % 2 = 0) :
    (startRead buf n s).1 = 0
    ∧ (startRead buf n s).2.readBuffer_ = buf
    ∧ (startRead buf n s).2.readSize_ = n
    ∧ (startRead buf n s).2.readPosition_ = 0
    ∧ (startRead buf n s).2.CR1.testBit 5 = true
    ∧ is9BitFormatEnabled (startRead buf n s).2 = is9BitFormatEnabled s
    ∧ (startRead buf n s).2.uartBase_ = s.uartBase_
    ∧ (startRead buf n s).2.events = s.events := by
  have hn0 : n ≠ 0 := by omega
  have hodd : (is9BitFormatEnabled s == true && n % 2 != 0) = false := by
    cases h : is9BitFormatEnabled s
    · rfl
    · simp [h9 h]
  have hstart : startRead buf n s
      = (0, enableRxneInterrupt true
          { s with readBuffer_ := buf, readSize_ := n, readPosition_ := 0 }) := by
    unfold startRead
    rw [if_neg (by simp [hbuf, hn0]), if_neg (by simp [hs]), if_neg (by simp [hr]),
      if_neg (by simp only [hodd]; decide)]
  rw [hstart]
  have hbit : ∀ i, i < 32 → i ≠ 5 →
      (enableRxneInterrupt true
        { s with readBuffer_ := buf, readSize_ := n, readPosition_ := 0 }).CR1.testBit i
        = s.CR1.testBit i := by
    intro i hi h5
    simp only [enableRxneInterrupt, USART_CR1_RXNEIE_bit]
    rw [testBit_bitbandWrite _ _ _ _ hi, if_neg (Ne.symm h5)]
  refine ⟨rfl, rfl, rfl, rfl, ?_,
    is9BitFormatEnabled_congr _ _ (hbit 12 (by decide) (by decide))
      (hbit 10 (by decide) (by decide)), rfl, rfl⟩
  simp only [enableRxneInterrupt, USART_CR1_RXNEIE_bit]
  rw [testBit_bitbandWrite _ _ _ _ (by decide)]
  simp

/-- C9: on a started driver with no read in progress, for a buffer that is not null, a size `n`
from 1 (even in the 9-bit format) and every list of received characters, `startRead(buf, n)`
returns 0 and the receive interrupts, one per character, all return; as long as fewer
characters have arrived than fill the buffer the read is in progress with its cursor below `n`
and no `readCompleteEvent` has been recorded; once that many have arrived exactly one
`readCompleteEvent` has been recorded, with argument `n`, the read is no longer in progress, and
the buffer holds in order the low byte of each character (8-bit format) or, per character, its
low byte followed by the character shifted right by 8 (9-bit format). -/
theorem read_completes_exactly_once (fuel : Nat) (hfuel : 4 ≤ fuel) (s : ChipUartLowLevel)
    (buf n : Nat) (chars : List Nat) (hs : isStarted s = true)
    (hr : isReadInProgress s = false) (hbuf : buf ≠ 0) (hn1 : 1 ≤ n) (hn : n < 2 ^ 32)
    (h9 : is9BitFormatEnabled s = true → n % 2 = 0) :
    (startRead buf n s).1 = 0
    ∧ ∃ t, receiveInterrupts recordingCallback fuel chars (startRead buf n s).2 = some t
      ∧ (chars.length < charactersFor (is9BitFormatEnabled s) n →
          isReadInProgress t = true
          ∧ t.readPosition_ = bytesPerCharacter (is9BitFormatEnabled s) * chars.length
          ∧ t.readPosition_ < n
          ∧ ∃ new, t.events = s.events ++ new
              ∧ new.filter (fun e => isReadCompleteEvent e.2) = [])
      ∧ (charactersFor (is9BitFormatEnabled s) n ≤ chars.length →
          isReadInProgress t = false
          ∧ (∃ new, t.events = s.events ++ new
              ∧ new.filter (fun e => isReadCompleteEvent e.2)
                  = [(s.uartBase_, Event.readCompleteEvent n)])
          ∧ (is9BitFormatEnabled s = false →
              ∀ i, i < n → t.memory (buf + i) = chars.getD i 0 % 2 ^ 16 % 256)
          ∧ (is9BitFormatEnabled s = true →
              ∀ j, j < n / 2 →
                t.memory (buf + 2 * j) = chars.getD j 0 % 2 ^ 16 % 256
                ∧ t.memory (buf + 2 * j + 1) = ((chars.getD j 0 % 2 ^ 16) >>> 8) % 256)) := by
  have hstart := startRead_of_valid s buf n hs hr hbuf hn1 h9
  rw [hstart.1]
  refine ⟨rfl, ?_⟩
  obtain ⟨_, g1, g2, g3, g4, g5, hsink0, hevents0⟩ := hstart
  generalize (startRead buf n s).2 = s0 at *
  generalize hb : is9BitFormatEnabled s = b at *
  have hm : 1 ≤ charactersFor b n ∧ 0 + bytesPerCharacter b * charactersFor b n = n := by
    cases b
    · simp [charactersFor, bytesPerCharacter]; omega
    · have := h9 rfl
      simp only [charactersFor, bytesPerCharacter, if_true]
      omega
  obtain ⟨t, ht, _, _, hchars, hless, hdone⟩ :=
    receiveInterrupts_of_reading fuel hfuel b buf n hbuf hn chars s0 (charactersFor b n) g5
      g1 g2 g4 hm.1 (by rw [g3]; exact hm.2)
  rw [g3] at hchars hless
  rw [hsink0, hevents0] at hdone
  rw [hevents0] at hless
  refine ⟨t, ht, ?_, ?_⟩
  · intro hl
    obtain ⟨g1, g2, g3, g4⟩ := hless hl
    have g3' : t.readPosition_ = bytesPerCharacter b * chars.length := by simpa using g3
    refine ⟨by simp [isReadInProgress, g1, hbuf], g3', ?_, g4⟩
    rw [g3']
    have := hm.2
    cases b
    · simp only [charactersFor, bytesPerCharacter, Bool.false_eq_true, if_false] at hl this ⊢
      omega
    · simp only [charactersFor, bytesPerCharacter, if_true] at hl this ⊢
      omega
  · intro hl
    obtain ⟨g1, g4⟩ := hdone hl
    refine ⟨by simp [isReadInProgress, g1], g4, ?_, ?_⟩
    · rintro rfl i hi
      have := hchars i (by simpa [charactersFor] using hi)
        (by simp only [charactersFor, Bool.false_eq_true, if_false] at hl; omega)
      simpa [holdsCharacter, bytesPerCharacter] using this
    · rintro rfl j hj
      have := hchars j (by simpa [charactersFor] using hj)
        (by simp only [charactersFor, if_true] at hl; omega)
      simpa [holdsCharacter, bytesPerCharacter] using this

/-- Witness of C9: the example driver started with 8 data bits reads 3 bytes while the
characters 0x41, 0x142, 0x43, 0x44 arrive; the evaluation of the run shows the one
`readCompleteEvent(3)` and the three low bytes in the buffer, the fourth character being left
alone. Started with 9 data bits and reading 4 bytes, the characters 0x141 and 0x42 complete the
read with the bytes 0x41, 1, 0x42, 0, and the character 0x141 alone does not. -/
theorem read_completes_exactly_once_witness :
    (4 ≤ 4 ∧ isStarted started8 = true ∧ isReadInProgress started8 = false
      ∧ (0x20000000 : Nat) ≠ 0 ∧ 1 ≤ 3 ∧ 3 < 2 ^ 32
      ∧ (is9BitFormatEnabled started8 = true → 3 % 2 = 0))
    ∧ (receiveInterrupts recordingCallback 4 [0x41, 0x142, 0x43, 0x44]
          (startRead 0x20000000 3 started8).2).map
        (fun t => (t.events, t.readBuffer_, t.memory 0x20000000, t.memory 0x20000001,
          t.memory 0x20000002, t.memory 0x20000003))
        = some ([(some 1, Event.readCompleteEvent 3)], 0, 0x41, 0x42, 0x43, 3)
    ∧ (receiveInterrupts recordingCallback 4 [0x141, 0x42]
          (startRead 0x20000000 4 started9).2).map
        (fun t => (t.events, t.readBuffer_, t.memory 0x20000000, t.memory 0x20000001,
          t.memory 0x20000002, t.memory 0x20000003))
        = some ([(some 1, Event.readCompleteEvent 4)], 0, 0x41, 1, 0x42, 0)
    ∧ (receiveInterrupts recordingCallback 4 [0x141]
          (startRead 0x20000000 4 started9).2).map
        (fun t => (t.events, t.readBuffer_, t.readPosition_))
        = some ([], 0x20000000, 2)
    ∧ ((startRead 0x20000000 3 started8).1 = 0
      ∧ ∃ t, receiveInterrupts recordingCallback 4 [0x41, 0x142, 0x43, 0x44]
            (startRead 0x20000000 3 started8).2 = some t
        ∧ ([0x41, 0x142, 0x43, 0x44].length < charactersFor (is9BitFormatEnabled started8) 3 →
            isReadInProgress t = true
            ∧ t.readPosition_ = bytesPerCharacter (is9BitFormatEnabled started8)
                * [0x41, 0x142, 0x43, 0x44].length
            ∧ t.readPosition_ < 3
            ∧ ∃ new, t.events = started8.events ++ new
                ∧ new.filter (fun e => isReadCompleteEvent e.2) = [])
        ∧ (charactersFor (is9BitFormatEnabled started8) 3 ≤ [0x41, 0x142, 0x43, 0x44].length →
            isReadInProgress t = false
            ∧ (∃ new, t.events = started8.events ++ new
                ∧ new.filter (fun e => isReadCompleteEvent e.2)
                    = [(started8.uartBase_, Event.readCompleteEvent 3)])
            ∧ (is9BitFormatEnabled started8 = false →
                ∀ i, i < 3 →
                  t.memory (0x20000000 + i) = [0x41, 0x142, 0x43, 0x44].getD i 0 % 2 ^ 16 % 256)
            ∧ (is9BitFormatEnabled started8 = true →
                ∀ j, j < 3 / 2 →
                  t.memory (0x20000000 + 2 * j)
                      = [0x41, 0x142, 0x43, 0x44].getD j 0 % 2 ^ 16 % 256
                  ∧ t.memory (0x20000000 + 2 * j + 1)
                      = (([0x41, 0x142, 0x43, 0x44].getD j 0 % 2 ^ 16) >>> 8) % 256))) :=
  ⟨⟨by decide, by decide, by decide, by decide, by decide, by decide, by decide⟩, by decide,
    by decide, by decide,
    read_completes_exactly_once 4 (by decide) started8 0x20000000 3 [0x41, 0x142, 0x43, 0x44]
      (by decide) (by decide) (by decide) (by decide) (by decide) (by decide)⟩

/-! ## Writes -/

theorem WriteFrame.reflWrite (s : ChipUartLowLevel) : WriteFrame s s :=
  ⟨rfl, rfl, rfl, rfl, rfl, rfl, rfl, rfl, rfl, [], by simp, rfl⟩

theorem writeFrame_serveTransmitComplete (s : ChipUartLowLevel) :
    WriteFrame s (serveTransmitComplete recordingCallback s) := by
  unfold serveTransmitComplete
  split_ifs
  · have hbit : ∀ i, i < 32 → i ≠ 6 →
        (interruptHandlerTransmitComplete recordingCallback s).CR1.testBit i
          = s.CR1.testBit i := by
      intro i hi h6
      simp only [interruptHandlerTransmitComplete, notify, recordingCallback, enableTcInterrupt,
        USART_CR1_TCIE_bit]
      rw [testBit_bitbandWrite _ _ _ _ hi, if_neg (Ne.symm h6)]
    exact ⟨rfl, rfl, rfl, rfl, rfl, rfl, rxPending_interruptHandlerTransmitComplete s,
      hbit 7 (by decide) (by decide),
      is9BitFormatEnabled_congr _ _ (hbit 12 (by decide) (by decide))
        (hbit 10 (by decide) (by decide)),
      [(s.uartBase_, Event.transmitCompleteEvent)], rfl, rfl⟩
  · exact WriteFrame.reflWrite s

/-- One transmit-data-empty interrupt while a write is in progress with a character left to
send and no receive condition pending. -/
theorem interruptHandler_transmitDataEmpty (fuel : Nat) (hfuel : 4 ≤ fuel)
    (s : ChipUartLowLevel) (hbuf : s.writeBuffer_ ≠ 0) (hn : s.writeSize_ < 2 ^ 32)
    (h7 : s.CR1.testBit 7 = true) (hrx : rxPending s = false)
    (hpos : s.writePosition_ + bytesPerCharacter (is9BitFormatEnabled s) ≤ s.writeSize_) :
    ∃ t, interruptHandler recordingCallback fuel (transmitDataEmpty s) = some t
      ∧ t.uartBase_ = s.uartBase_
      ∧ t.memory = s.memory
      ∧ t.transmitted = s.transmitted
          ++ [loadCharacter (is9BitFormatEnabled s) s (s.writeBuffer_ + s.writePosition_)]
      ∧ rxPending t = false
      ∧ is9BitFormatEnabled t = is9BitFormatEnabled s
      ∧ (s.writePosition_ + bytesPerCharacter (is9BitFormatEnabled s) < s.writeSize_ →
          t.writeBuffer_ = s.writeBuffer_ ∧ t.writeSize_ = s.writeSize_
          ∧ t.writePosition_ = s.writePosition_ + bytesPerCharacter (is9BitFormatEnabled s)
          ∧ t.CR1.testBit 7 = true
          ∧ ∃ new, t.events = s.events ++ new
              ∧ new.filter (fun e => isWriteCompleteEvent e.2) = [])
      ∧ (s.writePosition_ + bytesPerCharacter (is9BitFormatEnabled s) = s.writeSize_ →
          t.writeBuffer_ = 0 ∧ t.CR1.testBit 7 = false
          ∧ ∃ new, t.events = s.events ++ new
              ∧ new.filter (fun e => isWriteCompleteEvent e.2)
                  = [(s.uartBase_, Event.writeCompleteEvent s.writeSize_)]) := by
  have h9 : is9BitFormatEnabled (transmitDataEmpty s) = is9BitFormatEnabled s := rfl
  have hTXE : USART_SR_TXE = 2 ^ 7 := by decide
  have hrx0 : rxPending (transmitDataEmpty s) = false := by
    rw [← hrx]
    simp only [rxPending, transmitDataEmpty, hTXE, testBit_or_two_pow]
    simp
  have htx0 : txPending (transmitDataEmpty s) = true := by
    simp only [txPending, transmitDataEmpty, hTXE, testBit_or_two_pow, h7]
    simp
  rw [interruptHandler_recordingCallback _ _ hfuel, h9]
  refine ⟨_, rfl, ?_⟩
  generalize hb : is9BitFormatEnabled s = b at *
  have hserveRead : serveRead recordingCallback b (transmitDataEmpty s) = transmitDataEmpty s := by
    simp [serveRead, hrx0]
  have hserveWrite : serveWrite recordingCallback b (transmitDataEmpty s)
      = interruptHandlerWrite recordingCallback b (transmitDataEmpty s) := by
    simp [serveWrite, htx0]
  rw [hserveRead, hserveWrite]
  have hrx1 : rxPending (interruptHandlerWrite recordingCallback b (transmitDataEmpty s))
      = false := by
    rw [rxPending_interruptHandlerWrite, hrx0]
  have hframe := writeFrame_serveTransmitComplete
    (interruptHandlerWrite recordingCallback b (transmitDataEmpty s))
  generalize serveTransmitComplete recordingCallback
      (interruptHandlerWrite recordingCallback b (transmitDataEmpty s)) = t at *
  obtain ⟨f1, f2, f3, f4, f5, f6, f7, f8, f9, new, f10, f11⟩ := hframe
  rw [hrx1] at f7
  rcases Nat.lt_or_eq_of_le hpos with hlt | heq
  · rw [interruptHandlerWrite_of_more b (transmitDataEmpty s) hn hlt]
      at f1 f2 f3 f4 f5 f6 f8 f9 f10
    refine ⟨f1, f5, f6, f7, ?_, ?_, ?_⟩
    · rw [f9]; exact is9BitFormatEnabled_congr _ _ rfl rfl |>.trans hb
    · intro _
      exact ⟨f2, f3, f4, f8.trans h7, new, f10, f11⟩
    · intro h; omega
  · rw [interruptHandlerWrite_of_last b (transmitDataEmpty s) hbuf hn heq]
      at f1 f2 f3 f4 f5 f6 f8 f9 f10
    refine ⟨f1, f5, f6, f7, ?_, ?_, ?_⟩
    · rw [f9, is9BitFormatEnabled_eq, ← hb, is9BitFormatEnabled_eq]
      simp only [USART_CR1_TXEIE_bit, USART_CR1_TCIE_bit, transmitDataEmpty]
      rw [testBit_bitbandWrite _ _ _ _ (by decide), testBit_bitbandWrite _ _ _ _ (by decide),
        testBit_bitbandWrite _ _ _ _ (by decide), testBit_bitbandWrite _ _ _ _ (by decide)]
      simp
    · intro h; omega
    · intro _
      refine ⟨f2, ?_, [(s.uartBase_, Event.writeCompleteEvent s.writeSize_)] ++ new, ?_, ?_⟩
      · rw [f8]
        simp only [USART_CR1_TXEIE_bit, USART_CR1_TCIE_bit, transmitDataEmpty]
        rw [testBit_bitbandWrite _ _ _ _ (by decide), testBit_bitbandWrite _ _ _ _ (by decide)]
        simp
      · rw [f10]; simp [transmitDataEmpty, List.append_assoc]
      · rw [List.filter_append, f11]
        simp [isWriteCompleteEvent]

theorem WriteFrame.transWrite {s t u : ChipUartLowLevel} (h1 : WriteFrame s t) (h2 : WriteFrame t u) :
    WriteFrame s u := by
  obtain ⟨a1, a2, a3, a4, a5, a6, a7, a8, a9, new1, a10, a11⟩ := h1
  obtain ⟨b1, b2, b3, b4, b5, b6, b7, b8, b9, new2, b10, b11⟩ := h2
  refine ⟨b1.trans a1, b2.trans a2, b3.trans a3, b4.trans a4, b5.trans a5, b6.trans a6,
    b7.trans a7, b8.trans a8, b9.trans a9, new1 ++ new2, ?_, ?_⟩
  · rw [b10, a10, List.append_assoc]
  · rw [List.filter_append, a11, b11]; rfl

theorem loadCharacter_congr (b : Bool) (s t : ChipUartLowLevel) (address : Nat)
    (h : t.memory = s.memory) : loadCharacter b t address = loadCharacter b s address := by
  simp only [loadCharacter, loadByte, h]

/-- Transmit-data-empty interrupts while the transmit interrupt is disabled and no receive
condition is pending send nothing. -/
theorem transmitInterrupts_of_disabled (fuel : Nat) (hfuel : 4 ≤ fuel) (count : Nat) :
    ∀ s : ChipUartLowLevel, s.CR1.testBit 7 = false → rxPending s = false →
      ∃ t, transmitInterrupts recordingCallback fuel count s = some t ∧ WriteFrame s t := by
  induction count with
  | zero => intro s _ _; exact ⟨s, rfl, WriteFrame.reflWrite s⟩
  | succ count ih =>
    intro s h7 hrx
    have hTXE : USART_SR_TXE = 2 ^ 7 := by decide
    have hrx0 : rxPending (transmitDataEmpty s) = false := by
      rw [← hrx]
      simp only [rxPending, transmitDataEmpty, hTXE, testBit_or_two_pow]
      simp
    have htx0 : txPending (transmitDataEmpty s) = false := by
      simp [txPending, transmitDataEmpty, h7]
    have hserveRead : serveRead recordingCallback (is9BitFormatEnabled (transmitDataEmpty s))
        (transmitDataEmpty s) = transmitDataEmpty s := by
      simp [serveRead, hrx0]
    have hserveWrite : serveWrite recordingCallback (is9BitFormatEnabled (transmitDataEmpty s))
        (transmitDataEmpty s) = transmitDataEmpty s := by
      simp [serveWrite, htx0]
    have hframe0 : WriteFrame s (transmitDataEmpty s) :=
      ⟨rfl, rfl, rfl, rfl, rfl, rfl, hrx0.trans hrx.symm, rfl, rfl, [],
        by simp [transmitDataEmpty], rfl⟩
    have hframe := hframe0.transWrite (writeFrame_serveTransmitComplete (transmitDataEmpty s))
    obtain ⟨t, ht, hft⟩ := ih _ (by rw [hframe.2.2.2.2.2.2.2.1]; exact h7)
      (by rw [hframe.2.2.2.2.2.2.1]; exact hrx)
    refine ⟨t, ?_, hframe.transWrite hft⟩
    rw [transmitInterrupts, interruptHandler_recordingCallback _ _ hfuel, hserveRead,
      hserveWrite]
    exact ht

/-- The transmit-data-empty interrupts that send the `m` characters left of a write in
progress. -/
theorem transmitInterrupts_of_writing (fuel : Nat) (hfuel : 4 ≤ fuel) (b : Bool) (buf n : Nat)
    (hbuf : buf ≠ 0) (hn : n < 2 ^ 32) (m : Nat) :
    ∀ (s : ChipUartLowLevel), is9BitFormatEnabled s = b → s.writeBuffer_ = buf →
      s.writeSize_ = n → s.CR1.testBit 7 = true → rxPending s = false → 1 ≤ m →
      s.writePosition_ + bytesPerCharacter b * m = n →
      ∃ t, transmitInterrupts recordingCallback fuel m s = some t
        ∧ t.uartBase_ = s.uartBase_
        ∧ t.memory = s.memory
        ∧ t.transmitted = s.transmitted
            ++ (List.range m).map
                (fun j => loadCharacter b s (buf + s.writePosition_ + bytesPerCharacter b * j))
        ∧ t.writeBuffer_ = 0
        ∧ t.CR1.testBit 7 = false
        ∧ rxPending t = false
        ∧ ∃ new, t.events = s.events ++ new
            ∧ new.filter (fun e => isWriteCompleteEvent e.2)
                = [(s.uartBase_, Event.writeCompleteEvent n)] := by
  have hk := bytesPerCharacter_pos b
  induction m with
  | zero => intro s _ _ _ _ _ hm; omega
  | succ m' ih =>
    intro s hb h1 h2 h7 hrx _ hpos
    rw [Nat.mul_succ] at hpos
    obtain ⟨t1, ht1, hsink, hmem, hsent, hrx1, h9, hmore, hlast⟩ :=
      interruptHandler_transmitDataEmpty fuel hfuel s (by rw [h1]; exact hbuf)
        (by rw [h2]; exact hn) h7 hrx
        (by rw [hb, h2]; generalize bytesPerCharacter b = k at hpos ⊢; omega)
    rw [hb] at hsent h9 hmore hlast
    rw [h1] at hsent hmore
    rw [h2] at hmore hlast
    have hrun : transmitInterrupts recordingCallback fuel (m' + 1) s
        = transmitInterrupts recordingCallback fuel m' t1 := by
      rw [transmitInterrupts, ht1]
    rcases Nat.eq_zero_or_pos m' with hm0 | hmpos
    · subst hm0
      obtain ⟨hb0, h70, new1, he1, hf1⟩ := hlast (by simpa using hpos)
      refine ⟨t1, hrun, hsink, hmem, ?_, hb0, h70, hrx1, new1, he1, hf1⟩
      rw [hsent]
      simp [List.range_succ]
    · have hgoal : s.writePosition_ + bytesPerCharacter b < n := by
        generalize bytesPerCharacter b = k at hpos hk ⊢
        have := Nat.mul_le_mul_left k hmpos
        omega
      obtain ⟨g1, g2, g3, g5, new1, he1, hf1⟩ := hmore hgoal
      obtain ⟨t, ht, i1, i2, i3, i4, i5, i6, new2, i7, i8⟩ :=
        ih t1 h9 g1 g2 g5 hrx1 hmpos
          (by rw [g3]; generalize bytesPerCharacter b = k at hpos ⊢; omega)
      refine ⟨t, hrun.trans ht, i1.trans hsink, i2.trans hmem, ?_, i4, i5, i6,
        new1 ++ new2, ?_, ?_⟩
      · rw [i3, hsent, g3, List.range_succ_eq_map, List.map_cons, List.map_map,
          List.append_assoc]
        congr 1
        simp only [Nat.mul_zero, Nat.add_zero, List.singleton_append, List.cons.injEq, true_and]
        apply List.map_congr_left
        intro j _
        simp only [Function.comp]
        rw [loadCharacter_congr b s t1 _ hmem, Nat.mul_succ]
        congr 1
        generalize bytesPerCharacter b * j = x
        generalize bytesPerCharacter b = k
        omega
      · rw [i7, he1, List.append_assoc]
      · rw [List.filter_append, hf1, i8, hsink]; rfl

theorem transmitInterrupts_add (cb : Callback) (fuel a c : Nat) :
    ∀ s t : ChipUartLowLevel, transmitInterrupts cb fuel a s = some t →
      transmitInterrupts cb fuel (a + c) s = transmitInterrupts cb fuel c t := by
  induction a with
  | zero =>
    intro s t h
    simp only [transmitInterrupts, Option.some.injEq] at h
    rw [Nat.zero_add, h]
  | succ a ih =>
    intro s t h
    rw [Nat.succ_add, transmitInterrupts]
    rw [transmitInterrupts] at h
    cases hh : interruptHandler cb fuel (transmitDataEmpty s) with
    | none => rw [hh] at h; simp at h
    | some u =>
      rw [hh] at h
      simp only at h ⊢
      exact ih u t h

theorem rxPending_eq_false_iff (s : ChipUartLowLevel) :
    rxPending s = false ↔ s.SR &&& s.CR1 &&& USART_SR_RXNE = 0 := by
  have h : USART_SR_RXNE = 2 ^ 5 := by decide
  have := and_two_pow_bne_zero (s.SR &&& s.CR1) 5
  rw [Nat.testBit_and] at this
  rw [h, rxPending, ← this]
  simp

/-- `startWrite` with valid arguments on a started driver with no write in progress. -/
theorem startWrite_of_valid (s : ChipUartLowLevel) (buf n : Nat) (hs : isStarted s = true)
    (hw : isWriteInProgress s = false) (hbuf : buf ≠ 0) (hn1 : 1 ≤ n)
    (h9 : is9BitFormatEnabled s = true → n % 2 = 0) :
    (startWrite recordingCallback buf n s).1 = 0
    ∧ (startWrite recordingCallback buf n s).2.writeBuffer_ = buf
    ∧ (startWrite recordingCallback buf n s).2.writeSize_ = n
    ∧ (startWrite recordingCallback buf n s).2.writePosition_ = 0
    ∧ (startWrite recordingCallback buf n s).2.CR1.testBit 7 = true
    ∧ is9BitFormatEnabled (startWrite recordingCallback buf n s).2 = is9BitFormatEnabled s
    ∧ (startWrite recordingCallback buf n s).2.uartBase_ = s.uartBase_
    ∧ (startWrite recordingCallback buf n s).2.memory = s.memory
    ∧ (startWrite recordingCallback buf n s).2.transmitted = s.transmitted
    ∧ rxPending (startWrite recordingCallback buf n s).2 = rxPending s
    ∧ ∃ new, (startWrite recordingCallback buf n s).2.events = s.events ++ new
        ∧ new.filter (fun e => isWriteCompleteEvent e.2) = [] := by
  have hn0 : n ≠ 0 := by omega
  have hodd : (is9BitFormatEnabled s == true && n % 2 != 0) = false := by
    cases h : is9BitFormatEnabled s
    · rfl
    · simp [h9 h]
  have hstart : startWrite recordingCallback buf n s
      = (0, enableTxeInterrupt true
          (if ((enableTcInterrupt false
              { s with writeBuffer_ := buf, writeSize_ := n, writePosition_ := 0 }).SR
                &&& USART_SR_TC) != 0 then
            notify recordingCallback Event.transmitStartEvent (enableTcInterrupt false
              { s with writeBuffer_ := buf, writeSize_ := n, writePosition_ := 0 })
          else enableTcInterrupt false
              { s with writeBuffer_ := buf, writeSize_ := n, writePosition_ := 0 })) := by
    unfold startWrite
    rw [if_neg (by simp [hbuf, hn0]), if_neg (by simp [hs]), if_neg (by simp [hw]),
      if_neg (by simp only [hodd]; decide)]
  rw [hstart]
  have hcr : (enableTxeInterrupt true
          (if ((enableTcInterrupt false
              { s with writeBuffer_ := buf, writeSize_ := n, writePosition_ := 0 }).SR
                &&& USART_SR_TC) != 0 then
            notify recordingCallback Event.transmitStartEvent (enableTcInterrupt false
              { s with writeBuffer_ := buf, writeSize_ := n, writePosition_ := 0 })
          else enableTcInterrupt false
              { s with writeBuffer_ := buf, writeSize_ := n, writePosition_ := 0 })).CR1
      = bitbandWrite (bitbandWrite s.CR1 6 false) 7 true := by
    split_ifs <;> rfl
  have hbit : ∀ i, i < 32 → i ≠ 6 → i ≠ 7 →
      (bitbandWrite (bitbandWrite s.CR1 6 false) 7 true).testBit i = s.CR1.testBit i := by
    intro i hi h6 h7
    rw [testBit_bitbandWrite _ _ _ _ hi, testBit_bitbandWrite _ _ _ _ hi, if_neg (Ne.symm h7),
      if_neg (Ne.symm h6)]
  refine ⟨rfl, ?_, ?_, ?_, ?_, ?_, ?_, ?_, ?_, ?_, ?_⟩
  · split_ifs <;> rfl
  · split_ifs <;> rfl
  · split_ifs <;> rfl
  · rw [hcr, testBit_bitbandWrite _ _ _ _ (by decide)]; simp
  · apply is9BitFormatEnabled_congr
    · rw [hcr]; exact hbit 12 (by decide) (by decide) (by decide)
    · rw [hcr]; exact hbit 10 (by decide) (by decide) (by decide)
  · split_ifs <;> rfl
  · split_ifs <;> rfl
  · split_ifs <;> rfl
  · unfold rxPending
    rw [hcr, hbit 5 (by decide) (by decide) (by decide)]
    congr 1
    split_ifs <;> rfl
  · split_ifs
    · exact ⟨[(s.uartBase_, Event.transmitStartEvent)], rfl, rfl⟩
    · exact ⟨[], by simp [enableTxeInterrupt, enableTcInterrupt], rfl⟩

/-- C10: on a started driver with no write in progress and no receive condition pending, for a
buffer that is not null and a size `n` from 1 (even in the 9-bit format), `startWrite(buf, n)`
returns 0 and the transmit-data-empty interrupts that send the buffer, and any number of
further ones, all return; after them the write is no longer in progress, exactly one
`writeCompleteEvent` has been recorded, with argument `n`, and the values written to the data
register are `buf[0], ..., buf[n-1]` in the 8-bit format, or `buf[2k] | (buf[2k+1] << 8)` for
`k` from 0 to `n/2 - 1` in the 9-bit format. -/
theorem write_completes_exactly_once (fuel : Nat) (hfuel : 4 ≤ fuel) (s : ChipUartLowLevel)
    (buf n further : Nat) (hs : isStarted s = true) (hw : isWriteInProgress s = false)
    (hbuf : buf ≠ 0) (hn1 : 1 ≤ n) (hn : n < 2 ^ 32)
    (h9 : is9BitFormatEnabled s = true → n % 2 = 0)
    (hrx : s.SR &&& s.CR1 &&& USART_SR_RXNE = 0) :
    (startWrite recordingCallback buf n s).1 = 0
    ∧ ∃ t, transmitInterrupts recordingCallback fuel
          (charactersFor (is9BitFormatEnabled s) n + further)
          (startWrite recordingCallback buf n s).2 = some t
      ∧ isWriteInProgress t = false
      ∧ (∃ new, t.events = s.events ++ new
          ∧ new.filter (fun e => isWriteCompleteEvent e.2)
              = [(s.uartBase_, Event.writeCompleteEvent n)])
      ∧ (is9BitFormatEnabled s = false →
          t.transmitted = s.transmitted ++ (List.range n).map (fun i => loadByte s (buf + i)))
      ∧ (is9BitFormatEnabled s = true →
          t.transmitted = s.transmitted
            ++ (List.range (n / 2)).map
                (fun k => loadByte s (buf + 2 * k) ||| (loadByte s (buf + 2 * k + 1) <<< 8))) := by
  obtain ⟨g0, g1, g2, g3, g4, g5, g6, g7, g8, g9, new0, g10, g11⟩ :=
    startWrite_of_valid s buf n hs hw hbuf hn1 h9
  rw [g0]
  refine ⟨rfl, ?_⟩
  rw [(rxPending_eq_false_iff s).mpr hrx] at g9
  generalize (startWrite recordingCallback buf n s).2 = s0 at *
  generalize hb : is9BitFormatEnabled s = b at *
  have hm : 1 ≤ charactersFor b n ∧ 0 + bytesPerCharacter b * charactersFor b n = n := by
    cases b
    · simp [charactersFor, bytesPerCharacter]; omega
    · have := h9 rfl
      simp only [charactersFor, bytesPerCharacter, if_true]
      omega
  obtain ⟨t1, ht1, i1, i2, i3, i4, i5, i6, new1, i7, i8⟩ :=
    transmitInterrupts_of_writing fuel hfuel b buf n hbuf hn (charactersFor b n) s0 g5 g1 g2
      g4 g9 hm.1 (by rw [g3]; exact hm.2)
  obtain ⟨t, ht, f1, f2, f3, f4, f5, f6, f7, f8, f9, new2, f10, f11⟩ :=
    transmitInterrupts_of_disabled fuel hfuel further t1 i5 i6
  refine ⟨t, ?_, ?_, ?_, ?_, ?_⟩
  · rw [transmitInterrupts_add _ _ _ _ _ _ ht1]; exact ht
  · simp [isWriteInProgress, f2, i4]
  · refine ⟨new0 ++ (new1 ++ new2), ?_, ?_⟩
    · rw [f10, i7, g10, List.append_assoc, List.append_assoc]
    · rw [List.filter_append, List.filter_append, g11, i8, f11, g6]; rfl
  · rintro rfl
    rw [f6, i3, g8, g3]
    congr 1
    apply List.map_congr_left
    intro i _
    simp [loadCharacter, bytesPerCharacter, loadByte, g7]
  · rintro rfl
    rw [f6, i3, g8, g3]
    congr 1
    apply List.map_congr_left
    intro i _
    simp [loadCharacter, bytesPerCharacter, loadByte, g7, Nat.add_assoc]

/-- Witness of C10: the example driver started with 8 data bits writes the 3 bytes at
`0x20000141`, which are 0x41, 0x42, 0x43, and is given 2 interrupts more than needed; the
evaluation of the run shows the three values sent and the one `writeCompleteEvent(3)`, between
the `transmitStartEvent` and the `transmitCompleteEvent`. Started with 9 data bits it sends the
4 bytes 0, 1, 2, 3 at `0x20000100` as the two values 0x100 and 0x302. -/
theorem write_completes_exactly_once_witness :
    (4 ≤ 4 ∧ isStarted started8 = true ∧ isWriteInProgress started8 = false
      ∧ (0x20000141 : Nat) ≠ 0 ∧ 1 ≤ 3 ∧ 3 < 2 ^ 32
      ∧ (is9BitFormatEnabled started8 = true → 3 % 2 = 0)
      ∧ started8.SR &&& started8.CR1 &&& USART_SR_RXNE = 0)
    ∧ (transmitInterrupts recordingCallback 4 5
          (startWrite recordingCallback 0x20000141 3 started8).2).map
        (fun t => (t.transmitted, t.events))
        = some ([0x41, 0x42, 0x43],
            [(some 1, Event.transmitStartEvent), (some 1, Event.writeCompleteEvent 3),
              (some 1, Event.transmitCompleteEvent)])
    ∧ (transmitInterrupts recordingCallback 4 2
          (startWrite recordingCallback 0x20000100 4 started9).2).map
        (fun t => (t.transmitted, t.events))
        = some ([0x100, 0x302],
            [(some 1, Event.transmitStartEvent), (some 1, Event.writeCompleteEvent 4),
              (some 1, Event.transmitCompleteEvent)])
    ∧ ((startWrite recordingCallback 0x20000141 3 started8).1 = 0
      ∧ ∃ t, transmitInterrupts recordingCallback 4
            (charactersFor (is9BitFormatEnabled started8) 3 + 2)
            (startWrite recordingCallback 0x20000141 3 started8).2 = some t
        ∧ isWriteInProgress t = false
        ∧ (∃ new, t.events = started8.events ++ new
            ∧ new.filter (fun e => isWriteCompleteEvent e.2)
                = [(started8.uartBase_, Event.writeCompleteEvent 3)])
        ∧ (is9BitFormatEnabled started8 = false →
            t.transmitted = started8.transmitted
              ++ (List.range 3).map (fun i => loadByte started8 (0x20000141 + i)))
        ∧ (is9BitFormatEnabled started8 = true →
            t.transmitted = started8.transmitted
              ++ (List.range (3 / 2)).map
                  (fun k => loadByte started8 (0x20000141 + 2 * k)
                    ||| (loadByte started8 (0x20000141 + 2 * k + 1) <<< 8)))) :=
  ⟨⟨by decide, by decide, by decide, by decide, by decide, by decide, by decide, by decide⟩,
    by decide, by decide,
    write_completes_exactly_once 4 (by decide) started8 0x20000141 3 2
      (by decide) (by decide) (by decide) (by decide) (by decide) (by decide) (by decide)⟩

/-! ## `stopRead`, `stopWrite`, `stop` -/

/-- C11: for every state, `stopRead` returns the cursor of the read in progress, or 0 if there
is none, and leaves no read in progress; called again it returns 0 and changes nothing, neither
a member of the driver nor a register. The same holds for `stopWrite` and the write. -/
theorem stopRead_stopWrite_twice (s : ChipUartLowLevel) :
    ((stopRead s).1 = (if isReadInProgress s = true then s.readPosition_ else 0)
      ∧ isReadInProgress (stopRead s).2 = false
      ∧ stopRead (stopRead s).2 = (0, (stopRead s).2))
    ∧ ((stopWrite s).1 = (if isWriteInProgress s = true then s.writePosition_ else 0)
      ∧ isWriteInProgress (stopWrite s).2 = false
      ∧ stopWrite (stopWrite s).2 = (0, (stopWrite s).2)) := by
  have hr : isReadInProgress (stopRead s).2 = false := by
    unfold stopRead
    split_ifs with h
    · simpa using h
    · simp [isReadInProgress, enableRxneInterrupt]
  have hw : isWriteInProgress (stopWrite s).2 = false := by
    unfold stopWrite
    split_ifs with h
    · simpa using h
    · simp [isWriteInProgress, enableTxeInterrupt, enableTcInterrupt]
  refine ⟨⟨?_, hr, ?_⟩, ?_, hw, ?_⟩
  · unfold stopRead
    split_ifs <;> simp_all [enableRxneInterrupt]
  · generalize (stopRead s).2 = t at hr
    simp [stopRead, hr]
  · unfold stopWrite
    split_ifs <;> simp_all [enableTxeInterrupt, enableTcInterrupt]
  · generalize (stopWrite s).2 = t at hw
    simp [stopWrite, hw]

/-- C12: for every state, `stop` returns `EBADF` if the driver is not started, otherwise `EBUSY`
if a read or a write is in progress, otherwise 0; after a `stop` that returns 0 the driver is
not started, its callback sink being absent, and a `stop` right after it returns `EBADF`. -/
theorem stop_result (s : ChipUartLowLevel) :
    (stop s).1 =
        (if isStarted s = false then EBADF
         else if isReadInProgress s = true ∨ isWriteInProgress s = true then EBUSY
         else 0)
    ∧ ((stop s).1 = 0 →
        isStarted (stop s).2 = false ∧ (stop s).2.uartBase_ = none
        ∧ (stop (stop s).2).1 = EBADF) := by
  constructor
  · unfold stop
    split_ifs <;> simp_all
  · intro h
    have hns : isStarted (stop s).2 = false ∧ (stop s).2.uartBase_ = none := by
      revert h
      unfold stop
      split_ifs
      · intro h; exact absurd h EBADF_ne_zero
      · intro h; exact absurd h EBUSY_ne_zero
      · intro _; simp [isStarted]
    refine ⟨hns.1, hns.2, ?_⟩
    generalize (stop s).2 = t at hns
    simp [stop, hns.1]

/-- Witness of C12: the started example driver is stopped, and cannot be stopped again. -/
theorem stop_result_witness :
    (stop started8).1 = 0
    ∧ (isStarted (stop started8).2 = false ∧ (stop started8).2.uartBase_ = none
        ∧ (stop (stop started8).2).1 = EBADF) :=
  ⟨by decide, (stop_result started8).2 (by decide)⟩

/-! ## `decodeErrors` -/

/-- C15: for every status value, `decodeErrors` sets `framingError` iff `sr & USART_SR_FE` is
not 0, `noiseError` iff `sr & USART_SR_NE` is not 0, `overrunError` iff `sr & USART_SR_ORE` is
not 0 and `parityError` iff `sr & USART_SR_PE` is not 0; every one of the 16 combinations of
the four flags is the result for some 32-bit status value; and the result depends on no bit of
the status value other than these four. -/
theorem decodeErrors_flags :
    (∀ sr : Nat,
      ((decodeErrors sr).framingError = true ↔ sr &&& USART_SR_FE ≠ 0)
      ∧ ((decodeErrors sr).noiseError = true ↔ sr &&& USART_SR_NE ≠ 0)
      ∧ ((decodeErrors sr).overrunError = true ↔ sr &&& USART_SR_ORE ≠ 0)
      ∧ ((decodeErrors sr).parityError = true ↔ sr &&& USART_SR_PE ≠ 0))
    ∧ (∀ errorSet : ErrorSet, ∃ sr : Nat, sr < 2 ^ 32 ∧ decodeErrors sr = errorSet)
    ∧ (∀ sr : Nat,
        decodeErrors sr
          = decodeErrors (sr &&& (USART_SR_FE ||| USART_SR_NE ||| USART_SR_ORE ||| USART_SR_PE)))
    ∧ (∀ sr sr' : Nat,
        sr &&& (USART_SR_FE ||| USART_SR_NE ||| USART_SR_ORE ||| USART_SR_PE)
          = sr' &&& (USART_SR_FE ||| USART_SR_NE ||| USART_SR_ORE ||| USART_SR_PE) →
        decodeErrors sr = decodeErrors sr') := by
  have hFE : USART_SR_FE = 2 ^ 1 := by decide
  have hNE : USART_SR_NE = 2 ^ 2 := by decide
  have hORE : USART_SR_ORE = 2 ^ 3 := by decide
  have hPE : USART_SR_PE = 2 ^ 0 := by decide
  have hmask : ∀ sr : Nat,
      decodeErrors sr
        = decodeErrors (sr &&& (USART_SR_FE ||| USART_SR_NE ||| USART_SR_ORE ||| USART_SR_PE)) := by
    intro sr
    simp only [decodeErrors]
    rw [hFE, hNE, hORE, hPE, and_and_two_pow _ _ 1 (by decide), and_and_two_pow _ _ 2 (by decide),
      and_and_two_pow _ _ 3 (by decide), and_and_two_pow _ _ 0 (by decide)]
  refine ⟨?_, ?_, hmask, ?_⟩
  · intro sr
    simp [decodeErrors]
  · rintro ⟨fe, ne, ore, pe⟩
    refine ⟨boolToNat pe + 2 * boolToNat fe + 4 * boolToNat ne + 8 * boolToNat ore, ?_, ?_⟩
    · cases fe <;> cases ne <;> cases ore <;> cases pe <;> decide
    · cases fe <;> cases ne <;> cases ore <;> cases pe <;> decide
  · intro sr sr' h
    rw [hmask sr, hmask sr', h]

/-! ## `start`: the registers after success -/

/-- The registers and the callback sink after a successful `start`. -/
theorem start_registers_of_success (p : Parameters) (uartBase baudRate characterLength : Nat)
    (parity : UartParity) (_2StopBits : Bool) (s : ChipUartLowLevel)
    (hok : (start p uartBase baudRate characterLength parity _2StopBits s).1.1 = 0) :
    (start p uartBase baudRate characterLength parity _2StopBits s).2.CR1 =
        0x4 ||| 0x8 ||| 0x2000
          ||| (boolToNat (startOver8 p (startDivider p.peripheralFrequency_ baudRate)) <<< 15)
          ||| (boolToNat (startRealCharacterLength characterLength parity
                == p.maxUartCharacterLength) <<< 12)
          ||| (boolToNat (parity != UartParity.none) <<< 10)
          ||| (boolToNat (parity == UartParity.odd) <<< 9)
    ∧ (start p uartBase baudRate characterLength parity _2StopBits s).2.CR2
        = boolToNat _2StopBits <<< 13
    ∧ (start p uartBase baudRate characterLength parity _2StopBits s).2.uartBase_
        = some uartBase := by
  revert hok
  simp only [start]
  split_ifs
  · intro h; exact absurd h EBADF_ne_zero
  · intro h; exact absurd h EINVAL_ne_zero
  · intro h; exact absurd h EINVAL_ne_zero
  · intro _
    exact ⟨rfl, rfl, rfl⟩

/-- The bits of the control word that `start` composes. -/
theorem testBit_start_control_word (over8 m pce ps : Bool) (i : Nat) :
    (0x4 ||| 0x8 ||| 0x2000 ||| (boolToNat over8 <<< 15) ||| (boolToNat m <<< 12)
        ||| (boolToNat pce <<< 10) ||| (boolToNat ps <<< 9)).testBit i
      = (decide (i = 2) || decide (i = 3) || decide (i = 13) || (over8 && decide (i = 15))
          || (m && decide (i = 12)) || (pce && decide (i = 10)) || (ps && decide (i = 9))) := by
  have h4 : (0x4 : Nat) = 2 ^ 2 := by decide
  have h8 : (0x8 : Nat) = 2 ^ 3 := by decide
  have h2000 : (0x2000 : Nat) = 2 ^ 13 := by decide
  have hb : ∀ (b : Bool) (k : Nat), (boolToNat b <<< k).testBit i = (b && decide (i = k)) := by
    intro b k
    cases b
    · simp [boolToNat]
    · simp only [boolToNat, if_true, Nat.one_shiftLeft, Nat.testBit_two_pow, Bool.true_and]
      by_cases h : k = i
      · subst h; simp
      · have : ¬ i = k := fun h' => h h'.symm
        simp [h, this]
  have hp : ∀ k : Nat, (2 ^ k).testBit i = decide (i = k) := by
    intro k
    rw [Nat.testBit_two_pow]
    by_cases h : k = i
    · subst h; simp
    · have : ¬ i = k := fun h' => h h'.symm
      simp [h, this]
  rw [h4, h8, h2000]
  simp only [Nat.testBit_or, hb, hp]

theorem and_two_pow_ne_zero_iff (w k : Nat) : w &&& 2 ^ k ≠ 0 ↔ w.testBit k = true := by
  rw [← and_two_pow_bne_zero, bne_iff_ne]

/-- C16: after every successful `start`, the control word in `CR1` has the receiver enable,
transmitter enable and peripheral enable bits set, the `OVER8` bit set iff the hardware has it
and the divider is below 16, the `M` bit set iff the real character length equals
`maxUartCharacterLength`, the parity enable bit set iff the parity is not none, the parity
selection bit set iff the parity is odd, and the three interrupt enable bits clear; `CR2` has
the upper stop bit set iff two stop bits are requested; and the driver is started. -/
theorem start_control_registers (p : Parameters) (uartBase baudRate characterLength : Nat)
    (parity : UartParity) (_2StopBits : Bool) (s : ChipUartLowLevel)
    (hok : (start p uartBase baudRate characterLength parity _2StopBits s).1.1 = 0) :
    (start p uartBase baudRate characterLength parity _2StopBits s).2.CR1 &&& USART_CR1_RE ≠ 0
    ∧ (start p uartBase baudRate characterLength parity _2StopBits s).2.CR1 &&& USART_CR1_TE ≠ 0
    ∧ (start p uartBase baudRate characterLength parity _2StopBits s).2.CR1 &&& USART_CR1_UE ≠ 0
    ∧ ((start p uartBase baudRate characterLength parity _2StopBits s).2.CR1.testBit
          USART_CR1_OVER8_bit = true
        ↔ p.hasCr1Over8Bit = true ∧ startDivider p.peripheralFrequency_ baudRate < 16)
    ∧ ((start p uartBase baudRate characterLength parity _2StopBits s).2.CR1.testBit
          USART_CR1_M_bit = true
        ↔ characterLength + (if parity = UartParity.none then 0 else 1)
            = p.maxUartCharacterLength)
    ∧ ((start p uartBase baudRate characterLength parity _2StopBits s).2.CR1.testBit
          USART_CR1_PCE_bit = true
        ↔ parity ≠ UartParity.none)
    ∧ ((start p uartBase baudRate characterLength parity _2StopBits s).2.CR1.testBit
          USART_CR1_PS_bit = true
        ↔ parity = UartParity.odd)
    ∧ (start p uartBase baudRate characterLength parity _2StopBits s).2.CR1.testBit
          USART_CR1_RXNEIE_bit = false
    ∧ (start p uartBase baudRate characterLength parity _2StopBits s).2.CR1.testBit
          USART_CR1_TXEIE_bit = false
    ∧ (start p uartBase baudRate characterLength parity _2StopBits s).2.CR1.testBit
          USART_CR1_TCIE_bit = false
    ∧ ((start p uartBase baudRate characterLength parity _2StopBits s).2.CR2.testBit
          USART_CR2_STOP_1_bit = true
        ↔ _2StopBits = true)
    ∧ isStarted (start p uartBase baudRate characterLength parity _2StopBits s).2 = true := by
  obtain ⟨h1, h2, h3⟩ :=
    start_registers_of_success p uartBase baudRate characterLength parity _2StopBits s hok
  have hRE : USART_CR1_RE = 2 ^ 2 := by decide
  have hTE : USART_CR1_TE = 2 ^ 3 := by decide
  have hUE : USART_CR1_UE = 2 ^ 13 := by decide
  have hreal : (startRealCharacterLength characterLength parity == p.maxUartCharacterLength)
      = true ↔ characterLength + (if parity = UartParity.none then 0 else 1)
        = p.maxUartCharacterLength := by
    cases parity <;> simp [startRealCharacterLength, boolToNat]
  rw [hRE, hTE, hUE, and_two_pow_ne_zero_iff, and_two_pow_ne_zero_iff, and_two_pow_ne_zero_iff,
    h1, h2]
  simp only [testBit_start_control_word, USART_CR1_OVER8_bit, USART_CR1_M_bit,
    USART_CR1_PCE_bit, USART_CR1_PS_bit, USART_CR1_RXNEIE_bit, USART_CR1_TXEIE_bit,
    USART_CR1_TCIE_bit, USART_CR2_STOP_1_bit]
  refine ⟨by simp, by simp, by simp, ?_, ?_, ?_, ?_, by simp, by simp, by simp, ?_,
    by simp [isStarted, h3]⟩
  · simp [startOver8]
  · rw [← hreal]; simp
  · simp
  · simp
  · cases _2StopBits <;> decide

/-- Witness of C16: the example driver started at 115200 baud with 8 data bits, odd parity and
two stop bits has `CR1 = 0x360C` and `CR2 = 0x2000`. -/
theorem start_control_registers_witness :
    (start exampleParameters 1 115200 8 UartParity.odd true constructed).1.1 = 0
    ∧ (start exampleParameters 1 115200 8 UartParity.odd true constructed).2.CR1 = 0x360C
    ∧ (start exampleParameters 1 115200 8 UartParity.odd true constructed).2.CR2 = 0x2000
    ∧ isStarted (start exampleParameters 1 115200 8 UartParity.odd true constructed).2 = true
    ∧ ((start exampleParameters 1 115200 8 UartParity.odd true constructed).2.CR1.testBit
          USART_CR1_M_bit = true
        ↔ 8 + (if UartParity.odd = UartParity.none then 0 else 1)
            = exampleParameters.maxUartCharacterLength) :=
  ⟨by decide, by decide, by decide, by decide,
    (start_control_registers exampleParameters 1 115200 8 UartParity.odd true constructed
      (by decide)).2.2.2.2.1⟩

/-- C17, the code at the failing input: the example driver started with 8 data bits and even
parity has a real character length, which counts the parity bit, of 9 bits, the maximum, and
`is9BitFormatEnabled` returns false, where its documentation says true. -/
theorem is9BitFormatEnabled_false_with_parity :
    (start exampleParameters 1 115200 8 UartParity.even false constructed).1.1 = 0
    ∧ startRealCharacterLength 8 UartParity.even = 9
    ∧ exampleParameters.maxUartCharacterLength = 9
    ∧ is9BitFormatEnabled
        (start exampleParameters 1 115200 8 UartParity.even false constructed).2 = false := by
  decide

/-- What `is9BitFormatEnabled` computes after a successful `start`, with
`maxUartCharacterLength` being 9: true if and only if the character length is 9 bits and the
parity is none, and false with parity enabled, whatever the real character length is. -/
theorem is9BitFormatEnabled_after_start (p : Parameters) (uartBase baudRate characterLength : Nat)
    (parity : UartParity) (_2StopBits : Bool) (s : ChipUartLowLevel)
    (hmax : p.maxUartCharacterLength = 9)
    (hok : (start p uartBase baudRate characterLength parity _2StopBits s).1.1 = 0) :
    (is9BitFormatEnabled (start p uartBase baudRate characterLength parity _2StopBits s).2 = true
      ↔ characterLength = 9 ∧ parity = UartParity.none)
    ∧ (parity ≠ UartParity.none →
        is9BitFormatEnabled (start p uartBase baudRate characterLength parity _2StopBits s).2
          = false) := by
  obtain ⟨h1, _, _⟩ :=
    start_registers_of_success p uartBase baudRate characterLength parity _2StopBits s hok
  rw [is9BitFormatEnabled_eq, h1]
  simp only [testBit_start_control_word]
  cases parity <;> simp [startRealCharacterLength, boolToNat, hmax]

/-- The value `is9BitFormatEnabled` computes on the example driver: true after a start with
9 data bits without parity, false after a start with 8 data bits and even parity. -/
theorem is9BitFormatEnabled_after_start_witness :
    (exampleParameters.maxUartCharacterLength = 9
      ∧ (start exampleParameters 1 115200 9 UartParity.none false constructed).1.1 = 0
      ∧ (start exampleParameters 1 115200 8 UartParity.even false constructed).1.1 = 0
      ∧ UartParity.even ≠ UartParity.none)
    ∧ (is9BitFormatEnabled
          (start exampleParameters 1 115200 9 UartParity.none false constructed).2 = true
        ↔ 9 = 9 ∧ UartParity.none = UartParity.none)
    ∧ is9BitFormatEnabled
        (start exampleParameters 1 115200 8 UartParity.even false constructed).2 = false :=
  ⟨⟨by decide, by decide, by decide, by decide⟩,
    (is9BitFormatEnabled_after_start exampleParameters 1 115200 9 UartParity.none false
      constructed (by decide) (by decide)).1,
    (is9BitFormatEnabled_after_start exampleParameters 1 115200 8 UartParity.even false
      constructed (by decide) (by decide)).2 (by decide)⟩

/-! ## `startWrite`: the transmit start notification -/

/-- A successful `startWrite` passed its four checks. -/
theorem checks_of_startWrite_success (cb : Callback) (buffer size : Nat) (s : ChipUartLowLevel)
    (hok : (startWrite cb buffer size s).1 = 0) :
    ¬ ((buffer == 0 || size == 0) = true) ∧ ¬ ((isStarted s == false) = true)
      ∧ ¬ ((isWriteInProgress s == true) = true)
      ∧ ¬ ((is9BitFormatEnabled s == true && size % 2 != 0) = true) := by
  revert hok
  unfold startWrite
  split_ifs with h1 h2 h3 h4
  · intro h; exact absurd h EINVAL_ne_zero
  · intro h; exact absurd h EBADF_ne_zero
  · intro h; exact absurd h EBUSY_ne_zero
  · intro h; exact absurd h EINVAL_ne_zero
  · intro _; exact ⟨h1, h2, h3, h4⟩

/-- The state after a successful `startWrite`: the callback sink is called between the
disabling of the transmit-complete interrupt and the enabling of the transmit-data-empty
interrupt, if the transmit-complete flag is set. -/
theorem startWrite_state_of_success (cb : Callback) (buffer size : Nat) (s : ChipUartLowLevel)
    (hok : (startWrite cb buffer size s).1 = 0) :
    (startWrite cb buffer size s).2 =
      enableTxeInterrupt true
        (if (s.SR &&& USART_SR_TC) != 0 then
          notify cb Event.transmitStartEvent (enableTcInterrupt false
            { s with writeBuffer_ := buffer, writeSize_ := size, writePosition_ := 0 })
        else enableTcInterrupt false
            { s with writeBuffer_ := buffer, writeSize_ := size, writePosition_ := 0 }) := by
  obtain ⟨h1, h2, h3, h4⟩ := checks_of_startWrite_success cb buffer size s hok
  unfold startWrite
  rw [if_neg h1, if_neg h2, if_neg h3, if_neg h4]
  rfl

/-- C13: for every successful `startWrite` and every callback sink: when the transmit-complete
flag is set at the time of the call, the sink is notified of `transmitStartEvent` exactly once,
on the state in which the write is recorded, the transmit-data-empty interrupt enable bit is
still as before the call and nothing has been written to the data register, and the
transmit-data-empty interrupt is enabled after the notification; when the flag is clear the
sink is not notified. The recording sink thus records one `transmitStartEvent` or nothing. -/
theorem startWrite_transmitStartEvent (cb : Callback) (buffer size : Nat) (s : ChipUartLowLevel)
    (hok : (startWrite cb buffer size s).1 = 0) :
    (s.SR &&& USART_SR_TC ≠ 0 →
      (startWrite cb buffer size s).2 =
        enableTxeInterrupt true
          (cb s.uartBase_ Event.transmitStartEvent (enableTcInterrupt false
            { s with writeBuffer_ := buffer, writeSize_ := size, writePosition_ := 0 })))
    ∧ (s.SR &&& USART_SR_TC = 0 →
      (startWrite cb buffer size s).2 =
        enableTxeInterrupt true (enableTcInterrupt false
          { s with writeBuffer_ := buffer, writeSize_ := size, writePosition_ := 0 }))
    ∧ (enableTcInterrupt false
          { s with writeBuffer_ := buffer, writeSize_ := size, writePosition_ := 0 }).CR1.testBit
        USART_CR1_TXEIE_bit = s.CR1.testBit USART_CR1_TXEIE_bit
    ∧ (enableTcInterrupt false
          { s with writeBuffer_ := buffer, writeSize_ := size, writePosition_ := 0 }).transmitted
        = s.transmitted
    ∧ (startWrite recordingCallback buffer size s).2.CR1.testBit USART_CR1_TXEIE_bit = true
    ∧ (startWrite recordingCallback buffer size s).2.transmitted = s.transmitted
    ∧ (startWrite recordingCallback buffer size s).2.events
        = s.events
          ++ (if s.SR &&& USART_SR_TC ≠ 0 then [(s.uartBase_, Event.transmitStartEvent)]
              else []) := by
  have hrec : (startWrite recordingCallback buffer size s).1 = 0 := by
    obtain ⟨h1, h2, h3, h4⟩ := checks_of_startWrite_success cb buffer size s hok
    unfold startWrite
    rw [if_neg h1, if_neg h2, if_neg h3, if_neg h4]
  have hcb := startWrite_state_of_success cb buffer size s hok
  have hr := startWrite_state_of_success recordingCallback buffer size s hrec
  refine ⟨?_, ?_, ?_, rfl, ?_, ?_, ?_⟩
  · intro h
    rw [hcb, if_pos (bne_iff_ne.mpr h)]
    rfl
  · intro h
    rw [hcb, if_neg (by simp [h])]
  · simp only [enableTcInterrupt, USART_CR1_TCIE_bit, USART_CR1_TXEIE_bit]
    rw [testBit_bitbandWrite _ _ _ _ (by decide)]
    simp
  · rw [hr]
    simp only [enableTxeInterrupt, USART_CR1_TXEIE_bit]
    rw [testBit_bitbandWrite _ _ _ _ (by decide)]
    simp
  · rw [hr]
    split_ifs <;> rfl
  · rw [hr]
    by_cases h : s.SR &&& USART_SR_TC = 0
    · rw [if_neg (by simp [h]), if_neg (by simp [h])]
      simp [enableTxeInterrupt, enableTcInterrupt]
    · rw [if_pos (bne_iff_ne.mpr h), if_pos h]
      rfl

/-- Witness of C13: the example driver, whose transmit-complete flag is set after the reset of
`start`, records one `transmitStartEvent` at `startWrite`; with the flag cleared it records
none. -/
theorem startWrite_transmitStartEvent_witness :
    ((startWrite recordingCallback 0x20000141 3 started8).1 = 0
      ∧ started8.SR &&& USART_SR_TC ≠ 0)
    ∧ (startWrite recordingCallback 0x20000141 3 started8).2.events
        = [(some 1, Event.transmitStartEvent)]
    ∧ (startWrite recordingCallback 0x20000141 3 { started8 with SR := 0x80 }).2.events = []
    ∧ (startWrite recordingCallback 0x20000141 3 started8).2 =
        enableTxeInterrupt true
          (recordingCallback started8.uartBase_ Event.transmitStartEvent (enableTcInterrupt false
            { started8 with writeBuffer_ := 0x20000141, writeSize_ := 3,
                            writePosition_ := 0 })) :=
  ⟨⟨by decide, by decide⟩, by decide, by decide,
    (startWrite_transmitStartEvent recordingCallback 0x20000141 3 started8 (by decide)).1
      (by decide)⟩

/-! ## The interrupt handler: priority of the branches, receive errors -/

theorem and_two_pow_eq_zero_iff (w k : Nat) : w &&& 2 ^ k = 0 ↔ w.testBit k = false := by
  have := and_two_pow_ne_zero_iff w k
  constructor
  · intro h
    cases hb : w.testBit k
    · rfl
    · exact absurd h (this.mpr hb)
  · intro h
    by_contra hne
    rw [this.mp hne] at h
    exact absurd h (by decide)

/-- C18: one evaluation of the loop condition of the interrupt handler and the iteration it
leads to, for every callback sink: the receive branch runs if the receive condition is in
`maskedSr`; the transmit branch runs if the receive condition is not in it and the transmit
condition is; the transmit-complete branch runs if neither is in it and the transmit-complete
condition is; the loop ends if `maskedSr` is empty. A condition is in `maskedSr` exactly when
its status flag is set and its interrupt enable bit is set, so a condition whose flag is set
and whose enable bit is clear is not served. -/
theorem interruptHandlerLoop_priority (cb : Callback) (_9BitFormat : Bool) (fuel : Nat)
    (s : ChipUartLowLevel) :
    interruptHandlerLoop cb _9BitFormat (fuel + 1) s =
        (if interruptHandlerMaskedSr s &&& USART_SR_RXNE ≠ 0 then
          interruptHandlerLoop cb _9BitFormat fuel (interruptHandlerRead cb _9BitFormat s.SR s)
        else if interruptHandlerMaskedSr s &&& USART_SR_TXE ≠ 0 then
          interruptHandlerLoop cb _9BitFormat fuel (interruptHandlerWrite cb _9BitFormat s)
        else if interruptHandlerMaskedSr s &&& USART_SR_TC ≠ 0 then
          interruptHandlerLoop cb _9BitFormat fuel (interruptHandlerTransmitComplete cb s)
        else some s)
    ∧ (interruptHandlerMaskedSr s &&& USART_SR_RXNE ≠ 0
        ↔ s.SR &&& USART_SR_RXNE ≠ 0 ∧ s.CR1.testBit USART_CR1_RXNEIE_bit = true)
    ∧ (interruptHandlerMaskedSr s &&& USART_SR_TXE ≠ 0
        ↔ s.SR &&& USART_SR_TXE ≠ 0 ∧ s.CR1.testBit USART_CR1_TXEIE_bit = true)
    ∧ (interruptHandlerMaskedSr s &&& USART_SR_TC ≠ 0
        ↔ s.SR &&& USART_SR_TC ≠ 0 ∧ s.CR1.testBit USART_CR1_TCIE_bit = true)
    ∧ (interruptHandlerMaskedSr s = 0
        ↔ interruptHandlerMaskedSr s &&& USART_SR_RXNE = 0
          ∧ interruptHandlerMaskedSr s &&& USART_SR_TXE = 0
          ∧ interruptHandlerMaskedSr s &&& USART_SR_TC = 0) := by
  have hrx : (interruptHandlerMaskedSr s &&& USART_SR_RXNE ≠ 0) ↔ rxPending s = true := by
    rw [← bne_iff_ne, interruptHandlerMaskedSr, maskedSr_RXNE]; rfl
  have htx : (interruptHandlerMaskedSr s &&& USART_SR_TXE ≠ 0) ↔ txPending s = true := by
    rw [← bne_iff_ne, interruptHandlerMaskedSr, maskedSr_TXE]; rfl
  have htc : (interruptHandlerMaskedSr s &&& USART_SR_TC ≠ 0) ↔ tcPending s = true := by
    rw [← bne_iff_ne, interruptHandlerMaskedSr, maskedSr_TC]; rfl
  have hRXNE : USART_SR_RXNE = 2 ^ 5 := by decide
  have hTXE : USART_SR_TXE = 2 ^ 7 := by decide
  have hTC : USART_SR_TC = 2 ^ 6 := by decide
  refine ⟨?_, ?_, ?_, ?_, ?_⟩
  · rw [interruptHandlerLoop_succ]
    simp only [hrx, htx, htc]
  · rw [hrx, hRXNE, and_two_pow_ne_zero_iff]
    simp [rxPending, USART_CR1_RXNEIE_bit]
  · rw [htx, hTXE, and_two_pow_ne_zero_iff]
    simp [txPending, USART_CR1_TXEIE_bit]
  · rw [htc, hTC, and_two_pow_ne_zero_iff]
    simp [tcPending, USART_CR1_TCIE_bit]
  · have h0 : interruptHandlerMaskedSr s = 0
        ↔ ((interruptHandlerMaskedSr s) != 0) = false := by simp
    have h1 : ∀ m : Nat, interruptHandlerMaskedSr s &&& m = 0
        ↔ ¬ (interruptHandlerMaskedSr s &&& m ≠ 0) := by
      intro m; simp
    rw [h0, h1, h1, h1, hrx, htx, htc, interruptHandlerMaskedSr, maskedSr_bne_zero]
    unfold rxPending txPending tcPending
    cases (s.SR.testBit 5 && s.CR1.testBit 5) <;> cases (s.SR.testBit 7 && s.CR1.testBit 7)
      <;> cases (s.SR.testBit 6 && s.CR1.testBit 6) <;> simp

/-- The receive branch for a status snapshot with an error bit set, for every callback sink:
the sink is notified of the error on the state in which the character is stored and the cursor
advanced, and the completion check follows on the state the sink returns. -/
theorem interruptHandlerRead_of_error (cb : Callback) (b : Bool) (sr : Nat)
    (s : ChipUartLowLevel) (hn : s.readSize_ < 2 ^ 32)
    (hpos : s.readPosition_ + bytesPerCharacter b ≤ s.readSize_)
    (herr : sr &&& (USART_SR_FE ||| USART_SR_NE ||| USART_SR_ORE ||| USART_SR_PE) ≠ 0)
    (u : ChipUartLowLevel)
    (hu : u = cb s.uartBase_ (Event.receiveErrorEvent (decodeErrors sr))
      { s with
        SR := s.SR &&& (0xFFFFFFFF ^^^ USART_SR_RXNE),
        memory := storeCharacter b (s.readBuffer_ + s.readPosition_) (s.DR % 2 ^ 16) s.memory,
        readPosition_ := s.readPosition_ + bytesPerCharacter b }) :
    interruptHandlerRead cb b sr s =
      if s.readPosition_ + bytesPerCharacter b = u.readSize_ then
        notify cb (Event.readCompleteEvent (stopRead u).1) (stopRead u).2
      else u := by
  have herr' : ((sr &&& (USART_SR_FE ||| USART_SR_NE ||| USART_SR_ORE ||| USART_SR_PE)) != 0)
      = true := bne_iff_ne.mpr herr
  cases b
  · simp only [bytesPerCharacter, Bool.false_eq_true, if_false] at hpos hu ⊢
    have h1 : (s.readPosition_ + 1) % UINT32_RANGE = s.readPosition_ + 1 :=
      Nat.mod_eq_of_lt (by unfold UINT32_RANGE; omega)
    simp only [storeCharacter, Bool.false_eq_true, if_false] at hu
    simp only [interruptHandlerRead, readDR, storeByte, h1, herr', if_true, notify,
      Bool.false_eq_true, if_false, beq_iff_eq, ← hu]
  · simp only [bytesPerCharacter, if_true] at hpos hu ⊢
    have h1 : (s.readPosition_ + 1) % UINT32_RANGE = s.readPosition_ + 1 :=
      Nat.mod_eq_of_lt (by unfold UINT32_RANGE; omega)
    have h1' : (s.readPosition_ + 1 + 1) % UINT32_RANGE = s.readPosition_ + 2 :=
      Nat.mod_eq_of_lt (by unfold UINT32_RANGE; omega)
    simp only [storeCharacter, if_true, Nat.add_assoc] at hu
    simp only [interruptHandlerRead, readDR, storeByte, h1, h1', herr', if_true, notify,
      beq_iff_eq, Nat.add_assoc, ← hu]

/-- C19: the receive branch of the interrupt handler, with the recording callback sink, while a
read is in progress with room for the character. The bytes of the character are stored at the
cursor whatever the status snapshot `sr` is. If one of the framing, noise, overrun and parity
bits of `sr` is set, exactly one `receiveErrorEvent` with `decodeErrors sr` is recorded: when
the character does not fill the buffer it is the only event, the cursor has advanced and the
read stays in progress; when the character fills the buffer it is followed by the
`readCompleteEvent`, whose argument is the advanced cursor. If none of the four bits is set no
`receiveErrorEvent` is recorded. For every callback sink the error notification is made on the
state in which the character is stored, the cursor advanced and the read still in progress, and
the completion check follows on the state the sink returns. -/
theorem interruptHandlerRead_receive_errors (_9BitFormat : Bool) (sr : Nat)
    (s : ChipUartLowLevel) (hbuf : isReadInProgress s = true) (hn : s.readSize_ < 2 ^ 32)
    (hpos : s.readPosition_ + bytesPerCharacter _9BitFormat ≤ s.readSize_) :
    (interruptHandlerRead recordingCallback _9BitFormat sr s).memory
        = storeCharacter _9BitFormat (s.readBuffer_ + s.readPosition_) (s.DR % 2 ^ 16) s.memory
    ∧ (sr &&& (USART_SR_FE ||| USART_SR_NE ||| USART_SR_ORE ||| USART_SR_PE) ≠ 0 →
        (s.readPosition_ + bytesPerCharacter _9BitFormat < s.readSize_ →
          (interruptHandlerRead recordingCallback _9BitFormat sr s).events
              = s.events ++ [(s.uartBase_, Event.receiveErrorEvent (decodeErrors sr))]
          ∧ (interruptHandlerRead recordingCallback _9BitFormat sr s).readPosition_
              = s.readPosition_ + bytesPerCharacter _9BitFormat
          ∧ isReadInProgress (interruptHandlerRead recordingCallback _9BitFormat sr s) = true)
        ∧ (s.readPosition_ + bytesPerCharacter _9BitFormat = s.readSize_ →
          (interruptHandlerRead recordingCallback _9BitFormat sr s).events
              = s.events ++ [(s.uartBase_, Event.receiveErrorEvent (decodeErrors sr)),
                  (s.uartBase_, Event.readCompleteEvent
                    (s.readPosition_ + bytesPerCharacter _9BitFormat))]
          ∧ isReadInProgress (interruptHandlerRead recordingCallback _9BitFormat sr s) = false))
    ∧ (sr &&& (USART_SR_FE ||| USART_SR_NE ||| USART_SR_ORE ||| USART_SR_PE) = 0 →
        (s.readPosition_ + bytesPerCharacter _9BitFormat < s.readSize_ →
          (interruptHandlerRead recordingCallback _9BitFormat sr s).events = s.events
          ∧ (interruptHandlerRead recordingCallback _9BitFormat sr s).readPosition_
              = s.readPosition_ + bytesPerCharacter _9BitFormat
          ∧ isReadInProgress (interruptHandlerRead recordingCallback _9BitFormat sr s) = true)
        ∧ (s.readPosition_ + bytesPerCharacter _9BitFormat = s.readSize_ →
          (interruptHandlerRead recordingCallback _9BitFormat sr s).events
              = s.events ++ [(s.uartBase_, Event.readCompleteEvent
                    (s.readPosition_ + bytesPerCharacter _9BitFormat))]
          ∧ isReadInProgress (interruptHandlerRead recordingCallback _9BitFormat sr s) = false))
    ∧ (sr &&& (USART_SR_FE ||| USART_SR_NE ||| USART_SR_ORE ||| USART_SR_PE) ≠ 0 →
        ∀ (cb : Callback) (u : ChipUartLowLevel),
          u = cb s.uartBase_ (Event.receiveErrorEvent (decodeErrors sr))
            { s with
              SR := s.SR &&& (0xFFFFFFFF ^^^ USART_SR_RXNE),
              memory := storeCharacter _9BitFormat (s.readBuffer_ + s.readPosition_)
                (s.DR % 2 ^ 16) s.memory,
              readPosition_ := s.readPosition_ + bytesPerCharacter _9BitFormat } →
          interruptHandlerRead cb _9BitFormat sr s =
            if s.readPosition_ + bytesPerCharacter _9BitFormat = u.readSize_ then
              notify cb (Event.readCompleteEvent (stopRead u).1) (stopRead u).2
            else u) := by
  have hgen : sr &&& (USART_SR_FE ||| USART_SR_NE ||| USART_SR_ORE ||| USART_SR_PE) ≠ 0 →
      ∀ (cb : Callback) (u : ChipUartLowLevel),
        u = cb s.uartBase_ (Event.receiveErrorEvent (decodeErrors sr))
          { s with
            SR := s.SR &&& (0xFFFFFFFF ^^^ USART_SR_RXNE),
            memory := storeCharacter _9BitFormat (s.readBuffer_ + s.readPosition_)
              (s.DR % 2 ^ 16) s.memory,
            readPosition_ := s.readPosition_ + bytesPerCharacter _9BitFormat } →
        interruptHandlerRead cb _9BitFormat sr s =
          if s.readPosition_ + bytesPerCharacter _9BitFormat = u.readSize_ then
            notify cb (Event.readCompleteEvent (stopRead u).1) (stopRead u).2
          else u :=
    fun herr cb u hu => interruptHandlerRead_of_error cb _9BitFormat sr s hn hpos herr u hu
  have hb : s.readBuffer_ ≠ 0 := by simpa [isReadInProgress] using hbuf
  have herr : sr &&& (USART_SR_FE ||| USART_SR_NE ||| USART_SR_ORE ||| USART_SR_PE) ≠ 0 →
      receiveErrorEvents s.uartBase_ sr
        = [(s.uartBase_, Event.receiveErrorEvent (decodeErrors sr))] := by
    intro h
    rw [receiveErrorEvents, if_pos (bne_iff_ne.mpr h)]
  have hnone : sr &&& (USART_SR_FE ||| USART_SR_NE ||| USART_SR_ORE ||| USART_SR_PE) = 0 →
      receiveErrorEvents s.uartBase_ sr = [] := by
    intro h
    rw [receiveErrorEvents, if_neg (by simp [h])]
  rcases Nat.lt_or_eq_of_le hpos with hlt | heq
  · rw [interruptHandlerRead_of_more _9BitFormat sr s hn hlt]
    refine ⟨rfl, ?_, ?_, hgen⟩
    · intro h
      refine ⟨fun _ => ⟨by simp [herr h], rfl, hbuf⟩, fun h' => absurd h' (Nat.ne_of_lt hlt)⟩
    · intro h
      refine ⟨fun _ => ⟨by simp [hnone h], rfl, hbuf⟩, fun h' => absurd h' (Nat.ne_of_lt hlt)⟩
  · rw [interruptHandlerRead_of_last _9BitFormat sr s hb hn heq]
    refine ⟨rfl, ?_, ?_, hgen⟩
    · intro h
      refine ⟨fun h' => absurd heq (Nat.ne_of_lt h'), fun _ => ⟨by simp [herr h, heq], rfl⟩⟩
    · intro h
      refine ⟨fun h' => absurd heq (Nat.ne_of_lt h'), fun _ => ⟨by simp [hnone h, heq], rfl⟩⟩

/-- Witness of C19: the example driver reading 2 bytes receives 0x41 with the framing error bit
set in the status, which records the error and leaves the read in progress at cursor 1; then
0x42 with the overrun error bit set, which records the error and then the completion. -/
theorem interruptHandlerRead_receive_errors_witness :
    (isReadInProgress { reading8 with SR := 0xE2, DR := 0x41 } = true
      ∧ ({ reading8 with SR := 0xE2, DR := 0x41 } : ChipUartLowLevel).readSize_ < 2 ^ 32
      ∧ ({ reading8 with SR := 0xE2, DR := 0x41 } : ChipUartLowLevel).readPosition_
          + bytesPerCharacter false
          ≤ ({ reading8 with SR := 0xE2, DR := 0x41 } : ChipUartLowLevel).readSize_
      ∧ 0xE2 &&& (USART_SR_FE ||| USART_SR_NE ||| USART_SR_ORE ||| USART_SR_PE) ≠ 0)
    ∧ (interruptHandlerRead recordingCallback false 0xE2
          { reading8 with SR := 0xE2, DR := 0x41 }).events
        = [(some 1, Event.receiveErrorEvent
            { framingError := true, noiseError := false, overrunError := false,
              parityError := false })]
    ∧ (interruptHandlerRead recordingCallback false 0xE8
          { interruptHandlerRead recordingCallback false 0xE2
              { reading8 with SR := 0xE2, DR := 0x41 } with SR := 0xE8, DR := 0x42 }).events
        = [(some 1, Event.receiveErrorEvent
            { framingError := true, noiseError := false, overrunError := false,
              parityError := false }),
           (some 1, Event.receiveErrorEvent
            { framingError := false, noiseError := false, overrunError := true,
              parityError := false }),
           (some 1, Event.readCompleteEvent 2)]
    ∧ (interruptHandlerRead recordingCallback false 0xE2
          { reading8 with SR := 0xE2, DR := 0x41 }).memory
        = storeCharacter false
            (({ reading8 with SR := 0xE2, DR := 0x41 } : ChipUartLowLevel).readBuffer_
              + ({ reading8 with SR := 0xE2, DR := 0x41 } : ChipUartLowLevel).readPosition_)
            (({ reading8 with SR := 0xE2, DR := 0x41 } : ChipUartLowLevel).DR % 2 ^ 16)
            ({ reading8 with SR := 0xE2, DR := 0x41 } : ChipUartLowLevel).memory :=
  ⟨⟨by decide, by decide, by decide, by decide⟩, by decide, by decide,
    (interruptHandlerRead_receive_errors false 0xE2 { reading8 with SR := 0xE2, DR := 0x41 }
      (by decide) (by decide) (by decide)).1⟩

/-! ## The interrupt handler: the state handed to the completion callbacks -/

/-- The receive branch for every callback sink, up to its completion check; `u` is the state at
that check. -/
theorem interruptHandlerRead_eq (cb : Callback) (b : Bool) (sr : Nat)
    (s : ChipUartLowLevel) (hn : s.readSize_ < 2 ^ 32)
    (hpos : s.readPosition_ + bytesPerCharacter b ≤ s.readSize_)
    (u : ChipUartLowLevel)
    (hu : u =
      if (sr &&& (USART_SR_FE ||| USART_SR_NE ||| USART_SR_ORE ||| USART_SR_PE)) != 0 then
        notify cb (Event.receiveErrorEvent (decodeErrors sr))
          { s with
            SR := s.SR &&& (0xFFFFFFFF ^^^ USART_SR_RXNE),
            memory := storeCharacter b (s.readBuffer_ + s.readPosition_) (s.DR % 2 ^ 16)
              s.memory,
            readPosition_ := s.readPosition_ + bytesPerCharacter b }
      else
        { s with
          SR := s.SR &&& (0xFFFFFFFF ^^^ USART_SR_RXNE),
          memory := storeCharacter b (s.readBuffer_ + s.readPosition_) (s.DR % 2 ^ 16)
            s.memory,
          readPosition_ := s.readPosition_ + bytesPerCharacter b }) :
    interruptHandlerRead cb b sr s =
      if s.readPosition_ + bytesPerCharacter b = u.readSize_ then
        notify cb (Event.readCompleteEvent (stopRead u).1) (stopRead u).2
      else u := by
  cases b
  · simp only [bytesPerCharacter, Bool.false_eq_true, if_false] at hpos hu ⊢
    have h1 : (s.readPosition_ + 1) % UINT32_RANGE = s.readPosition_ + 1 :=
      Nat.mod_eq_of_lt (by unfold UINT32_RANGE; omega)
    simp only [storeCharacter, Bool.false_eq_true, if_false] at hu
    simp only [interruptHandlerRead, readDR, storeByte, h1,
      Bool.false_eq_true, if_false, beq_iff_eq, ← hu]
  · simp only [bytesPerCharacter, if_true] at hpos hu ⊢
    have h1 : (s.readPosition_ + 1) % UINT32_RANGE = s.readPosition_ + 1 :=
      Nat.mod_eq_of_lt (by unfold UINT32_RANGE; omega)
    have h1' : (s.readPosition_ + 1 + 1) % UINT32_RANGE = s.readPosition_ + 2 :=
      Nat.mod_eq_of_lt (by unfold UINT32_RANGE; omega)
    simp only [storeCharacter, if_true, Nat.add_assoc] at hu
    simp only [interruptHandlerRead, readDR, storeByte, h1, h1', if_true,
      beq_iff_eq, Nat.add_assoc, ← hu]

/-- The transmit branch for every callback sink, up to its completion check; `u` is the state
at that check. -/
theorem interruptHandlerWrite_eq (cb : Callback) (b : Bool)
    (s : ChipUartLowLevel) (hn : s.writeSize_ < 2 ^ 32)
    (hpos : s.writePosition_ + bytesPerCharacter b ≤ s.writeSize_)
    (u : ChipUartLowLevel)
    (hu : u = writeDR (loadCharacter b s (s.writeBuffer_ + s.writePosition_))
      { s with writePosition_ := s.writePosition_ + bytesPerCharacter b }) :
    interruptHandlerWrite cb b s =
      if s.writePosition_ + bytesPerCharacter b = u.writeSize_ then
        notify cb (Event.writeCompleteEvent (stopWrite u).1) (stopWrite u).2
      else u := by
  cases b
  · simp only [bytesPerCharacter, Bool.false_eq_true, if_false] at hpos hu ⊢
    have h1 : (s.writePosition_ + 1) % UINT32_RANGE = s.writePosition_ + 1 :=
      Nat.mod_eq_of_lt (by unfold UINT32_RANGE; omega)
    simp only [loadCharacter, Bool.false_eq_true, if_false] at hu
    simp only [interruptHandlerWrite, h1, Bool.false_eq_true, if_false, beq_iff_eq, ← hu]
  · simp only [bytesPerCharacter, if_true] at hpos hu ⊢
    have h1 : (s.writePosition_ + 1) % UINT32_RANGE = s.writePosition_ + 1 :=
      Nat.mod_eq_of_lt (by unfold UINT32_RANGE; omega)
    have h1' : (s.writePosition_ + 1 + 1) % UINT32_RANGE = s.writePosition_ + 2 :=
      Nat.mod_eq_of_lt (by unfold UINT32_RANGE; omega)
    simp only [loadCharacter, if_true, Nat.add_assoc] at hu
    simp only [interruptHandlerWrite, h1, h1', if_true, beq_iff_eq, Nat.add_assoc, ← hu]

/-- The state `stopRead` leaves when a read was in progress. -/
theorem stopRead_state (u : ChipUartLowLevel) (h : isReadInProgress u = true) :
    (stopRead u).1 = u.readPosition_
    ∧ (stopRead u).2.readBuffer_ = 0 ∧ (stopRead u).2.readSize_ = 0
    ∧ (stopRead u).2.readPosition_ = 0
    ∧ (stopRead u).2.CR1.testBit USART_CR1_RXNEIE_bit = false := by
  unfold stopRead
  rw [if_neg (by simp [h])]
  refine ⟨rfl, rfl, rfl, rfl, ?_⟩
  simp only [enableRxneInterrupt, USART_CR1_RXNEIE_bit]
  rw [testBit_bitbandWrite _ _ _ _ (by decide)]
  simp

/-- The state `stopWrite` leaves when a write was in progress. -/
theorem stopWrite_state (u : ChipUartLowLevel) (h : isWriteInProgress u = true) :
    (stopWrite u).1 = u.writePosition_
    ∧ (stopWrite u).2.writeBuffer_ = 0 ∧ (stopWrite u).2.writeSize_ = 0
    ∧ (stopWrite u).2.writePosition_ = 0
    ∧ (stopWrite u).2.CR1.testBit USART_CR1_TXEIE_bit = false
    ∧ (stopWrite u).2.CR1.testBit USART_CR1_TCIE_bit = true := by
  unfold stopWrite
  rw [if_neg (by simp [h])]
  refine ⟨rfl, rfl, rfl, rfl, ?_, ?_⟩
  · simp only [enableTxeInterrupt, enableTcInterrupt, USART_CR1_TXEIE_bit, USART_CR1_TCIE_bit]
    rw [testBit_bitbandWrite _ _ _ _ (by decide), testBit_bitbandWrite _ _ _ _ (by decide)]
    simp
  · simp only [enableTxeInterrupt, enableTcInterrupt, USART_CR1_TXEIE_bit, USART_CR1_TCIE_bit]
    rw [testBit_bitbandWrite _ _ _ _ (by decide)]
    simp

/-- `stopRead` leaves no read in progress and keeps the callback sink and the character
format. -/
theorem stopRead_idle (u : ChipUartLowLevel) :
    isReadInProgress (stopRead u).2 = false
    ∧ isStarted (stopRead u).2 = isStarted u
    ∧ is9BitFormatEnabled (stopRead u).2 = is9BitFormatEnabled u := by
  unfold stopRead
  split_ifs with h
  · exact ⟨by simpa using h, rfl, rfl⟩
  · refine ⟨by simp [isReadInProgress, enableRxneInterrupt], rfl, ?_⟩
    apply is9BitFormatEnabled_congr <;>
    · simp only [enableRxneInterrupt, USART_CR1_RXNEIE_bit]
      rw [testBit_bitbandWrite _ _ _ _ (by decide)]
      simp

/-- `stopWrite` leaves no write in progress and keeps the callback sink and the character
format. -/
theorem stopWrite_idle (u : ChipUartLowLevel) :
    isWriteInProgress (stopWrite u).2 = false
    ∧ isStarted (stopWrite u).2 = isStarted u
    ∧ is9BitFormatEnabled (stopWrite u).2 = is9BitFormatEnabled u := by
  unfold stopWrite
  split_ifs with h
  · exact ⟨by simpa using h, rfl, rfl⟩
  · refine ⟨by simp [isWriteInProgress, enableTxeInterrupt, enableTcInterrupt], rfl, ?_⟩
    apply is9BitFormatEnabled_congr <;>
    · simp only [enableTxeInterrupt, enableTcInterrupt, USART_CR1_TXEIE_bit,
        USART_CR1_TCIE_bit]
      rw [testBit_bitbandWrite _ _ _ _ (by decide), testBit_bitbandWrite _ _ _ _ (by decide)]
      simp

/-- The code `startWrite` returns for valid arguments on a started driver with no write in
progress, for every callback sink. -/
theorem startWrite_result_of_valid (cb : Callback) (s : ChipUartLowLevel) (buf n : Nat)
    (hs : isStarted s = true) (hw : isWriteInProgress s = false) (hbuf : buf ≠ 0)
    (hn1 : n ≠ 0) (h9 : is9BitFormatEnabled s = true → n % 2 = 0) :
    (startWrite cb buf n s).1 = 0 := by
  have hodd : (is9BitFormatEnabled s == true && n % 2 != 0) = false := by
    cases h : is9BitFormatEnabled s
    · rfl
    · simp [h9 h]
  unfold startWrite
  rw [if_neg (by simp [hbuf, hn1]), if_neg (by simp [hs]), if_neg (by simp [hw]),
    if_neg (by simp only [hodd]; decide)]

/-- C20: for every callback sink, the receive branch of the interrupt handler, when its
completion check succeeds at the state `u`, notifies `readCompleteEvent` on the state
`stopRead` has left: no read is in progress in it, and if one was in progress in `u` its
buffer, size and cursor are cleared and the receive interrupt is disabled; `startRead` with
valid arguments on that state returns 0. Likewise the transmit branch notifies
`writeCompleteEvent` on the state `stopWrite` has left, in which no write is in progress, the
members of the write are cleared and the transmit-data-empty interrupt is disabled, and
`startWrite` with valid arguments on it returns 0. -/
theorem completion_callback_on_idle_state (cb : Callback) (_9BitFormat : Bool) (sr : Nat)
    (s : ChipUartLowLevel) :
    (s.readSize_ < 2 ^ 32 → s.readPosition_ + bytesPerCharacter _9BitFormat ≤ s.readSize_ →
      ∀ u : ChipUartLowLevel,
        u = (if (sr &&& (USART_SR_FE ||| USART_SR_NE ||| USART_SR_ORE ||| USART_SR_PE)) != 0 then
              notify cb (Event.receiveErrorEvent (decodeErrors sr))
                { s with
                  SR := s.SR &&& (0xFFFFFFFF ^^^ USART_SR_RXNE),
                  memory := storeCharacter _9BitFormat (s.readBuffer_ + s.readPosition_)
                    (s.DR % 2 ^ 16) s.memory,
                  readPosition_ := s.readPosition_ + bytesPerCharacter _9BitFormat }
            else
              { s with
                SR := s.SR &&& (0xFFFFFFFF ^^^ USART_SR_RXNE),
                memory := storeCharacter _9BitFormat (s.readBuffer_ + s.readPosition_)
                  (s.DR % 2 ^ 16) s.memory,
                readPosition_ := s.readPosition_ + bytesPerCharacter _9BitFormat }) →
        s.readPosition_ + bytesPerCharacter _9BitFormat = u.readSize_ →
        interruptHandlerRead cb _9BitFormat sr s
            = cb (stopRead u).2.uartBase_ (Event.readCompleteEvent (stopRead u).1) (stopRead u).2
          ∧ isReadInProgress (stopRead u).2 = false
          ∧ (isReadInProgress u = true →
              (stopRead u).2.readBuffer_ = 0 ∧ (stopRead u).2.readSize_ = 0
              ∧ (stopRead u).2.readPosition_ = 0
              ∧ (stopRead u).2.CR1.testBit USART_CR1_RXNEIE_bit = false)
          ∧ ∀ buffer size : Nat, buffer ≠ 0 → 1 ≤ size → isStarted u = true →
              (is9BitFormatEnabled u = true → size % 2 = 0) →
              (startRead buffer size (stopRead u).2).1 = 0)
    ∧ (s.writeSize_ < 2 ^ 32 → s.writePosition_ + bytesPerCharacter _9BitFormat ≤ s.writeSize_ →
      ∀ u : ChipUartLowLevel,
        u = writeDR (loadCharacter _9BitFormat s (s.writeBuffer_ + s.writePosition_))
              { s with writePosition_ := s.writePosition_ + bytesPerCharacter _9BitFormat } →
        s.writePosition_ + bytesPerCharacter _9BitFormat = u.writeSize_ →
        interruptHandlerWrite cb _9BitFormat s
            = cb (stopWrite u).2.uartBase_ (Event.writeCompleteEvent (stopWrite u).1)
                (stopWrite u).2
          ∧ isWriteInProgress (stopWrite u).2 = false
          ∧ (isWriteInProgress u = true →
              (stopWrite u).2.writeBuffer_ = 0 ∧ (stopWrite u).2.writeSize_ = 0
              ∧ (stopWrite u).2.writePosition_ = 0
              ∧ (stopWrite u).2.CR1.testBit USART_CR1_TXEIE_bit = false)
          ∧ ∀ (cb' : Callback) (buffer size : Nat), buffer ≠ 0 → 1 ≤ size →
              isStarted u = true → (is9BitFormatEnabled u = true → size % 2 = 0) →
              (startWrite cb' buffer size (stopWrite u).2).1 = 0) := by
  constructor
  · intro hn hpos u hu hdone
    obtain ⟨i1, i2, i3⟩ := stopRead_idle u
    refine ⟨?_, i1, ?_, ?_⟩
    · rw [interruptHandlerRead_eq cb _9BitFormat sr s hn hpos u hu, if_pos hdone]
      rfl
    · intro h
      exact (stopRead_state u h).2
    · intro buffer size hb hsz hs h9
      exact (startRead_of_valid (stopRead u).2 buffer size (by rw [i2]; exact hs) i1 hb hsz
        (by rw [i3]; exact h9)).1
  · intro hn hpos u hu hdone
    obtain ⟨i1, i2, i3⟩ := stopWrite_idle u
    refine ⟨?_, i1, ?_, ?_⟩
    · rw [interruptHandlerWrite_eq cb _9BitFormat s hn hpos u hu, if_pos hdone]
      rfl
    · intro h
      obtain ⟨_, j1, j2, j3, j4, _⟩ := stopWrite_state u h
      exact ⟨j1, j2, j3, j4⟩
    · intro cb' buffer size hb hsz hs h9
      exact startWrite_result_of_valid cb' (stopWrite u).2 buffer size (by rw [i2]; exact hs) i1
        hb (by omega) (by rw [i3]; exact h9)

/-- Witness of C20: in the example read the last character arrives while the callback sink is
one that calls `startRead(0x20000010, 2)` when notified of the completion; after the receive
branch the completion is recorded and the new read is in progress, so the call returned 0. The
same for the example write and a sink that calls `startWrite(0x20000200, 4)`. -/
theorem completion_callback_on_idle_state_witness :
    ((reading8Last.readSize_ < 2 ^ 32
        ∧ reading8Last.readPosition_ + bytesPerCharacter false ≤ reading8Last.readSize_
        ∧ reading8Last.readPosition_ + bytesPerCharacter false = reading8Check.readSize_)
      ∧ (writing8Last.writeSize_ < 2 ^ 32
        ∧ writing8Last.writePosition_ + bytesPerCharacter false ≤ writing8Last.writeSize_
        ∧ writing8Last.writePosition_ + bytesPerCharacter false = writing8Check.writeSize_))
    ∧ ((interruptHandlerRead (restartReadCallback 0x20000010 2) false 0xE0 reading8Last).events
          = [(some 1, Event.readCompleteEvent 2)]
      ∧ (interruptHandlerRead (restartReadCallback 0x20000010 2) false 0xE0
            reading8Last).readBuffer_ = 0x20000010
      ∧ (interruptHandlerRead (restartReadCallback 0x20000010 2) false 0xE0
            reading8Last).readSize_ = 2
      ∧ (interruptHandlerRead (restartReadCallback 0x20000010 2) false 0xE0
            reading8Last).readPosition_ = 0)
    ∧ ((interruptHandlerWrite (restartWriteCallback 0x20000200 4) false writing8Last).events
          = [(some 1, Event.transmitStartEvent), (some 1, Event.writeCompleteEvent 3),
              (some 1, Event.transmitStartEvent)]
      ∧ (interruptHandlerWrite (restartWriteCallback 0x20000200 4) false
            writing8Last).writeBuffer_ = 0x20000200
      ∧ (interruptHandlerWrite (restartWriteCallback 0x20000200 4) false
            writing8Last).writeSize_ = 4)
    ∧ (isReadInProgress (stopRead reading8Check).2 = false
      ∧ (startRead 0x20000010 2 (stopRead reading8Check).2).1 = 0)
    ∧ (isWriteInProgress (stopWrite writing8Check).2 = false
      ∧ (startWrite recordingCallback 0x20000200 4 (stopWrite writing8Check).2).1 = 0) :=
  ⟨⟨⟨by decide, by decide, by decide⟩, ⟨by decide, by decide, by decide⟩⟩,
    ⟨by decide, by decide, by decide, by decide⟩,
    ⟨by decide, by decide, by decide⟩,
    ⟨((completion_callback_on_idle_state (restartReadCallback 0x20000010 2) false 0xE0
          reading8Last).1 (by decide) (by decide) reading8Check rfl (by decide)).2.1,
      ((completion_callback_on_idle_state (restartReadCallback 0x20000010 2) false 0xE0
          reading8Last).1 (by decide) (by decide) reading8Check rfl (by decide)).2.2.2
        0x20000010 2 (by decide) (by decide) (by decide) (by decide)⟩,
    ⟨((completion_callback_on_idle_state (restartWriteCallback 0x20000200 4) false 0xE0
          writing8Last).2 (by decide) (by decide) writing8Check rfl (by decide)).2.1,
      ((completion_callback_on_idle_state (restartWriteCallback 0x20000200 4) false 0xE0
          writing8Last).2 (by decide) (by decide) writing8Check rfl (by decide)).2.2.2
        recordingCallback 0x20000200 4 (by decide) (by decide) (by decide) (by decide)⟩⟩

/-! ## `stopWrite` and the transmit-complete notification -/

theorem transmitFrame_interruptHandlerRead (b : Bool) (sr : Nat) (s : ChipUartLowLevel) :
    TransmitFrame s (interruptHandlerRead recordingCallback b sr s) := by
  have hsr := SR_interruptHandlerRead b sr s
  have hcr : (interruptHandlerRead recordingCallback b sr s).CR1 = s.CR1
      ∨ (interruptHandlerRead recordingCallback b sr s).CR1 = bitbandWrite s.CR1 5 false := by
    simp only [interruptHandlerRead, readDR, storeByte, notify, recordingCallback, stopRead,
      enableRxneInterrupt]
    split_ifs <;> first | (left; rfl) | (right; rfl)
  have hbit : ∀ i, i < 32 → i ≠ 5 →
      (interruptHandlerRead recordingCallback b sr s).CR1.testBit i = s.CR1.testBit i := by
    intro i hi h5
    rcases hcr with h | h <;> rw [h]
    rw [testBit_bitbandWrite _ _ _ _ hi, if_neg (Ne.symm h5)]
  have hsrbit : ∀ i, i < 32 → i ≠ 5 →
      (interruptHandlerRead recordingCallback b sr s).SR.testBit i = s.SR.testBit i := by
    intro i hi h5
    rw [hsr, testBit_and_not_two_pow _ _ _ hi]
    simp [Ne.symm h5]
  refine ⟨?_, hsrbit 6 (by decide) (by decide), hsrbit 7 (by decide) (by decide),
    hbit 6 (by decide) (by decide), hbit 7 (by decide) (by decide), ?_⟩
  · simp only [interruptHandlerRead, readDR, storeByte, notify, recordingCallback, stopRead,
      enableRxneInterrupt]
    split_ifs <;> rfl
  · simp only [interruptHandlerRead, readDR, storeByte, notify, recordingCallback, stopRead,
      enableRxneInterrupt]
    split_ifs <;>
      first
      | exact ⟨[], (List.append_nil _).symm, rfl⟩
      | exact ⟨_, rfl, rfl⟩
      | exact ⟨_, List.append_assoc _ _ _, rfl⟩

theorem transmitFrame_serveRead (b : Bool) (s : ChipUartLowLevel) :
    TransmitFrame s (serveRead recordingCallback b s) := by
  unfold serveRead
  split_ifs
  · exact transmitFrame_interruptHandlerRead b s.SR s
  · exact ⟨rfl, rfl, rfl, rfl, rfl, [], by simp, rfl⟩

/-- Runs of the interrupt handler while the transmit-data-empty and the transmit-complete
interrupts are disabled record no `transmitCompleteEvent` and leave both disabled. -/
theorem handlerRuns_of_transmit_disabled (fuel : Nat) (hfuel : 4 ≤ fuel)
    (runs : List (Nat × Nat)) :
    ∀ u : ChipUartLowLevel, u.CR1.testBit 6 = false → u.CR1.testBit 7 = false →
      ∃ v, handlerRuns recordingCallback fuel runs u = some v
        ∧ v.CR1.testBit 6 = false ∧ v.CR1.testBit 7 = false
        ∧ ∃ new, v.events = u.events ++ new
            ∧ new.filter (fun e => isTransmitCompleteEvent e.2) = [] := by
  induction runs with
  | nil => intro u h6 h7; exact ⟨u, rfl, h6, h7, [], by simp, rfl⟩
  | cons run rest ih =>
    intro u h6 h7
    obtain ⟨sr, dr⟩ := run
    obtain ⟨f1, f2, f3, f4, f5, new1, f6, f7⟩ :=
      transmitFrame_serveRead (is9BitFormatEnabled (hardwareStatus sr dr u))
        (hardwareStatus sr dr u)
    generalize hw : serveRead recordingCallback (is9BitFormatEnabled (hardwareStatus sr dr u))
      (hardwareStatus sr dr u) = w at *
    have h6w : w.CR1.testBit 6 = false := by rw [f4]; exact h6
    have h7w : w.CR1.testBit 7 = false := by rw [f5]; exact h7
    have hserveWrite : serveWrite recordingCallback (is9BitFormatEnabled (hardwareStatus sr dr u))
        w = w := by
      simp [serveWrite, txPending, h7w]
    have hserveTC : serveTransmitComplete recordingCallback w = w := by
      simp [serveTransmitComplete, tcPending, h6w]
    obtain ⟨v, hv, g6, g7, new2, g8, g9⟩ := ih w h6w h7w
    refine ⟨v, ?_, g6, g7, new1 ++ new2, ?_, ?_⟩
    · rw [handlerRuns, interruptHandler_recordingCallback _ _ hfuel, hw, hserveWrite, hserveTC]
      exact hv
    · rw [g8, f6]
      simp [hardwareStatus, List.append_assoc]
    · rw [List.filter_append, f7, g9]; rfl

/-- Counterexample to C14: the started example driver has no write in progress, its
transmit-complete flag is set and no receive condition is pending; `stopWrite` returns 0 and
leaves it as it is, and the run of the interrupt handler that follows records no
`transmitCompleteEvent`. -/
theorem stopWrite_without_write_arms_nothing :
    isStarted started8 = true ∧ isWriteInProgress started8 = false
    ∧ (stopWrite started8).1 = 0
    ∧ (stopWrite started8).2.SR &&& USART_SR_TC ≠ 0
    ∧ (stopWrite started8).2.SR &&& (stopWrite started8).2.CR1 &&& USART_SR_RXNE = 0
    ∧ (interruptHandler recordingCallback 4 (stopWrite started8).2).map
        (fun t => t.events.filter (fun e => isTransmitCompleteEvent e.2)) = some [] := by
  decide

/-! ## The invariant of the reachable states -/

/-- A run of the loop of the interrupt handler that ends within some fuel ends in the same
state with more fuel. -/
theorem interruptHandlerLoop_mono (cb : Callback) (b : Bool) (fuel : Nat) :
    ∀ (s t : ChipUartLowLevel), interruptHandlerLoop cb b fuel s = some t →
      interruptHandlerLoop cb b (fuel + 1) s = some t := by
  induction fuel with
  | zero => intro s t h; simp [interruptHandlerLoop] at h
  | succ n ih =>
    intro s t h
    rw [interruptHandlerLoop_succ] at h
    rw [interruptHandlerLoop_succ]
    split_ifs at h ⊢ with h1 h2 h3
    · exact ih _ _ h
    · exact ih _ _ h
    · exact ih _ _ h
    · exact h

theorem interruptHandlerLoop_mono_add (cb : Callback) (b : Bool) (fuel more : Nat)
    (s t : ChipUartLowLevel) (h : interruptHandlerLoop cb b fuel s = some t) :
    interruptHandlerLoop cb b (fuel + more) s = some t := by
  induction more with
  | zero => exact h
  | succ n ih => exact interruptHandlerLoop_mono cb b (fuel + n) s t ih

/-- The state in which a run of the interrupt handler with the recording callback sink ends,
whatever the fuel it was given. -/
theorem interruptHandler_eq_of_some (fuel : Nat) (s t : ChipUartLowLevel)
    (h : interruptHandler recordingCallback fuel s = some t) :
    t = serveTransmitComplete recordingCallback
          (serveWrite recordingCallback (is9BitFormatEnabled s)
            (serveRead recordingCallback (is9BitFormatEnabled s) s)) := by
  unfold interruptHandler at h
  have h4 := interruptHandlerLoop_mono_add _ _ fuel 4 s t h
  rw [interruptHandlerLoop_recordingCallback _ _ _ (by omega)] at h4
  exact (Option.some.inj h4).symm

theorem SR_stopRead (s : ChipUartLowLevel) : (stopRead s).2.SR = s.SR := by
  unfold stopRead; split_ifs <;> rfl

theorem SR_stopWrite (s : ChipUartLowLevel) : (stopWrite s).2.SR = s.SR := by
  unfold stopWrite; split_ifs <;> rfl

theorem testBit_CR1_stopWrite (s : ChipUartLowLevel) (i : Nat) (hi : i < 32) (h6 : i ≠ 6)
    (h7 : i ≠ 7) : (stopWrite s).2.CR1.testBit i = s.CR1.testBit i := by
  unfold stopWrite
  split_ifs with h
  · rfl
  · simp only [enableTxeInterrupt, enableTcInterrupt, USART_CR1_TXEIE_bit, USART_CR1_TCIE_bit]
    rw [testBit_bitbandWrite _ _ _ _ hi, testBit_bitbandWrite _ _ _ _ hi,
      if_neg (fun h => h6 h.symm), if_neg (fun h => h7 h.symm)]

/-- The status register after the receive branch, for a callback sink that leaves the
peripheral alone: the receive-data-available flag is cleared by the read of the data register
and nothing else changes. -/
theorem SR_interruptHandlerRead_of_alone (cb : Callback) (hcb : LeavesPeripheralAlone cb)
    (b : Bool) (sr : Nat) (s : ChipUartLowLevel) :
    (interruptHandlerRead cb b sr s).SR = s.SR &&& (0xFFFFFFFF ^^^ 2 ^ 5) := by
  have hsr : ∀ sink event u, (cb sink event u).SR = u.SR := fun x y z => (hcb x y z).1
  simp only [interruptHandlerRead, notify]
  split_ifs <;> (try simp only [hsr, SR_stopRead]) <;> rfl

/-- The status register after the transmit branch, for a callback sink that leaves the
peripheral alone: the transmit-data-empty flag is cleared by the write of the data register and
nothing else changes. -/
theorem SR_interruptHandlerWrite_of_alone (cb : Callback) (hcb : LeavesPeripheralAlone cb)
    (b : Bool) (s : ChipUartLowLevel) :
    (interruptHandlerWrite cb b s).SR = s.SR &&& (0xFFFFFFFF ^^^ 2 ^ 7) := by
  have hsr : ∀ sink event u, (cb sink event u).SR = u.SR := fun x y z => (hcb x y z).1
  simp only [interruptHandlerWrite, notify]
  split_ifs <;> (try simp only [hsr, SR_stopWrite]) <;> rfl

/-- The transmit branch leaves the receive interrupt enable bit alone, for a callback sink that
leaves the peripheral alone. -/
theorem RXNEIE_interruptHandlerWrite_of_alone (cb : Callback) (hcb : LeavesPeripheralAlone cb)
    (b : Bool) (s : ChipUartLowLevel) :
    (interruptHandlerWrite cb b s).CR1.testBit 5 = s.CR1.testBit 5 := by
  have hcr : ∀ sink event u, (cb sink event u).CR1 = u.CR1 := fun x y z => (hcb x y z).2
  simp only [interruptHandlerWrite, notify]
  split_ifs <;>
    first
    | rfl
    | (rw [hcr, testBit_CR1_stopWrite _ _ (by decide) (by decide) (by decide)]; rfl)

/-- The first control register after the transmit-complete branch, for a callback sink that
leaves the peripheral alone: the transmit-complete interrupt is disabled and nothing else
changes. -/
theorem CR1_interruptHandlerTransmitComplete_of_alone (cb : Callback)
    (hcb : LeavesPeripheralAlone cb) (s : ChipUartLowLevel) :
    (interruptHandlerTransmitComplete cb s).CR1 = bitbandWrite s.CR1 6 false
    ∧ (interruptHandlerTransmitComplete cb s).SR = s.SR := by
  simp only [interruptHandlerTransmitComplete, notify]
  exact ⟨(hcb _ _ _).2, (hcb _ _ _).1⟩

theorem rxPending_interruptHandlerRead_of_alone (cb : Callback)
    (hcb : LeavesPeripheralAlone cb) (b : Bool) (sr : Nat) (s : ChipUartLowLevel) :
    rxPending (interruptHandlerRead cb b sr s) = false := by
  unfold rxPending
  rw [SR_interruptHandlerRead_of_alone cb hcb, testBit_and_not_two_pow _ _ _ (by decide)]
  simp

theorem txPending_interruptHandlerWrite_of_alone (cb : Callback)
    (hcb : LeavesPeripheralAlone cb) (b : Bool) (s : ChipUartLowLevel) :
    txPending (interruptHandlerWrite cb b s) = false := by
  unfold txPending
  rw [SR_interruptHandlerWrite_of_alone cb hcb, testBit_and_not_two_pow _ _ _ (by decide)]
  simp

theorem rxPending_interruptHandlerWrite_of_alone (cb : Callback)
    (hcb : LeavesPeripheralAlone cb) (b : Bool) (s : ChipUartLowLevel) :
    rxPending (interruptHandlerWrite cb b s) = rxPending s := by
  unfold rxPending
  rw [SR_interruptHandlerWrite_of_alone cb hcb, testBit_and_not_two_pow _ _ _ (by decide),
    RXNEIE_interruptHandlerWrite_of_alone cb hcb]
  simp

theorem pending_interruptHandlerTransmitComplete_of_alone (cb : Callback)
    (hcb : LeavesPeripheralAlone cb) (s : ChipUartLowLevel) :
    rxPending (interruptHandlerTransmitComplete cb s) = rxPending s
    ∧ txPending (interruptHandlerTransmitComplete cb s) = txPending s
    ∧ tcPending (interruptHandlerTransmitComplete cb s) = false := by
  obtain ⟨hcr, hsr⟩ := CR1_interruptHandlerTransmitComplete_of_alone cb hcb s
  unfold rxPending txPending tcPending
  rw [hcr, hsr, testBit_bitbandWrite _ _ _ _ (by decide),
    testBit_bitbandWrite _ _ _ _ (by decide), testBit_bitbandWrite _ _ _ _ (by decide)]
  simp

/-- For a callback sink that leaves the peripheral alone the loop of the interrupt handler runs
each branch at most once, in the order receive, transmit, transmit complete, and four
evaluations of its condition are enough. -/
theorem interruptHandlerLoop_of_alone (cb : Callback) (hcb : LeavesPeripheralAlone cb)
    (b : Bool) (fuel : Nat) (s : ChipUartLowLevel) (hfuel : 4 ≤ fuel) :
    interruptHandlerLoop cb b fuel s
      = some (serveTransmitComplete cb (serveWrite cb b (serveRead cb b s))) := by
  obtain ⟨f, rfl⟩ : ∃ f, fuel = f + 4 := ⟨fuel - 4, by omega⟩
  have step3 : ∀ (g : Nat) (t : ChipUartLowLevel), rxPending t = false → txPending t = false →
      interruptHandlerLoop cb b (g + 2) t = some (serveTransmitComplete cb t) := by
    intro g t hrx htx
    rw [interruptHandlerLoop_succ, hrx, htx]
    unfold serveTransmitComplete
    cases htc : tcPending t
    · simp
    · simp only [Bool.false_eq_true, if_false, if_true]
      obtain ⟨h1, h2, h3⟩ := pending_interruptHandlerTransmitComplete_of_alone cb hcb t
      rw [interruptHandlerLoop_idle _ _ _ _ (by rw [h1, hrx]) (by rw [h2, htx]) h3]
  have step2 : ∀ (g : Nat) (t : ChipUartLowLevel), rxPending t = false →
      interruptHandlerLoop cb b (g + 3) t
        = some (serveTransmitComplete cb (serveWrite cb b t)) := by
    intro g t hrx
    unfold serveWrite
    cases htx : txPending t
    · simp only [Bool.false_eq_true, if_false]
      exact step3 (g + 1) t hrx htx
    · simp only [if_true]
      rw [interruptHandlerLoop_succ, hrx, htx]
      simp only [Bool.false_eq_true, if_false, if_true]
      exact step3 g _ (by rw [rxPending_interruptHandlerWrite_of_alone cb hcb, hrx])
        (txPending_interruptHandlerWrite_of_alone cb hcb b t)
  unfold serveRead
  cases hrx : rxPending s
  · simp only [Bool.false_eq_true, if_false]
    exact step2 (f + 1) s hrx
  · simp only [if_true]
    rw [interruptHandlerLoop_succ, hrx]
    simp only [if_true]
    exact step2 f _ (rxPending_interruptHandlerRead_of_alone cb hcb b s.SR s)

/-- The state in which the loop ends has none of the three conditions pending. -/
theorem pending_served_of_alone (cb : Callback) (hcb : LeavesPeripheralAlone cb)
    (b : Bool) (s : ChipUartLowLevel) :
    rxPending (serveTransmitComplete cb (serveWrite cb b (serveRead cb b s))) = false
    ∧ txPending (serveTransmitComplete cb (serveWrite cb b (serveRead cb b s))) = false
    ∧ tcPending (serveTransmitComplete cb (serveWrite cb b (serveRead cb b s))) = false := by
  have hr : rxPending (serveRead cb b s) = false := by
    unfold serveRead
    cases h : rxPending s
    · simpa using h
    · simpa using rxPending_interruptHandlerRead_of_alone cb hcb b s.SR s
  have hw : ∀ t, rxPending t = false → rxPending (serveWrite cb b t) = false
      ∧ txPending (serveWrite cb b t) = false := by
    intro t ht
    unfold serveWrite
    cases h : txPending t
    · simpa using ⟨ht, h⟩
    · simp only [if_true]
      exact ⟨by rw [rxPending_interruptHandlerWrite_of_alone cb hcb, ht],
        txPending_interruptHandlerWrite_of_alone cb hcb b t⟩
  have ht : ∀ t, rxPending t = false → txPending t = false →
      rxPending (serveTransmitComplete cb t) = false
      ∧ txPending (serveTransmitComplete cb t) = false
      ∧ tcPending (serveTransmitComplete cb t) = false := by
    intro t h1 h2
    unfold serveTransmitComplete
    cases h : tcPending t
    · simpa using ⟨h1, h2, h⟩
    · simp only [if_true]
      obtain ⟨a1, a2, a3⟩ := pending_interruptHandlerTransmitComplete_of_alone cb hcb t
      exact ⟨by rw [a1, h1], by rw [a2, h2], a3⟩
  exact ht _ (hw _ hr).1 (hw _ hr).2

theorem leavesPeripheralAlone_recordingCallback : LeavesPeripheralAlone recordingCallback :=
  fun _ _ _ => ⟨rfl, rfl⟩

/-- The local `maskedSr` is zero exactly when none of the three conditions is pending. -/
theorem interruptHandlerMaskedSr_eq_zero_iff (s : ChipUartLowLevel) :
    interruptHandlerMaskedSr s = 0
      ↔ rxPending s = false ∧ txPending s = false ∧ tcPending s = false := by
  have h := maskedSr_bne_zero s.SR s.CR1
  unfold interruptHandlerMaskedSr rxPending txPending tcPending
  constructor
  · intro h0
    rw [h0] at h
    have h' : ((s.SR.testBit 5 && s.CR1.testBit 5) || (s.SR.testBit 7 && s.CR1.testBit 7)
          || (s.SR.testBit 6 && s.CR1.testBit 6)) = false := by rw [← h]; rfl
    simp only [Bool.or_eq_false_iff] at h'
    exact ⟨h'.1.1, h'.1.2, h'.2⟩
  · intro ⟨h1, h2, h3⟩
    rw [h1, h2, h3] at h
    simpa using h

theorem maskedSr_RXNE_eq_zero_iff (s : ChipUartLowLevel) :
    interruptHandlerMaskedSr s &&& USART_SR_RXNE = 0 ↔ rxPending s = false := by
  have h := maskedSr_RXNE s.SR s.CR1
  unfold interruptHandlerMaskedSr rxPending
  rw [← h]
  simp

theorem maskedSr_TXE_eq_zero_iff (s : ChipUartLowLevel) :
    interruptHandlerMaskedSr s &&& USART_SR_TXE = 0 ↔ txPending s = false := by
  have h := maskedSr_TXE s.SR s.CR1
  unfold interruptHandlerMaskedSr txPending
  rw [← h]
  simp

theorem maskedSr_TC_eq_zero_iff (s : ChipUartLowLevel) :
    interruptHandlerMaskedSr s &&& USART_SR_TC = 0 ↔ tcPending s = false := by
  have h := maskedSr_TC s.SR s.CR1
  unfold interruptHandlerMaskedSr tcPending
  rw [← h]
  simp

/-- C22: for every callback sink that leaves the peripheral alone, as one that does not call
back into the driver does, and with the status register changed during the run only by the read
and the write of the data register, every run of `interruptHandler` returns: from every state
four evaluations of the loop condition are enough, and the state returned has nothing left in
`SR & CR1 & (RXNE | TXE | TC)`. Each branch removes the condition it served from that
intersection: the receive branch leaves the receive-data-available flag clear in `SR`; the
transmit branch leaves the transmit-data-empty flag clear in `SR` and does not bring the receive
condition back; the transmit-complete branch leaves the transmit-complete interrupt enable bit
clear in `CR1` and brings neither of the other two conditions back. -/
theorem interruptHandler_terminates (cb : Callback) (hcb : LeavesPeripheralAlone cb)
    (fuel : Nat) (hfuel : 4 ≤ fuel) (s : ChipUartLowLevel) :
    (∃ t, interruptHandler cb fuel s = some t ∧ interruptHandlerMaskedSr t = 0)
    ∧ (∀ (b : Bool) (sr : Nat),
        (interruptHandlerRead cb b sr s).SR &&& USART_SR_RXNE = 0
        ∧ interruptHandlerMaskedSr (interruptHandlerRead cb b sr s) &&& USART_SR_RXNE = 0)
    ∧ (∀ b : Bool,
        (interruptHandlerWrite cb b s).SR &&& USART_SR_TXE = 0
        ∧ interruptHandlerMaskedSr (interruptHandlerWrite cb b s) &&& USART_SR_TXE = 0
        ∧ (interruptHandlerMaskedSr s &&& USART_SR_RXNE = 0 →
            interruptHandlerMaskedSr (interruptHandlerWrite cb b s) &&& USART_SR_RXNE = 0))
    ∧ (interruptHandlerTransmitComplete cb s).CR1.testBit USART_CR1_TCIE_bit = false
    ∧ interruptHandlerMaskedSr (interruptHandlerTransmitComplete cb s) &&& USART_SR_TC = 0
    ∧ (interruptHandlerMaskedSr s &&& USART_SR_RXNE = 0 →
        interruptHandlerMaskedSr (interruptHandlerTransmitComplete cb s) &&& USART_SR_RXNE = 0)
    ∧ (interruptHandlerMaskedSr s &&& USART_SR_TXE = 0 →
        interruptHandlerMaskedSr (interruptHandlerTransmitComplete cb s) &&& USART_SR_TXE
          = 0) := by
  have hRXNE : USART_SR_RXNE = 2 ^ 5 := by decide
  have hTXE : USART_SR_TXE = 2 ^ 7 := by decide
  obtain ⟨t1, t2, t3⟩ := pending_interruptHandlerTransmitComplete_of_alone cb hcb s
  refine ⟨⟨_, interruptHandlerLoop_of_alone cb hcb _ fuel s hfuel, ?_⟩, fun b sr => ⟨?_, ?_⟩,
    fun b => ⟨?_, ?_, fun h => ?_⟩, ?_, ?_, fun h => ?_, fun h => ?_⟩
  · exact (interruptHandlerMaskedSr_eq_zero_iff _).mpr (pending_served_of_alone cb hcb _ s)
  · rw [SR_interruptHandlerRead_of_alone cb hcb, hRXNE, and_two_pow_eq_zero_iff,
      testBit_and_not_two_pow _ _ _ (by decide)]
    simp
  · exact (maskedSr_RXNE_eq_zero_iff _).mpr (rxPending_interruptHandlerRead_of_alone cb hcb b sr s)
  · rw [SR_interruptHandlerWrite_of_alone cb hcb, hTXE, and_two_pow_eq_zero_iff,
      testBit_and_not_two_pow _ _ _ (by decide)]
    simp
  · exact (maskedSr_TXE_eq_zero_iff _).mpr (txPending_interruptHandlerWrite_of_alone cb hcb b s)
  · rw [maskedSr_RXNE_eq_zero_iff] at h ⊢
    rw [rxPending_interruptHandlerWrite_of_alone cb hcb, h]
  · rw [(CR1_interruptHandlerTransmitComplete_of_alone cb hcb s).1]
    simp only [USART_CR1_TCIE_bit]
    rw [testBit_bitbandWrite _ _ _ _ (by decide)]
    simp
  · exact (maskedSr_TC_eq_zero_iff _).mpr t3
  · rw [maskedSr_RXNE_eq_zero_iff] at h ⊢
    rw [t1, h]
  · rw [maskedSr_TXE_eq_zero_iff] at h ⊢
    rw [t2, h]

theorem interruptHandler_terminates_witness :
    LeavesPeripheralAlone recordingCallback ∧ 4 ≤ 4
    ∧ interruptHandlerMaskedSr transferring9 = 0xA0
    ∧ (interruptHandler recordingCallback 2 transferring9).map
        (fun t => interruptHandlerMaskedSr t) = none
    ∧ (interruptHandler recordingCallback 4 transferring9).map
        (fun t => (interruptHandlerMaskedSr t, t.SR, t.readPosition_, t.writePosition_,
          t.transmitted)) = some (0, 0x40, 2, 2, [0x100])
    ∧ ((∃ t, interruptHandler recordingCallback 4 transferring9 = some t
          ∧ interruptHandlerMaskedSr t = 0)
      ∧ (∀ (b : Bool) (sr : Nat),
          (interruptHandlerRead recordingCallback b sr transferring9).SR &&& USART_SR_RXNE = 0
          ∧ interruptHandlerMaskedSr (interruptHandlerRead recordingCallback b sr transferring9)
              &&& USART_SR_RXNE = 0)
      ∧ (∀ b : Bool,
          (interruptHandlerWrite recordingCallback b transferring9).SR &&& USART_SR_TXE = 0
          ∧ interruptHandlerMaskedSr (interruptHandlerWrite recordingCallback b transferring9)
              &&& USART_SR_TXE = 0
          ∧ (interruptHandlerMaskedSr transferring9 &&& USART_SR_RXNE = 0 →
              interruptHandlerMaskedSr (interruptHandlerWrite recordingCallback b transferring9)
                &&& USART_SR_RXNE = 0))
      ∧ (interruptHandlerTransmitComplete recordingCallback transferring9).CR1.testBit
          USART_CR1_TCIE_bit = false
      ∧ interruptHandlerMaskedSr (interruptHandlerTransmitComplete recordingCallback
          transferring9) &&& USART_SR_TC = 0
      ∧ (interruptHandlerMaskedSr transferring9 &&& USART_SR_RXNE = 0 →
          interruptHandlerMaskedSr (interruptHandlerTransmitComplete recordingCallback
            transferring9) &&& USART_SR_RXNE = 0)
      ∧ (interruptHandlerMaskedSr transferring9 &&& USART_SR_TXE = 0 →
          interruptHandlerMaskedSr (interruptHandlerTransmitComplete recordingCallback
            transferring9) &&& USART_SR_TXE = 0)) :=
  ⟨leavesPeripheralAlone_recordingCallback, le_refl 4, by decide, by decide, by decide,
    interruptHandler_terminates recordingCallback leavesPeripheralAlone_recordingCallback 4
      (le_refl 4) transferring9⟩

/-! ## Callback sinks that do not call back into the driver -/

theorem doesNotCallBack_recordingCallback : DoesNotCallBack recordingCallback :=
  fun _ _ _ => rfl

theorem leavesPeripheralAlone_of_doesNotCallBack (cb : Callback) (hcb : DoesNotCallBack cb) :
    LeavesPeripheralAlone cb := by
  intro sink event s
  have h := hcb sink event s
  constructor <;> rw [h]

/-- A notification of a callback sink that does not call back into the driver differs from the
notification of the recording sink in the memory only. -/
theorem notify_of_doesNotCallBack (cb : Callback) (hcb : DoesNotCallBack cb) (event : Event)
    (s : ChipUartLowLevel) :
    notify cb event s
      = { notify recordingCallback event s with memory := (notify cb event s).memory } :=
  hcb s.uartBase_ event s

theorem stopRead_memory (s : ChipUartLowLevel) (memory : Nat → Nat) :
    stopRead { s with memory := memory }
      = ((stopRead s).1, { (stopRead s).2 with memory := memory }) := by
  unfold stopRead isReadInProgress
  split_ifs <;> rfl

theorem stopWrite_memory (s : ChipUartLowLevel) (memory : Nat → Nat) :
    stopWrite { s with memory := memory }
      = ((stopWrite s).1, { (stopWrite s).2 with memory := memory }) := by
  unfold stopWrite isWriteInProgress
  split_ifs <;> rfl

/-- The end of the receive branch with a callback sink that does not call back into the driver
differs from the one with the recording sink in the memory only. -/
theorem interruptHandlerReadCheck_of_doesNotCallBack (cb : Callback) (hcb : DoesNotCallBack cb)
    (sr readPosition : Nat) (s : ChipUartLowLevel) :
    ∃ memory, interruptHandlerReadCheck cb sr readPosition s
      = { interruptHandlerReadCheck recordingCallback sr readPosition s with
          memory := memory } := by
  unfold interruptHandlerReadCheck
  by_cases herr : ((sr &&& (USART_SR_FE ||| USART_SR_NE ||| USART_SR_ORE ||| USART_SR_PE)) != 0)
      = true
  · simp only [if_pos herr]
    rw [notify_of_doesNotCallBack cb hcb (Event.receiveErrorEvent (decodeErrors sr)) s]
    generalize (notify cb (Event.receiveErrorEvent (decodeErrors sr)) s).memory = m1
    generalize notify recordingCallback (Event.receiveErrorEvent (decodeErrors sr)) s = u
    by_cases hdone : (readPosition == u.readSize_) = true
    · have hdone' : (readPosition == ({ u with memory := m1 } : ChipUartLowLevel).readSize_)
          = true := hdone
      rw [if_pos hdone', if_pos hdone, stopRead_memory, notify_of_doesNotCallBack cb hcb]
      exact ⟨_, rfl⟩
    · have hdone' : ¬ (readPosition == ({ u with memory := m1 } : ChipUartLowLevel).readSize_)
          = true := hdone
      rw [if_neg hdone', if_neg hdone]
      exact ⟨_, rfl⟩
  · simp only [if_neg herr]
    by_cases hdone : (readPosition == s.readSize_) = true
    · simp only [if_pos hdone]
      rw [notify_of_doesNotCallBack cb hcb]
      exact ⟨_, rfl⟩
    · simp only [if_neg hdone]
      exact ⟨s.memory, rfl⟩

/-- The end of the transmit branch with a callback sink that does not call back into the driver
differs from the one with the recording sink in the memory only. -/
theorem interruptHandlerWriteCheck_of_doesNotCallBack (cb : Callback)
    (hcb : DoesNotCallBack cb) (writePosition : Nat) (s : ChipUartLowLevel) :
    ∃ memory, interruptHandlerWriteCheck cb writePosition s
      = { interruptHandlerWriteCheck recordingCallback writePosition s with
          memory := memory } := by
  unfold interruptHandlerWriteCheck
  by_cases hdone : (writePosition == s.writeSize_) = true
  · simp only [if_pos hdone]
    rw [notify_of_doesNotCallBack cb hcb]
    exact ⟨_, rfl⟩
  · simp only [if_neg hdone]
    exact ⟨s.memory, rfl⟩

theorem interruptHandlerRead_eq_check (b : Bool) (sr : Nat) (s : ChipUartLowLevel) :
    ∃ (readPosition : Nat) (u : ChipUartLowLevel), ∀ cb : Callback,
      interruptHandlerRead cb b sr s = interruptHandlerReadCheck cb sr readPosition u :=
  ⟨_, _, fun _ => rfl⟩

theorem interruptHandlerWrite_eq_check (b : Bool) (s : ChipUartLowLevel) :
    ∃ (writePosition : Nat) (u : ChipUartLowLevel), ∀ cb : Callback,
      interruptHandlerWrite cb b s = interruptHandlerWriteCheck cb writePosition u :=
  ⟨_, _, fun _ => rfl⟩

/-- The receive branch with a callback sink that does not call back into the driver differs
from the one with the recording sink in the memory only. -/
theorem interruptHandlerRead_of_doesNotCallBack (cb : Callback) (hcb : DoesNotCallBack cb)
    (b : Bool) (sr : Nat) (s : ChipUartLowLevel) :
    ∃ memory, interruptHandlerRead cb b sr s
      = { interruptHandlerRead recordingCallback b sr s with memory := memory } := by
  obtain ⟨readPosition, u, h⟩ := interruptHandlerRead_eq_check b sr s
  rw [h cb, h recordingCallback]
  exact interruptHandlerReadCheck_of_doesNotCallBack cb hcb sr readPosition u

/-- The transmit branch with a callback sink that does not call back into the driver differs
from the one with the recording sink in the memory only. -/
theorem interruptHandlerWrite_of_doesNotCallBack (cb : Callback) (hcb : DoesNotCallBack cb)
    (b : Bool) (s : ChipUartLowLevel) :
    ∃ memory, interruptHandlerWrite cb b s
      = { interruptHandlerWrite recordingCallback b s with memory := memory } := by
  obtain ⟨writePosition, u, h⟩ := interruptHandlerWrite_eq_check b s
  rw [h cb, h recordingCallback]
  exact interruptHandlerWriteCheck_of_doesNotCallBack cb hcb writePosition u

/-- The transmit-complete branch with a callback sink that does not call back into the driver
differs from the one with the recording sink in the memory only. -/
theorem interruptHandlerTransmitComplete_of_doesNotCallBack (cb : Callback)
    (hcb : DoesNotCallBack cb) (s : ChipUartLowLevel) :
    ∃ memory, interruptHandlerTransmitComplete cb s
      = { interruptHandlerTransmitComplete recordingCallback s with memory := memory } := by
  unfold interruptHandlerTransmitComplete
  exact ⟨_, notify_of_doesNotCallBack cb hcb _ _⟩

/-- The three branches of the interrupt handler, each run if its condition is pending, with a
callback sink that does not call back into the driver differ from the ones with the recording
sink in the memory only. -/
theorem serve_of_doesNotCallBack (cb : Callback) (hcb : DoesNotCallBack cb) (b : Bool)
    (s : ChipUartLowLevel) :
    (∃ memory, serveRead cb b s = { serveRead recordingCallback b s with memory := memory })
    ∧ (∃ memory, serveWrite cb b s = { serveWrite recordingCallback b s with memory := memory })
    ∧ ∃ memory, serveTransmitComplete cb s
        = { serveTransmitComplete recordingCallback s with memory := memory } := by
  unfold serveRead serveWrite serveTransmitComplete
  refine ⟨?_, ?_, ?_⟩
  · split_ifs
    · exact interruptHandlerRead_of_doesNotCallBack cb hcb b s.SR s
    · exact ⟨s.memory, rfl⟩
  · split_ifs
    · exact interruptHandlerWrite_of_doesNotCallBack cb hcb b s
    · exact ⟨s.memory, rfl⟩
  · split_ifs
    · exact interruptHandlerTransmitComplete_of_doesNotCallBack cb hcb s
    · exact ⟨s.memory, rfl⟩

/-- For a callback sink that leaves the peripheral alone a run of the interrupt handler with
four or more evaluations of the loop condition returns the state after the three branches, each
run if its condition is pending. -/
theorem interruptHandler_of_alone (cb : Callback) (hcb : LeavesPeripheralAlone cb)
    (fuel : Nat) (s : ChipUartLowLevel) (hfuel : 4 ≤ fuel) :
    interruptHandler cb fuel s
      = some (serveTransmitComplete cb
          (serveWrite cb (is9BitFormatEnabled s) (serveRead cb (is9BitFormatEnabled s) s))) :=
  interruptHandlerLoop_of_alone cb hcb _ fuel s hfuel

theorem transmitFrame_serveRead_of_doesNotCallBack (cb : Callback) (hcb : DoesNotCallBack cb)
    (b : Bool) (s : ChipUartLowLevel) : TransmitFrame s (serveRead cb b s) := by
  obtain ⟨memory, hm⟩ := (serve_of_doesNotCallBack cb hcb b s).1
  rw [hm]
  exact transmitFrame_serveRead b s

/-- Runs of the interrupt handler, with a callback sink that does not call back into the
driver, while the transmit-data-empty and the transmit-complete interrupts are disabled record
no `transmitCompleteEvent` and leave both disabled. -/
theorem handlerRuns_of_transmit_disabled_of_doesNotCallBack (cb : Callback)
    (hcb : DoesNotCallBack cb) (fuel : Nat) (hfuel : 4 ≤ fuel) (runs : List (Nat × Nat)) :
    ∀ u : ChipUartLowLevel, u.CR1.testBit 6 = false → u.CR1.testBit 7 = false →
      ∃ v, handlerRuns cb fuel runs u = some v
        ∧ v.CR1.testBit 6 = false ∧ v.CR1.testBit 7 = false
        ∧ ∃ new, v.events = u.events ++ new
            ∧ new.filter (fun e => isTransmitCompleteEvent e.2) = [] := by
  have halone := leavesPeripheralAlone_of_doesNotCallBack cb hcb
  induction runs with
  | nil => intro u h6 h7; exact ⟨u, rfl, h6, h7, [], by simp, rfl⟩
  | cons run rest ih =>
    intro u h6 h7
    obtain ⟨sr, dr⟩ := run
    obtain ⟨f1, f2, f3, f4, f5, new1, f6, f7⟩ :=
      transmitFrame_serveRead_of_doesNotCallBack cb hcb
        (is9BitFormatEnabled (hardwareStatus sr dr u)) (hardwareStatus sr dr u)
    generalize hw : serveRead cb (is9BitFormatEnabled (hardwareStatus sr dr u))
      (hardwareStatus sr dr u) = w at *
    have h6w : w.CR1.testBit 6 = false := by rw [f4]; exact h6
    have h7w : w.CR1.testBit 7 = false := by rw [f5]; exact h7
    have hserveWrite : serveWrite cb (is9BitFormatEnabled (hardwareStatus sr dr u)) w = w := by
      simp [serveWrite, txPending, h7w]
    have hserveTC : serveTransmitComplete cb w = w := by
      simp [serveTransmitComplete, tcPending, h6w]
    obtain ⟨v, hv, g6, g7, new2, g8, g9⟩ := ih w h6w h7w
    refine ⟨v, ?_, g6, g7, new1 ++ new2, ?_, ?_⟩
    · rw [handlerRuns, interruptHandler_of_alone cb halone _ _ hfuel, hw, hserveWrite, hserveTC]
      exact hv
    · rw [g8, f6]
      simp [hardwareStatus, List.append_assoc]
    · rw [List.filter_append, f7, g9]; rfl

/-- The code and the state of `stopWrite` when no write is in progress. -/
theorem stopWrite_of_idle (s : ChipUartLowLevel) (h : isWriteInProgress s = false) :
    stopWrite s = (0, s) := by
  unfold stopWrite
  rw [if_pos (by simp [h])]

/-- The first evaluation of the loop of the interrupt handler after `stopWrite` stopped a write,
for every callback sink: with the transmit-complete flag set and no receive condition pending
the handler disables the transmit-complete interrupt, notifies the sink of
`transmitCompleteEvent` and goes on from the state the sink returns. -/
theorem interruptHandler_after_stopWrite (cb : Callback) (fuel : Nat) (s : ChipUartLowLevel)
    (hw : isWriteInProgress s = true) (sr dr : Nat) (htc : sr &&& USART_SR_TC ≠ 0)
    (hrx : sr &&& s.CR1 &&& USART_SR_RXNE = 0) :
    interruptHandler cb (fuel + 1) (hardwareStatus sr dr (stopWrite s).2)
      = interruptHandlerLoop cb (is9BitFormatEnabled (stopWrite s).2) fuel
          (notify cb Event.transmitCompleteEvent
            (enableTcInterrupt false (hardwareStatus sr dr (stopWrite s).2))) := by
  obtain ⟨_, _, _, _, h7, h6⟩ := stopWrite_state s hw
  have hcr5 : (stopWrite s).2.CR1.testBit 5 = s.CR1.testBit 5 := by
    unfold stopWrite
    rw [if_neg (by simp [hw])]
    simp only [enableTxeInterrupt, enableTcInterrupt, USART_CR1_TXEIE_bit, USART_CR1_TCIE_bit]
    rw [testBit_bitbandWrite _ _ _ _ (by decide), testBit_bitbandWrite _ _ _ _ (by decide)]
    simp
  simp only [USART_CR1_TXEIE_bit, USART_CR1_TCIE_bit] at h7 h6
  have hTC : USART_SR_TC = 2 ^ 6 := by decide
  have hR : USART_SR_RXNE = 2 ^ 5 := by decide
  have hsr6 : sr.testBit 6 = true := by
    rw [hTC] at htc; exact (and_two_pow_ne_zero_iff sr 6).mp htc
  rw [hR, and_two_pow_eq_zero_iff, Nat.testBit_and] at hrx
  have h1 : rxPending (hardwareStatus sr dr (stopWrite s).2) = false := by
    simp only [rxPending, hardwareStatus, hcr5]
    exact hrx
  have h2 : txPending (hardwareStatus sr dr (stopWrite s).2) = false := by
    simp [txPending, hardwareStatus, h7]
  have h3 : tcPending (hardwareStatus sr dr (stopWrite s).2) = true := by
    simp [tcPending, hardwareStatus, h6, hsr6]
  unfold interruptHandler
  rw [interruptHandlerLoop_succ, h1, h2, h3]
  rfl

/-- C14, amended: `stopWrite` called with no write in progress returns 0 and changes nothing.
Called while a write is in progress it leaves the driver in a state where, for every callback
sink, the next run of the interrupt handler with the transmit-complete flag set and no receive
condition pending first disables the transmit-complete interrupt and then notifies the sink of
`transmitCompleteEvent`; and where, with a callback sink that does not call back into the
driver, the next run of the interrupt handler with the transmit-complete flag set records
exactly one `transmitCompleteEvent`, which is the only notification of the run when no receive
condition is pending, and the runs of the handler after it, whatever the status flags and the
received data are, record no more. -/
theorem stopWrite_arms_one_transmitCompleteEvent (fuel : Nat) (hfuel : 4 ≤ fuel)
    (s : ChipUartLowLevel) :
    (isWriteInProgress s = false → stopWrite s = (0, s))
    ∧ (isWriteInProgress s = true → ∀ (cb : Callback) (sr dr : Nat),
        sr &&& USART_SR_TC ≠ 0 → sr &&& s.CR1 &&& USART_SR_RXNE = 0 →
        interruptHandler cb fuel (hardwareStatus sr dr (stopWrite s).2)
          = interruptHandlerLoop cb (is9BitFormatEnabled (stopWrite s).2) (fuel - 1)
              (notify cb Event.transmitCompleteEvent
                (enableTcInterrupt false (hardwareStatus sr dr (stopWrite s).2))))
    ∧ (isWriteInProgress s = true → ∀ cb : Callback, DoesNotCallBack cb →
        ∀ (sr dr : Nat), sr &&& USART_SR_TC ≠ 0 →
        ∀ runs : List (Nat × Nat),
        ∃ t, interruptHandler cb fuel (hardwareStatus sr dr (stopWrite s).2) = some t
          ∧ (∃ new, t.events = s.events ++ new
              ∧ new.filter (fun e => isTransmitCompleteEvent e.2)
                  = [(s.uartBase_, Event.transmitCompleteEvent)])
          ∧ (sr &&& s.CR1 &&& USART_SR_RXNE = 0 →
              t.events = s.events ++ [(s.uartBase_, Event.transmitCompleteEvent)])
          ∧ ∃ v, handlerRuns cb fuel runs t = some v
              ∧ ∃ new, v.events = t.events ++ new
                  ∧ new.filter (fun e => isTransmitCompleteEvent e.2) = []) := by
  refine ⟨stopWrite_of_idle s, fun hw cb sr dr htc hrx => ?_,
    fun hw cb hcb sr dr htc runs => ?_⟩
  · obtain ⟨f, rfl⟩ : ∃ f, fuel = f + 1 := ⟨fuel - 1, by omega⟩
    exact interruptHandler_after_stopWrite cb f s hw sr dr htc hrx
  · have halone := leavesPeripheralAlone_of_doesNotCallBack cb hcb
    obtain ⟨_, _, _, _, h7, h6⟩ := stopWrite_state s hw
    have hsink : (stopWrite s).2.uartBase_ = s.uartBase_ := by
      unfold stopWrite; split_ifs <;> rfl
    have hevents : (stopWrite s).2.events = s.events := by
      unfold stopWrite; split_ifs <;> rfl
    have hcr5 : (stopWrite s).2.CR1.testBit 5 = s.CR1.testBit 5 := by
      unfold stopWrite
      rw [if_neg (by simp [hw])]
      simp only [enableTxeInterrupt, enableTcInterrupt, USART_CR1_TXEIE_bit, USART_CR1_TCIE_bit]
      rw [testBit_bitbandWrite _ _ _ _ (by decide), testBit_bitbandWrite _ _ _ _ (by decide)]
      simp
    simp only [USART_CR1_TXEIE_bit, USART_CR1_TCIE_bit] at h7 h6
    generalize (stopWrite s).2 = s1 at *
    have hTC : USART_SR_TC = 2 ^ 6 := by decide
    have hsr6 : sr.testBit 6 = true := by
      rw [hTC] at htc; exact (and_two_pow_ne_zero_iff sr 6).mp htc
    rw [interruptHandler_of_alone cb halone _ _ hfuel]
    have h9 : is9BitFormatEnabled (hardwareStatus sr dr s1) = is9BitFormatEnabled s1 := rfl
    rw [h9]
    obtain ⟨f1, f2, f3, f4, f5, new1, f6, f7⟩ :=
      transmitFrame_serveRead_of_doesNotCallBack cb hcb (is9BitFormatEnabled s1)
        (hardwareStatus sr dr s1)
    have hid : rxPending (hardwareStatus sr dr s1) = false →
        serveRead cb (is9BitFormatEnabled s1) (hardwareStatus sr dr s1)
          = hardwareStatus sr dr s1 := by
      intro h
      simp [serveRead, h]
    generalize serveRead cb (is9BitFormatEnabled s1) (hardwareStatus sr dr s1) = w at *
    have h6w : w.CR1.testBit 6 = true := by rw [f4]; exact h6
    have h7w : w.CR1.testBit 7 = false := by rw [f5]; exact h7
    have hsr6w : w.SR.testBit 6 = true := by rw [f2]; exact hsr6
    have hserveWrite : serveWrite cb (is9BitFormatEnabled s1) w = w := by
      simp [serveWrite, txPending, h7w]
    have hserveTC : serveTransmitComplete cb w = interruptHandlerTransmitComplete cb w := by
      simp [serveTransmitComplete, tcPending, h6w, hsr6w]
    rw [hserveWrite, hserveTC]
    have hbit : ∀ i, i < 32 →
        (interruptHandlerTransmitComplete cb w).CR1.testBit i
          = if 6 = i then false else w.CR1.testBit i := by
      intro i hi
      rw [(CR1_interruptHandlerTransmitComplete_of_alone cb halone w).1,
        testBit_bitbandWrite _ _ _ _ hi]
    have hev : (interruptHandlerTransmitComplete cb w).events
        = w.events ++ [(w.uartBase_, Event.transmitCompleteEvent)] := by
      obtain ⟨memory, hm⟩ := interruptHandlerTransmitComplete_of_doesNotCallBack cb hcb w
      rw [hm]
      rfl
    obtain ⟨v, hv, _, _, new2, g1, g2⟩ :=
      handlerRuns_of_transmit_disabled_of_doesNotCallBack cb hcb fuel hfuel runs
        (interruptHandlerTransmitComplete cb w)
        (by rw [hbit 6 (by decide)]; simp)
        (by rw [hbit 7 (by decide)]; simpa using h7w)
    refine ⟨_, rfl, ⟨new1 ++ [(s.uartBase_, Event.transmitCompleteEvent)], ?_, ?_⟩, ?_,
      v, hv, new2, g1, g2⟩
    · rw [hev, f6, f1]
      simp [hardwareStatus, hevents, hsink, List.append_assoc]
    · rw [List.filter_append, f7]
      rfl
    · intro hrx
      have hrx' : rxPending (hardwareStatus sr dr s1) = false := by
        have hR : USART_SR_RXNE = 2 ^ 5 := by decide
        rw [hR, and_two_pow_eq_zero_iff, Nat.testBit_and] at hrx
        simp only [rxPending, hardwareStatus, hcr5]
        exact hrx
      rw [hev, hid hrx']
      simp [hardwareStatus, hevents, hsink]

/-- Witness of C14, amended: the example write is stopped after two of its three bytes; the
next run of the interrupt handler, with the recording sink, records the one
`transmitCompleteEvent`, and two further runs, with all three flags set, record nothing more.
On the started example driver, where no write is in progress, `stopWrite` returns 0 and leaves
the state as it is. -/
theorem stopWrite_arms_one_transmitCompleteEvent_witness :
    (4 ≤ 4 ∧ isWriteInProgress writing8Last = true ∧ DoesNotCallBack recordingCallback
      ∧ 0xC0 &&& USART_SR_TC ≠ 0 ∧ 0xC0 &&& writing8Last.CR1 &&& USART_SR_RXNE = 0
      ∧ isWriteInProgress started8 = false)
    ∧ (stopWrite writing8Last).1 = 2
    ∧ (handlerRuns recordingCallback 4 [(0xC0, 0), (0xE0, 0x41), (0xE0, 0x42)]
          (stopWrite writing8Last).2).map (fun t => t.events)
        = some [(some 1, Event.transmitStartEvent), (some 1, Event.transmitCompleteEvent)]
    ∧ stopWrite started8 = (0, started8)
    ∧ interruptHandler (restartWriteCallback 0x20000200 4) 4
          (hardwareStatus 0xC0 0 (stopWrite writing8Last).2)
        = interruptHandlerLoop (restartWriteCallback 0x20000200 4)
            (is9BitFormatEnabled (stopWrite writing8Last).2) (4 - 1)
            (notify (restartWriteCallback 0x20000200 4) Event.transmitCompleteEvent
              (enableTcInterrupt false (hardwareStatus 0xC0 0 (stopWrite writing8Last).2)))
    ∧ ∃ t, interruptHandler recordingCallback 4
            (hardwareStatus 0xC0 0 (stopWrite writing8Last).2) = some t
        ∧ (∃ new, t.events = writing8Last.events ++ new
            ∧ new.filter (fun e => isTransmitCompleteEvent e.2)
                = [(writing8Last.uartBase_, Event.transmitCompleteEvent)])
        ∧ (0xC0 &&& writing8Last.CR1 &&& USART_SR_RXNE = 0 →
            t.events = writing8Last.events
              ++ [(writing8Last.uartBase_, Event.transmitCompleteEvent)])
        ∧ ∃ v, handlerRuns recordingCallback 4 [(0xE0, 0x41), (0xE0, 0x42)] t = some v
            ∧ ∃ new, v.events = t.events ++ new
                ∧ new.filter (fun e => isTransmitCompleteEvent e.2) = [] :=
  ⟨⟨by decide, by decide, doesNotCallBack_recordingCallback, by decide, by decide, by decide⟩,
    by decide, by decide,
    (stopWrite_arms_one_transmitCompleteEvent 4 (by decide) started8).1 (by decide),
    (stopWrite_arms_one_transmitCompleteEvent 4 (by decide) writing8Last).2.1 (by decide)
      (restartWriteCallback 0x20000200 4) 0xC0 0 (by decide) (by decide),
    (stopWrite_arms_one_transmitCompleteEvent 4 (by decide) writing8Last).2.2 (by decide)
      recordingCallback doesNotCallBack_recordingCallback 0xC0 0 (by decide)
      [(0xE0, 0x41), (0xE0, 0x42)]⟩

end chip

end distortos
